import Mathlib

/-!
# Auto-Vk `avk::old_sync` (src/src/sync.cpp): a shallow embedding

The synchronisation object `old_sync` is embedded as a record, the objects that are
alive as a heap of such records indexed by address, and every call the code makes on a
collaborator (command buffer, pool, queue, caller-supplied closure, logger) as an entry
of a trace.  Handles of command buffers, semaphores and queues are natural numbers.

Modelling conventions:

* caller-supplied closures are opaque: a call is recorded with its arguments and has no
  other effect on the heap; the only closure with a known body is the lambda that
  `auxiliary_with_barriers` builds for the steal-on-demand mode (sync.cpp 184-191 and
  199-206), which captures the address of the master;
* `assert` is compiled in or out by `NDEBUG`; the flag is the parameter `ndebug`;
* an exception or a failed assertion stops the call: the world reached so far is kept
  and the outcome is an error.
-/

namespace avk

/-- Enumerators of `old_sync::sync_type` that sync.cpp names (switch of
`submit_and_sync`, lines 336-395). -/
inductive sync_type where
  | not_required
  | by_return
  | by_existing_command_buffer
  | via_wait_idle
  | via_wait_idle_deliberately
  | via_semaphore
  | via_barrier
  deriving DecidableEq, Repr

/-- Enumerators of `commandbuffer_request` that sync.cpp names (lines 260, 266, 278). -/
inductive commandbuffer_request where
  | reusable
  | single_use
  deriving DecidableEq, Repr

/-- Pipeline stages: the enumerators sync.cpp names, every other value as `other`. -/
inductive pipeline_stage where
  | top_of_pipe
  | transfer
  | bottom_of_pipe
  | all_commands
  | other (bits : Nat)
  deriving DecidableEq, Repr

/-- Memory access kinds: the enumerators sync.cpp names, every other value as `other`.
`read_memory_access` and `write_memory_access` wrap a value of this type. -/
inductive memory_access where
  | any_access
  | any_read_access
  | any_write_access
  | transfer_write_access
  | other (bits : Nat)
  deriving DecidableEq, Repr

/-- Usage flags handed to `alloc_command_buffer` (lines 279 and 282). -/
inductive usage_flags where
  | none_set
  | one_time_submit
  deriving DecidableEq, Repr

/-- The two barrier callbacks of an instance. -/
inductive hook_kind where
  | before
  | after
  deriving DecidableEq, Repr

/-- What a barrier callback slot can hold: a caller-supplied closure (opaque, named by an
identifier), or the steal-on-demand lambda of `auxiliary_with_barriers`, which captures
`&aMasterSync` (here: the address of the master in the heap). -/
inductive barrier_handler where
  | closure (id : Nat)
  | steal_on_demand (master : Nat)
  deriving DecidableEq, Repr

/-- The variant `mCommandBufferRefOrLifetimeHandler`: `std::monostate`, a
`std::reference_wrapper<command_buffer_t>` or a `unique_function<void(command_buffer)>`. -/
inductive commandbuffer_slot where
  | monostate
  | reference (cb : Nat)
  | lifetime_handler (id : Nat)
  deriving DecidableEq, Repr

/-- The data members of `old_sync`, in the order of the move constructor (lines 84-93).
An empty `unique_function` and an empty `std::optional` are `none`. -/
structure old_sync where
  mSpecialSync : Option sync_type
  mCommandbufferRequest : commandbuffer_request
  mSemaphoreLifetimeHandler : Option Nat
  mWaitBeforeSemaphores : List Nat
  mCommandBufferRefOrLifetimeHandler : commandbuffer_slot
  mCommandBuffer : Option Nat
  mEstablishBarrierBeforeOperationCallback : Option barrier_handler
  mEstablishBarrierAfterOperationCallback : Option barrier_handler
  mQueueToUse : Option Nat
  mQueueRecommendation : Option Nat
  deriving DecidableEq, Repr

/-- The two messages the destructor hands to `AVK_LOG_ERROR`: line 136 ("Sync is
requested 'by_return', but command buffer has not been fetched.") and line 139 ("Command
buffer has not been submitted but ak::old_sync instance is destructed. This must be a
bug."). -/
inductive error_message where
  | by_return_not_fetched
  | not_submitted
  deriving DecidableEq, Repr

/-- The two messages the destructor hands to `AVK_LOG_DEBUG`: line 144 (the
before-operation callback has never been invoked) and line 147 (the after-operation
callback has never been invoked). -/
inductive debug_message where
  | before_never_invoked
  | after_never_invoked
  deriving DecidableEq, Repr

/-- Calls the code makes on its collaborators, in the order they happen. -/
inductive Event where
  | alloc_command_buffer (flags : usage_flags) (cb : Nat)
  | begin_recording (cb : Nat)
  | end_recording (cb : Nat)
  | establish_global_memory_barrier (cb : Nat) (srcStage dstStage : pipeline_stage)
      (srcAccess dstAccess : Option memory_access)
  | submit (queue cb : Nat) (semaphore : Option Nat)
  | submit_and_handle_with_semaphore (queue cb : Nat) (waitSemaphores : List Nat)
      (result : Nat)
  | wait_idle (queue : Nat)
  | semaphore_handler_called (id sema : Nat)
  | lifetime_handler_called (id cb : Nat)
  | barrier_handler_called (kind : hook_kind) (id cb : Nat) (stage : pipeline_stage)
      (access : Option memory_access)
  | log_warning
  | log_error (message : error_message)
  | log_debug (message : debug_message)
  deriving DecidableEq, Repr

/-- The program state: the `old_sync` objects alive (address = position), the static
`sQueueToUse`, the supply of fresh handles of `sPoolToAllocCommandBuffersFrom` and of the
queue, and the trace of collaborator calls. -/
structure World where
  instances : List old_sync
  sQueueToUse : Nat
  next_handle : Nat
  trace : List Event
  deriving DecidableEq, Repr

/-- How a call can stop without returning. -/
inductive sync_error where
  | assertion_failed
  | bad_optional_access
  | bad_function_call
  | runtime_error_no_sync_required
  | runtime_error_no_command_buffer
  | logic_error_unknown_sync_type
  deriving DecidableEq, Repr

/-- Outcome of a call: the value returned, or the way the call stopped. -/
inductive outcome (α : Type) where
  | returned (value : α)
  | failed (e : sync_error)
  deriving DecidableEq, Repr

/-- Modelled from the spec: the default constructor `old_sync()` lives in the header,
which is not under src/. Every member is empty (absent override, empty closures, empty
list, `std::monostate`, empty optionals); the initial `commandbuffer_request` is not
fixed by sync.cpp and is a parameter. -/
def old_sync.default_constructed (request : commandbuffer_request) : old_sync :=
  { mSpecialSync := none
    mCommandbufferRequest := request
    mSemaphoreLifetimeHandler := none
    mWaitBeforeSemaphores := []
    mCommandBufferRefOrLifetimeHandler := .monostate
    mCommandBuffer := none
    mEstablishBarrierBeforeOperationCallback := none
    mEstablishBarrierAfterOperationCallback := none
    mQueueToUse := none
    mQueueRecommendation := none }

/-- The factory `old_sync::not_required()`, lines 152-157. -/
def old_sync.not_required (request : commandbuffer_request) : old_sync :=
  { old_sync.default_constructed request with mSpecialSync := some .not_required }

/-- The factory `old_sync::wait_idle(bool aDontWarn)`, lines 159-166. -/
def old_sync.wait_idle (request : commandbuffer_request) (aDontWarn : Bool) : old_sync :=
  let result := old_sync.default_constructed request
  if aDontWarn then { result with mSpecialSync := some .via_wait_idle_deliberately }
  else result

/-- The member `old_sync::get_sync_type() const`, lines 231-240. -/
def old_sync.get_sync_type (s : old_sync) : sync_type :=
  if s.mSemaphoreLifetimeHandler.isSome then .via_semaphore
  else if s.mCommandBufferRefOrLifetimeHandler ≠ .monostate then .via_barrier
  else match s.mSpecialSync with
    | some t => t
    | none => .via_wait_idle

/-- The member `old_sync::queue_to_use() const`, lines 242-256: the body returns
`*sQueueToUse`. -/
def queue_to_use (w : World) (_s : old_sync) : Nat :=
  w.sQueueToUse

/-- The callback slot of the given kind. -/
def old_sync.callback (s : old_sync) : hook_kind → Option barrier_handler
  | .before => s.mEstablishBarrierBeforeOperationCallback
  | .after => s.mEstablishBarrierAfterOperationCallback

/-- Assignment to the callback slot of the given kind. -/
def old_sync.set_callback (s : old_sync) (k : hook_kind) (h : Option barrier_handler) :
    old_sync :=
  match k with
  | .before => { s with mEstablishBarrierBeforeOperationCallback := h }
  | .after => { s with mEstablishBarrierAfterOperationCallback := h }

/-- Append one collaborator call to the trace. -/
def World.emit (w : World) (e : Event) : World :=
  { w with trace := w.trace ++ [e] }

/-- Overwrite the object at address `a`. -/
def World.store (w : World) (a : Nat) (s : old_sync) : World :=
  { w with instances := w.instances.set a s }

/-- The call `sPoolToAllocCommandBuffersFrom->alloc_command_buffer(flags)`: a fresh
handle. -/
def World.alloc_command_buffer (w : World) (flags : usage_flags) : World × Nat :=
  ({ w with next_handle := w.next_handle + 1,
            trace := w.trace ++ [.alloc_command_buffer flags w.next_handle] },
   w.next_handle)

/-- The member `old_sync::get_or_create_command_buffer()`, lines 270-288, on the object at address
`a`. Returns the new world and the handle of the command buffer referred to. -/
def get_or_create_command_buffer (w : World) (a : Nat) : World × Nat :=
  match w.instances[a]? with
  | none => (w, 0)
  | some s =>
    match s.mCommandBufferRefOrLifetimeHandler with
    | .reference cb => (w, cb)
    | _ =>
      match s.mCommandBuffer with
      | some cb => (w, cb)
      | none =>
        let flags := match s.mCommandbufferRequest with
          | .reusable => usage_flags.none_set
          | _ => usage_flags.one_time_submit
        let (w1, cb) := w.alloc_command_buffer flags
        let w2 := w1.store a { s with mCommandBuffer := some cb }
        (w2.emit (.begin_recording cb), cb)

/-- Invocation of a barrier callback with `(cb, stage, access)`. A caller-supplied
closure is recorded. The steal-on-demand lambda (lines 184-191, 199-206) moves the
master's callback of the same kind out, clears the master's slot and, if the callback
moved out is non-empty, invokes it with the same arguments. The first argument bounds
the depth of such chains. -/
def call_handler (k : hook_kind) : Nat → World → barrier_handler → Nat → pipeline_stage →
    Option memory_access → World
  | _, w, .closure id, cb, stage, access =>
    w.emit (.barrier_handler_called k id cb stage access)
  | 0, w, .steal_on_demand _, _, _, _ => w
  | fuel + 1, w, .steal_on_demand m, cb, stage, access =>
    match w.instances[m]? with
    | none => w
    | some master =>
      let w1 := w.store m (master.set_callback k none)
      match master.callback k with
      | none => w1
      | some handler => call_handler k fuel w1 handler cb stage access

/-- Number of objects whose callback slot of kind `k` is populated. Every step of a
steal-on-demand chain empties one of them. -/
def World.populated (w : World) (k : hook_kind) : Nat :=
  w.instances.countP (fun s => (s.callback k).isSome)

/-- Depth bound that no steal-on-demand chain in `w` exceeds. -/
def World.chain_bound (w : World) (k : hook_kind) : Nat :=
  w.populated k + 1

/-- Common body of `establish_barrier_before_the_operation` (lines 307-314) and
`establish_barrier_after_the_operation` (lines 316-323) on the object at address `a`. -/
def establish_barrier (k : hook_kind) (w : World) (a : Nat) (stage : pipeline_stage)
    (access : Option memory_access) : World :=
  match w.instances[a]? with
  | none => w
  | some s =>
    match s.callback k with
    | none => w
    | some handler =>
      let (w1, cb) := get_or_create_command_buffer w a
      let w2 := call_handler k (w1.chain_bound k) w1 handler cb stage access
      match w2.instances[a]? with
      | none => w2
      | some s2 => w2.store a (s2.set_callback k none)

/-- The member `old_sync::establish_barrier_before_the_operation`, lines 307-314. -/
def establish_barrier_before_the_operation (w : World) (a : Nat)
    (aDestinationPipelineStages : pipeline_stage)
    (aDestinationMemoryStages : Option memory_access) : World :=
  establish_barrier .before w a aDestinationPipelineStages aDestinationMemoryStages

/-- The member `old_sync::establish_barrier_after_the_operation`, lines 316-323. -/
def establish_barrier_after_the_operation (w : World) (a : Nat)
    (aSourcePipelineStages : pipeline_stage)
    (aSourceMemoryStages : Option memory_access) : World :=
  establish_barrier .after w a aSourcePipelineStages aSourceMemoryStages

/-- The macro `assert(cond)`: checked unless `NDEBUG` is defined. -/
def assert_holds (ndebug : Bool) (cond : Bool) : Bool :=
  ndebug || cond

/-- The call `queue.submit_and_handle_with_semaphore(owned(cb), waits)`: a fresh
semaphore. -/
def World.submit_and_handle_with_semaphore (w : World) (queue cb : Nat)
    (waits : List Nat) : World × Nat :=
  ({ w with next_handle := w.next_handle + 1,
            trace := w.trace ++
              [.submit_and_handle_with_semaphore queue cb waits w.next_handle] },
   w.next_handle)

/-- Lines 397-398 of `submit_and_sync`: the closing assertion and `return {}`. -/
def submit_and_sync_epilogue (ndebug : Bool) (w : World) (a : Nat) :
    World × outcome (Option Nat) :=
  match w.instances[a]? with
  | none => (w, .returned none)
  | some s =>
    if assert_holds ndebug s.mCommandBuffer.isNone then (w, .returned none)
    else (w, .failed .assertion_failed)

/-- The member `old_sync::submit_and_sync()`, lines 325-399, on the object at address `a`. The
handles of `mWaitBeforeSemaphores` are collected into `waitSemaphoreOwnerships`; the
moved-from elements that stay in the vector are kept as the same handles. -/
def submit_and_sync (ndebug : Bool) (w : World) (a : Nat) :
    World × outcome (Option Nat) :=
  match w.instances[a]? with
  | none => (w, .returned none)
  | some s =>
    let queue := queue_to_use w s
    let syncType := s.get_sync_type
    let waitSemaphoreOwnerships := s.mWaitBeforeSemaphores
    match syncType with
    | .via_semaphore =>
      if !assert_holds ndebug s.mSemaphoreLifetimeHandler.isSome then
        (w, .failed .assertion_failed)
      else if !assert_holds ndebug s.mCommandBuffer.isSome then
        (w, .failed .assertion_failed)
      else
        match s.mCommandBuffer with
        | none => (w, .failed .bad_optional_access)
        | some cb =>
          let w1 := w.emit (.establish_global_memory_barrier cb .all_commands
            .all_commands (some .any_access) (some .any_access))
          let w2 := w1.emit (.end_recording cb)
          let (w3, sema) := w2.submit_and_handle_with_semaphore queue cb
            waitSemaphoreOwnerships
          match s.mSemaphoreLifetimeHandler with
          | none => (w3, .failed .bad_function_call)
          | some sink =>
            let w4 := w3.emit (.semaphore_handler_called sink sema)
            let w5 := w4.store a
              { s with mCommandBuffer := none, mWaitBeforeSemaphores := [] }
            submit_and_sync_epilogue ndebug w5 a
    | .via_barrier =>
      if !assert_holds ndebug
          (decide (s.mCommandBufferRefOrLifetimeHandler ≠ .monostate)) then
        (w, .failed .assertion_failed)
      else
        match s.mCommandBufferRefOrLifetimeHandler with
        | .lifetime_handler f =>
          if !assert_holds ndebug s.mCommandBuffer.isSome then
            (w, .failed .assertion_failed)
          else
            match s.mCommandBuffer with
            | none => (w, .failed .bad_optional_access)
            | some cb =>
              let w1 := w.emit (.end_recording cb)
              let w2 := w1.emit (.submit queue cb none)
              let w3 := w2.emit (.lifetime_handler_called f cb)
              let w4 := w3.store a { s with mCommandBuffer := none }
              submit_and_sync_epilogue ndebug w4 a
        | .reference _ => submit_and_sync_epilogue ndebug w a
        | .monostate =>
          if !assert_holds ndebug false then (w, .failed .assertion_failed)
          else submit_and_sync_epilogue ndebug w a
    | .via_wait_idle | .via_wait_idle_deliberately =>
      if !assert_holds ndebug s.mCommandBuffer.isSome then
        (w, .failed .assertion_failed)
      else
        match s.mCommandBuffer with
        | none => (w, .failed .bad_optional_access)
        | some cb =>
          let w1 := w.emit (.end_recording cb)
          let w2 := w1.emit (.submit queue cb none)
          let w3 := w2.emit (.wait_idle (queue_to_use w2 s))
          let w4 := w3.store a { s with mCommandBuffer := none }
          submit_and_sync_epilogue ndebug w4 a
    | .not_required =>
      if !assert_holds ndebug false then (w, .failed .assertion_failed)
      else (w, .failed .runtime_error_no_sync_required)
    | .by_return =>
      match s.mCommandBuffer with
      | none => (w, .failed .runtime_error_no_command_buffer)
      | some cb =>
        let w1 := w.emit (.end_recording cb)
        let w2 := w1.store a { s with mCommandBuffer := none }
        (w2, .returned (some cb))
    | .by_existing_command_buffer => (w, .returned none)

/-- The test `std::holds_alternative<std::monostate>` on the command-buffer slot. -/
def commandbuffer_slot.holds_monostate : commandbuffer_slot → Bool
  | .monostate => true
  | _ => false

/-- The test `std::holds_alternative<std::reference_wrapper<command_buffer_t>>`. -/
def commandbuffer_slot.holds_reference : commandbuffer_slot → Bool
  | .reference _ => true
  | _ => false

/-- The test `std::holds_alternative<unique_function<void(command_buffer)>>`. -/
def commandbuffer_slot.holds_lifetime_handler : commandbuffer_slot → Bool
  | .lifetime_handler _ => true
  | _ => false

/-- Example object: a semaphore sink (closure 7), an external command-buffer reference
and an override, all at once. -/
def example_sink_and_reference : old_sync :=
  { old_sync.not_required .single_use with
    mSemaphoreLifetimeHandler := some 7
    mCommandBufferRefOrLifetimeHandler := .reference 3 }

/-- Example object: an auxiliary, that is, only an external command-buffer reference. -/
def example_auxiliary : old_sync :=
  { old_sync.default_constructed .single_use with
    mCommandBufferRefOrLifetimeHandler := .reference 3 }

/-- Example object: a lifetime closure (closure 9) together with an override. -/
def example_lifetime_handler : old_sync :=
  { old_sync.not_required .reusable with
    mCommandBufferRefOrLifetimeHandler := .lifetime_handler 9 }

/-- Example object: the override `by_return` and nothing else. -/
def example_by_return : old_sync :=
  { old_sync.default_constructed .reusable with mSpecialSync := some .by_return }

/-- Example world around one object, with queue 5 and next fresh handle 100. -/
def example_world (s : old_sync) : World :=
  { instances := [s], sQueueToUse := 5, next_handle := 100, trace := [] }

/-- Example world: a semaphore sink, a provisioned command buffer 11 and two
wait-semaphores. -/
def example_semaphore_world : World :=
  example_world { example_sink_and_reference with
    mCommandBuffer := some 11
    mWaitBeforeSemaphores := [1, 2] }

/-- Example world: the result of `wait_idle(true)` with command buffer 11 provisioned. -/
def example_wait_idle_world : World :=
  example_world { old_sync.wait_idle .single_use true with mCommandBuffer := some 11 }

/-- Example world: the override `by_return` with command buffer 11 provisioned. -/
def example_by_return_world : World :=
  example_world { example_by_return with mCommandBuffer := some 11 }

/-- Example object: both hooks registered, the before-hook a caller-supplied closure and
the after-hook the steal-on-demand lambda on the master at address 1. -/
def example_hooked : old_sync :=
  { example_auxiliary with
    mEstablishBarrierBeforeOperationCallback := some (.closure 4)
    mEstablishBarrierAfterOperationCallback := some (.steal_on_demand 1) }

/-- Example world: `example_hooked` at address 0 and, at address 1, its master, which
owns command buffer 3 and has an after-hook (closure 6). -/
def example_hooks_world : World :=
  { instances :=
      [example_hooked,
       { old_sync.default_constructed .single_use with
          mCommandBuffer := some 3
          mEstablishBarrierAfterOperationCallback := some (.closure 6) }]
    sQueueToUse := 5
    next_handle := 100
    trace := [] }

/-! ### Moves, destruction, configuration and auxiliary composition -/

/-- The state lines 95-103 (and 119-127) leave the moved-from object in. The member
`mCommandbufferRequest` is not reset. -/
def old_sync.moved_from (aOther : old_sync) : old_sync :=
  { aOther with
    mSpecialSync := some .not_required
    mSemaphoreLifetimeHandler := none
    mWaitBeforeSemaphores := []
    mCommandBufferRefOrLifetimeHandler := .monostate
    mCommandBuffer := none
    mEstablishBarrierBeforeOperationCallback := none
    mEstablishBarrierAfterOperationCallback := none
    mQueueToUse := none
    mQueueRecommendation := none }

/-- The member-wise transfer of lines 84-93 (and 108-117): what the destination holds. -/
def old_sync.moved_into (aOther : old_sync) : old_sync :=
  { mSpecialSync := aOther.mSpecialSync
    mCommandbufferRequest := aOther.mCommandbufferRequest
    mSemaphoreLifetimeHandler := aOther.mSemaphoreLifetimeHandler
    mWaitBeforeSemaphores := aOther.mWaitBeforeSemaphores
    mCommandBufferRefOrLifetimeHandler := aOther.mCommandBufferRefOrLifetimeHandler
    mCommandBuffer := aOther.mCommandBuffer
    mEstablishBarrierBeforeOperationCallback :=
      aOther.mEstablishBarrierBeforeOperationCallback
    mEstablishBarrierAfterOperationCallback :=
      aOther.mEstablishBarrierAfterOperationCallback
    mQueueToUse := aOther.mQueueToUse
    mQueueRecommendation := aOther.mQueueRecommendation }

/-- Place a newly constructed object behind the objects alive; its address is the old
number of objects. -/
def World.place (w : World) (s : old_sync) : World × Nat :=
  ({ w with instances := w.instances ++ [s] }, w.instances.length)

/-- The move constructor `old_sync::old_sync(old_sync&& aOther)`, lines 83-104: the new
object is placed behind the others, the source at address `aOther` is reset. Returns the
address of the new object. -/
def move_construct (w : World) (aOther : Nat) : World × Nat :=
  match w.instances[aOther]? with
  | none => (w, w.instances.length)
  | some other =>
    let (w1, self) := w.place other.moved_into
    (w1.store aOther other.moved_from, self)

/-- The move assignment `old_sync::operator=(old_sync&& aOther)`, lines 106-130, on the
object at address `self`: first the ten member assignments, then the reset of the
source. -/
def move_assign (w : World) (self aOther : Nat) : World :=
  match w.instances[aOther]? with
  | none => w
  | some other =>
    let w1 := w.store self other.moved_into
    w1.store aOther other.moved_from

/-- Apply a member assignment to the object at address `a`. -/
def World.modify (w : World) (a : Nat) (f : old_sync → old_sync) : World :=
  match w.instances[a]? with
  | none => w
  | some s => w.store a (f s)

/-- The member `old_sync::on_queue`, lines 225-229. -/
def on_queue (w : World) (a : Nat) (aQueue : Nat) : World :=
  w.modify a (fun s => { s with mQueueToUse := some aQueue })

/-- The member `old_sync::create_reusable_commandbuffer`, lines 258-262. -/
def create_reusable_commandbuffer (w : World) (a : Nat) : World :=
  w.modify a (fun s => { s with mCommandbufferRequest := .reusable })

/-- The member `old_sync::create_single_use_commandbuffer`, lines 264-268. -/
def create_single_use_commandbuffer (w : World) (a : Nat) : World :=
  w.modify a (fun s => { s with mCommandbufferRequest := .single_use })

/-- The member `old_sync::set_queue_hint`, lines 302-305. -/
def set_queue_hint (w : World) (a : Nat) (aQueueRecommendation : Nat) : World :=
  w.modify a (fun s => { s with mQueueRecommendation := some aQueueRecommendation })

/-- What a caller passes to `auxiliary_with_barriers` for one hook: one of the two
sentinels declared in the header, or any other `unique_function`, possibly empty. -/
inductive hook_argument where
  | steal_on_demand_sentinel
  | steal_immediately_sentinel
  | explicit (handler : Option barrier_handler)
  deriving DecidableEq, Repr

/-- Modelled from the spec: `is_about_to_steal_before_handler_on_demand` is declared in
the header, which is not under src/; it recognises the steal-on-demand sentinel. -/
def is_about_to_steal_before_handler_on_demand : hook_argument → Bool
  | .steal_on_demand_sentinel => true
  | _ => false

/-- Modelled from the spec: `is_about_to_steal_after_handler_on_demand` is declared in
the header, which is not under src/; it recognises the steal-on-demand sentinel. -/
def is_about_to_steal_after_handler_on_demand : hook_argument → Bool
  | .steal_on_demand_sentinel => true
  | _ => false

/-- Modelled from the spec: `is_about_to_steal_before_handler_immediately` is declared in
the header, which is not under src/; it recognises the steal-immediately sentinel. -/
def is_about_to_steal_before_handler_immediately : hook_argument → Bool
  | .steal_immediately_sentinel => true
  | _ => false

/-- Modelled from the spec: `is_about_to_steal_after_handler_immediately` is declared in
the header, which is not under src/; it recognises the steal-immediately sentinel. -/
def is_about_to_steal_after_handler_immediately : hook_argument → Bool
  | .steal_immediately_sentinel => true
  | _ => false

/-- The closure an argument that is no sentinel stands for. -/
def hook_argument.function : hook_argument → Option barrier_handler
  | .explicit handler => handler
  | _ => none

/-- The step "possibly steal something" of `auxiliary_with_barriers` for one hook (lines
183-196 for the before-hook, 198-211 for the after-hook): the new world and the value
the parameter holds afterwards. -/
def steal_handler (k : hook_kind) (w : World) (aMasterSync : Nat)
    (stealOnDemand stealImmediately : Bool) (aEstablishBarrier : hook_argument) :
    World × Option barrier_handler :=
  if stealOnDemand then (w, some (.steal_on_demand aMasterSync))
  else if stealImmediately then
    match w.instances[aMasterSync]? with
    | none => (w, none)
    | some master =>
      (w.store aMasterSync (master.set_callback k none), master.callback k)
  else (w, aEstablishBarrier.function)

/-- The factory `old_sync::auxiliary_with_barriers`, lines 168-223. The result is placed
behind the objects alive and its address returned. -/
def auxiliary_with_barriers (ndebug : Bool) (request : commandbuffer_request) (w : World)
    (aMasterSync : Nat)
    (aEstablishBarrierBeforeOperation aEstablishBarrierAfterOperation : hook_argument) :
    World × outcome Nat :=
  let stealBeforeHandlerOnDemand :=
    is_about_to_steal_before_handler_on_demand aEstablishBarrierBeforeOperation
  let stealAfterHandlerOnDemand :=
    is_about_to_steal_after_handler_on_demand aEstablishBarrierAfterOperation
  let stealBeforeHandlerImmediately :=
    is_about_to_steal_before_handler_immediately aEstablishBarrierBeforeOperation
  let stealAfterHandlerImmediately :=
    is_about_to_steal_after_handler_immediately aEstablishBarrierAfterOperation
  if !assert_holds ndebug (decide (2 ≠
      stealBeforeHandlerImmediately.toNat + stealBeforeHandlerOnDemand.toNat)) then
    (w, .failed .assertion_failed)
  else if !assert_holds ndebug (decide (2 ≠
      stealAfterHandlerImmediately.toNat + stealAfterHandlerOnDemand.toNat)) then
    (w, .failed .assertion_failed)
  else
    let (w1, before) := steal_handler .before w aMasterSync stealBeforeHandlerOnDemand
      stealBeforeHandlerImmediately aEstablishBarrierBeforeOperation
    let (w2, after) := steal_handler .after w1 aMasterSync stealAfterHandlerOnDemand
      stealAfterHandlerImmediately aEstablishBarrierAfterOperation
    let (w3, cb) := get_or_create_command_buffer w2 aMasterSync
    let result : old_sync :=
      { old_sync.default_constructed request with
        mCommandBufferRefOrLifetimeHandler := .reference cb
        mEstablishBarrierAfterOperationCallback := after
        mEstablishBarrierBeforeOperationCallback := before
        mQueueToUse := none
        mQueueRecommendation := none }
    let (w4, address) := w3.place result
    (w4, .returned address)

/-! ### Sequences of public operations -/

/-- The public operations of sync.cpp, each with its arguments; `a`, `self`, `aOther` and
`aMasterSync` are addresses. `construct` stands for the factories the header declares
and sync.cpp does not define. -/
inductive operation where
  | construct (s : old_sync)
  | not_required (request : commandbuffer_request)
  | wait_idle (request : commandbuffer_request) (aDontWarn : Bool)
  | auxiliary_with_barriers (request : commandbuffer_request) (aMasterSync : Nat)
      (aEstablishBarrierBeforeOperation aEstablishBarrierAfterOperation : hook_argument)
  | move_construct (aOther : Nat)
  | move_assign (self aOther : Nat)
  | on_queue (a aQueue : Nat)
  | create_reusable_commandbuffer (a : Nat)
  | create_single_use_commandbuffer (a : Nat)
  | set_queue_hint (a aQueueRecommendation : Nat)
  | get_or_create_command_buffer (a : Nat)
  | establish_barrier_before_the_operation (a : Nat) (stage : pipeline_stage)
      (access : Option memory_access)
  | establish_barrier_after_the_operation (a : Nat) (stage : pipeline_stage)
      (access : Option memory_access)
  | submit_and_sync (a : Nat)
  deriving DecidableEq, Repr

/-- Modelled from the spec: what the factories declared in the header (not under src/)
can build. They register a sink, a lifetime closure, an external reference, hooks or an
override; the object owns no command buffer (`get_or_create_command_buffer` is the sole
allocation point) and its override is not `via_semaphore` or `via_barrier`, the two
strategies that the sink and the slot stand for. -/
def old_sync.factory_made (s : old_sync) : Bool :=
  s.mCommandBuffer.isNone && decide (s.mSpecialSync ≠ some .via_semaphore) &&
    decide (s.mSpecialSync ≠ some .via_barrier)

/-- Modelled from the spec: a call of a factory declared in the header; the object it
builds is placed behind the objects alive. -/
def World.construct (w : World) (s : old_sync) : World :=
  if s.factory_made then (w.place s).1 else w

/-- The world after one public operation. A call that stops with an error leaves the
world it had reached. -/
def operation.run (ndebug : Bool) (w : World) : operation → World
  | .construct s => w.construct s
  | .not_required request => (w.place (old_sync.not_required request)).1
  | .wait_idle request aDontWarn => (w.place (old_sync.wait_idle request aDontWarn)).1
  | .auxiliary_with_barriers request aMasterSync before after =>
    (avk.auxiliary_with_barriers ndebug request w aMasterSync before after).1
  | .move_construct aOther => (avk.move_construct w aOther).1
  | .move_assign self aOther => avk.move_assign w self aOther
  | .on_queue a aQueue => avk.on_queue w a aQueue
  | .create_reusable_commandbuffer a => avk.create_reusable_commandbuffer w a
  | .create_single_use_commandbuffer a => avk.create_single_use_commandbuffer w a
  | .set_queue_hint a aQueueRecommendation => avk.set_queue_hint w a aQueueRecommendation
  | .get_or_create_command_buffer a => (avk.get_or_create_command_buffer w a).1
  | .establish_barrier_before_the_operation a stage access =>
    avk.establish_barrier_before_the_operation w a stage access
  | .establish_barrier_after_the_operation a stage access =>
    avk.establish_barrier_after_the_operation w a stage access
  | .submit_and_sync a => (avk.submit_and_sync ndebug w a).1

/-- The world after a sequence of public operations. -/
def run_operations (ndebug : Bool) (w : World) (ops : List operation) : World :=
  ops.foldl (operation.run ndebug) w

/-- The world before any object exists. -/
def World.initial (queue next_handle : Nat) : World :=
  { instances := [], sQueueToUse := queue, next_handle := next_handle, trace := [] }

/-- Whether an operation is applied to the object at address `a`: a configuration call,
`get_or_create_command_buffer`, a hook invocation or `submit_and_sync` on it, a move with
it as source or destination, or an auxiliary composition with it as master. -/
def operation.applies_to (a : Nat) : operation → Bool
  | .auxiliary_with_barriers _ aMasterSync _ _ => aMasterSync = a
  | .move_construct aOther => aOther = a
  | .move_assign self aOther => self = a || aOther = a
  | .on_queue b _ => b = a
  | .create_reusable_commandbuffer b => b = a
  | .create_single_use_commandbuffer b => b = a
  | .set_queue_hint b _ => b = a
  | .get_or_create_command_buffer b => b = a
  | .establish_barrier_before_the_operation b _ _ => b = a
  | .establish_barrier_after_the_operation b _ _ => b = a
  | .submit_and_sync b => b = a
  | _ => false

/-- Whether an operation is a call of `submit_and_sync`. -/
def operation.is_submit_and_sync : operation → Bool
  | .submit_and_sync _ => true
  | _ => false

/-- Whether an operation is a move: the move constructor or the move assignment. -/
def operation.is_move : operation → Bool
  | .move_construct _ => true
  | .move_assign _ _ => true
  | _ => false

/-- Whether a trace entry is a pool allocation. -/
def Event.is_alloc : Event → Bool
  | .alloc_command_buffer _ _ => true
  | _ => false

/-- Number of pool allocations in a trace. -/
def alloc_count (trace : List Event) : Nat :=
  trace.countP Event.is_alloc

/-- The queue a trace entry names, if it is a call on a queue. -/
def Event.queue_used : Event → Option Nat
  | .submit queue _ _ => some queue
  | .submit_and_handle_with_semaphore queue _ _ _ => some queue
  | .wait_idle queue => some queue
  | _ => none

/-- What a hook argument leaves in the master's slot that held `old`. -/
def hook_argument.left_in_master (arg : hook_argument) (old : Option barrier_handler) :
    Option barrier_handler :=
  match arg with
  | .steal_immediately_sentinel => none
  | _ => old

/-- What a hook argument puts into the auxiliary's slot, `old` being the master's. -/
def hook_argument.given_to_auxiliary (arg : hook_argument) (aMasterSync : Nat)
    (old : Option barrier_handler) : Option barrier_handler :=
  match arg with
  | .steal_on_demand_sentinel => some (.steal_on_demand aMasterSync)
  | .steal_immediately_sentinel => old
  | .explicit handler => handler

/-- The invariant of one object: if its slot holds an external reference it owns no
command buffer, and its override is neither `via_semaphore` nor `via_barrier`. -/
def old_sync.consistent (s : old_sync) : Prop :=
  (s.mCommandBufferRefOrLifetimeHandler.holds_reference = true → s.mCommandBuffer = none) ∧
  s.mSpecialSync ≠ some .via_semaphore ∧ s.mSpecialSync ≠ some .via_barrier

/-- The invariant of the heap: every object is `consistent`. -/
def World.consistent (w : World) : Prop :=
  ∀ s ∈ w.instances, s.consistent

/-- The owned command buffer of the object at address `a`, if there is one. -/
def World.owned (w : World) (a : Nat) : Option Nat :=
  (w.instances[a]?).bind (fun s => s.mCommandBuffer)

/-- Room for a pool allocation at address `a`: 1 while the object owns no command
buffer, 0 while it owns one. -/
def World.room (w : World) (a : Nat) : Nat :=
  if (w.owned a).isSome then 0 else 1

/-- Example sequence: `wait_idle(true)` builds a master at address 0, then
`auxiliary_with_barriers` builds an auxiliary at address 1 that steals the before-hook on
demand. -/
def example_composition : List operation :=
  [.wait_idle .single_use true,
   .auxiliary_with_barriers .single_use 0 .steal_on_demand_sentinel (.explicit none)]

/-- Example sequence on the object at address 0: provision, finalize, provision again. -/
def example_provision_twice : List operation :=
  [.get_or_create_command_buffer 0, .submit_and_sync 0, .get_or_create_command_buffer 0]

/-- Example world: two objects built by `wait_idle(true)`, at addresses 0 and 1. -/
def example_pair_world : World :=
  { instances := [old_sync.wait_idle .single_use true, old_sync.wait_idle .single_use true]
    sQueueToUse := 5
    next_handle := 100
    trace := [] }

/-- Example sequence on the object at address 0: provision, move-assign the object at
address 1 to it, provision again; then compose an auxiliary from it. -/
def example_provision_move_provision : List operation :=
  [.get_or_create_command_buffer 0, .move_assign 0 1, .get_or_create_command_buffer 0,
   .auxiliary_with_barriers .single_use 0 (.explicit none) (.explicit none)]

/-- Example world: the result of `wait_idle(false)` with command buffer 11 provisioned. -/
def example_implicit_wait_idle_world : World :=
  example_world { old_sync.wait_idle .single_use false with mCommandBuffer := some 11 }

/-- Whether a trace entry is a call of the caller-supplied closure `id` as a barrier
callback of kind `k`. -/
def Event.is_hook_call (k : hook_kind) (id : Nat) : Event → Bool
  | .barrier_handler_called k2 id2 _ _ _ => decide (k2 = k) && decide (id2 = id)
  | _ => false

/-- Number of calls of the closure `id` as a barrier callback of kind `k` in a trace. -/
def hook_calls (k : hook_kind) (id : Nat) (trace : List Event) : Nat :=
  trace.countP (Event.is_hook_call k id)

/-- Whether the callback slot of kind `k` of an object holds the closure `id`. -/
def old_sync.holds_closure (k : hook_kind) (id : Nat) (s : old_sync) : Bool :=
  decide (s.callback k = some (.closure id))

/-- Number of objects whose callback slot of kind `k` holds the closure `id`. -/
def World.holders (w : World) (k : hook_kind) (id : Nat) : Nat :=
  w.instances.countP (old_sync.holds_closure k id)

/-- The hook argument of `auxiliary_with_barriers` that belongs to the kind `k`. -/
def hook_argument.of_kind (k : hook_kind) (before after : hook_argument) : hook_argument :=
  match k with
  | .before => before
  | .after => after

/-- Whether an operation registers no new copy of the closure `id` in a slot of kind `k`:
every operation does so except a factory call that builds an object holding the closure
there, and an auxiliary composition whose argument for kind `k` is that closure. -/
def operation.passes_hook (k : hook_kind) (id : Nat) : operation → Bool
  | .construct s => !s.holds_closure k id
  | .auxiliary_with_barriers _ _ before after =>
    decide (hook_argument.of_kind k before after ≠ .explicit (some (.closure id)))
  | _ => true

/-- Example sequence for `example_hooks_world` once an auxiliary at address 2 has been
composed from the master at address 1: the auxiliary's after-hook is invoked, then the
master's, then the auxiliary's again; the master is moved to address 3 and the hooks of
both are invoked. -/
def example_interleaving : List operation :=
  [.establish_barrier_after_the_operation 2 .transfer none,
   .establish_barrier_after_the_operation 1 .transfer none,
   .establish_barrier_after_the_operation 2 .all_commands none,
   .move_construct 1,
   .establish_barrier_after_the_operation 3 .transfer none,
   .establish_barrier_after_the_operation 1 .transfer none]

/-! ## Auxiliary facts about the heap -/

/-- An address that holds an object lies inside the heap. -/
theorem lt_length_of_getElem? {l : List old_sync} {a : Nat} {s : old_sync}
    (h : l[a]? = some s) : a < l.length := by
  by_contra hn
  rw [List.getElem?_eq_none (by omega)] at h
  cases h

/-- Reading back the object just stored. -/
theorem World.store_getElem? (w : World) (a : Nat) (s s0 : old_sync)
    (h : w.instances[a]? = some s0) : (w.store a s).instances[a]? = some s := by
  simp [World.store, List.getElem?_set_self (lt_length_of_getElem? h)]

/-- Overwriting a list element with itself gives the same list. -/
theorem list_set_same {l : List old_sync} {a : Nat} {s : old_sync}
    (h : l[a]? = some s) : l.set a s = l := by
  induction l generalizing a with
  | nil => simp
  | cons x xs ih =>
    cases a with
    | zero =>
      simp only [List.getElem?_cons_zero, Option.some.injEq] at h
      simp [h]
    | succ n =>
      simp only [List.getElem?_cons_succ] at h
      simp [ih h]

/-- Storing the object that is already there changes nothing. -/
theorem World.store_same (w : World) (a : Nat) (s : old_sync)
    (h : w.instances[a]? = some s) : w.store a s = w := by
  simp [World.store, list_set_same h]

/-- Clearing a callback slot leaves it empty. -/
theorem callback_set_callback_none (s : old_sync) (k : hook_kind) :
    (s.set_callback k none).callback k = none := by
  cases k <;> rfl

/-- Emptying a populated callback slot lowers the number of populated slots by one. -/
theorem populated_store_cleared (w : World) (k : hook_kind) (m : Nat) (master : old_sync)
    (h : barrier_handler) (hm : w.instances[m]? = some master)
    (hk : master.callback k = some h) :
    (w.store m (master.set_callback k none)).populated k + 1 = w.populated k := by
  have hlt := lt_length_of_getElem? hm
  have hget : w.instances[m] = master := by
    rw [List.getElem?_eq_getElem hlt] at hm
    exact Option.some.inj hm
  have hle := List.boole_getElem_le_countP (fun s => (s.callback k).isSome) w.instances m hlt
  simp only [World.populated, World.store]
  rw [List.countP_set _ _ _ _ hlt]
  simp only [hget, hk, Option.isSome_some, if_true, callback_set_callback_none,
    Option.isSome_none] at hle ⊢
  simp
  omega

/-- Fuel adequacy: once the depth bound exceeds the number of populated slots, the
result of `call_handler` no longer depends on it, so `World.chain_bound` never cuts a
steal-on-demand chain short. -/
theorem call_handler_fuel_adequate (k : hook_kind) :
    ∀ (n : Nat) (w : World) (h : barrier_handler) (cb : Nat) (stage : pipeline_stage)
      (access : Option memory_access), w.populated k < n → ∀ m, n ≤ m →
      call_handler k m w h cb stage access = call_handler k n w h cb stage access := by
  intro n
  induction n with
  | zero => intro w h cb stage access hlt; omega
  | succ n ih =>
    intro w h cb stage access hlt m hm
    cases h with
    | closure id => simp [call_handler]
    | steal_on_demand master =>
      obtain ⟨m, rfl⟩ : ∃ m', m = m' + 1 := ⟨m - 1, by omega⟩
      simp only [call_handler]
      cases hm' : w.instances[master]? with
      | none => rfl
      | some ms =>
        cases hk : ms.callback k with
        | none => simp only [hk]
        | some handler =>
          have hp := populated_store_cleared w k master ms handler hm' hk
          simp only [hk]
          exact ih (w.store master (ms.set_callback k none)) handler cb stage access
            (by omega) m (by omega)

/-- Invoking a barrier callback never changes the number of objects. -/
theorem call_handler_length (k : hook_kind) :
    ∀ (n : Nat) (w : World) (h : barrier_handler) (cb : Nat) (stage : pipeline_stage)
      (access : Option memory_access),
      (call_handler k n w h cb stage access).instances.length = w.instances.length := by
  intro n
  induction n with
  | zero =>
    intro w h cb stage access
    cases h <;> simp [call_handler, World.emit]
  | succ n ih =>
    intro w h cb stage access
    cases h with
    | closure id => simp [call_handler, World.emit]
    | steal_on_demand master =>
      simp only [call_handler]
      cases hm : w.instances[master]? with
      | none => rfl
      | some ms =>
        cases hk : ms.callback k with
        | none => simp [hk, World.store]
        | some handler =>
          simp only [hk]
          rw [ih]
          simp [World.store]

/-- Provisioning the command buffer never changes the number of objects. -/
theorem get_or_create_command_buffer_length (w : World) (a : Nat) :
    (get_or_create_command_buffer w a).1.instances.length = w.instances.length := by
  cases hs : w.instances[a]? with
  | none => simp [get_or_create_command_buffer, hs]
  | some s =>
    cases hslot : s.mCommandBufferRefOrLifetimeHandler <;>
      cases hcb : s.mCommandBuffer <;>
      simp [get_or_create_command_buffer, hs, hslot, hcb, World.alloc_command_buffer,
        World.store, World.emit]

/-- What one call of `establish_barrier` on a populated slot does: provision the command
buffer, invoke the callback once, clear the slot. -/
theorem establish_barrier_populated (k : hook_kind) (w : World) (a : Nat) (s : old_sync)
    (h : barrier_handler) (stage : pipeline_stage) (access : Option memory_access)
    (hs : w.instances[a]? = some s) (hk : s.callback k = some h) :
    ∃ s2, (call_handler k ((get_or_create_command_buffer w a).1.chain_bound k)
        (get_or_create_command_buffer w a).1 h (get_or_create_command_buffer w a).2
        stage access).instances[a]? = some s2 ∧
      establish_barrier k w a stage access =
        (call_handler k ((get_or_create_command_buffer w a).1.chain_bound k)
          (get_or_create_command_buffer w a).1 h (get_or_create_command_buffer w a).2
          stage access).store a (s2.set_callback k none) := by
  have hlt : a < (call_handler k ((get_or_create_command_buffer w a).1.chain_bound k)
      (get_or_create_command_buffer w a).1 h (get_or_create_command_buffer w a).2
      stage access).instances.length := by
    rw [call_handler_length, get_or_create_command_buffer_length]
    exact lt_length_of_getElem? hs
  refine ⟨_, List.getElem?_eq_getElem hlt, ?_⟩
  simp only [establish_barrier, hs, hk, List.getElem?_eq_getElem hlt]

/-- A call of `establish_barrier` on an empty slot returns the world as it is. -/
theorem establish_barrier_empty (k : hook_kind) (w : World) (a : Nat) (s : old_sync)
    (stage : pipeline_stage) (access : Option memory_access)
    (hs : w.instances[a]? = some s) (hk : s.callback k = none) :
    establish_barrier k w a stage access = w := by
  simp only [establish_barrier, hs, hk]

/-- Two calls of `establish_barrier` in a row on a populated slot: the slot is empty after
the first, the second returns the world as it is, and the trace is that of one
invocation of the callback on the provisioned command buffer. -/
theorem establish_barrier_once (k : hook_kind) (w : World) (a : Nat) (s : old_sync)
    (h : barrier_handler) (stage stage2 : pipeline_stage)
    (access access2 : Option memory_access)
    (hs : w.instances[a]? = some s) (hk : s.callback k = some h) :
    (∃ s1, (establish_barrier k w a stage access).instances[a]? = some s1 ∧
      s1.callback k = none) ∧
    establish_barrier k (establish_barrier k w a stage access) a stage2 access2 =
      establish_barrier k w a stage access ∧
    (establish_barrier k (establish_barrier k w a stage access) a stage2 access2).trace =
      (call_handler k ((get_or_create_command_buffer w a).1.chain_bound k)
        (get_or_create_command_buffer w a).1 h (get_or_create_command_buffer w a).2
        stage access).trace := by
  obtain ⟨s2, hs2, heq⟩ := establish_barrier_populated k w a s h stage access hs hk
  have hlt := lt_length_of_getElem? hs2
  have h1 : (establish_barrier k w a stage access).instances[a]? =
      some (s2.set_callback k none) := by
    rw [heq]
    simp [World.store, List.getElem?_set_self hlt]
  have h2 := establish_barrier_empty k _ a _ stage2 access2 h1
    (callback_set_callback_none s2 k)
  refine ⟨⟨_, h1, callback_set_callback_none s2 k⟩, h2, ?_⟩
  rw [h2, heq]
  rfl

/-- The member-wise transfer copies the whole object. -/
theorem moved_into_eq (s : old_sync) : s.moved_into = s := by
  cases s; rfl

/-- The world `auxiliary_with_barriers` returns: the steps of lines 183-211 commute with
the provisioning of the master's command buffer. -/
theorem auxiliary_with_barriers_result (ndebug : Bool) (request : commandbuffer_request)
    (w : World) (m : Nat) (b a : hook_argument) (M Mg : old_sync)
    (hM : w.instances[m]? = some M)
    (hMg : (get_or_create_command_buffer w m).1.instances[m]? = some Mg) :
    auxiliary_with_barriers ndebug request w m b a =
      ({ (get_or_create_command_buffer w m).1 with
          instances := (get_or_create_command_buffer w m).1.instances.set m
              { Mg with
                mEstablishBarrierBeforeOperationCallback :=
                  b.left_in_master M.mEstablishBarrierBeforeOperationCallback
                mEstablishBarrierAfterOperationCallback :=
                  a.left_in_master M.mEstablishBarrierAfterOperationCallback } ++
            [{ old_sync.default_constructed request with
                mCommandBufferRefOrLifetimeHandler :=
                  .reference (get_or_create_command_buffer w m).2
                mEstablishBarrierBeforeOperationCallback :=
                  b.given_to_auxiliary m M.mEstablishBarrierBeforeOperationCallback
                mEstablishBarrierAfterOperationCallback :=
                  a.given_to_auxiliary m M.mEstablishBarrierAfterOperationCallback }] },
       .returned w.instances.length) := by
  have hlt := lt_length_of_getElem? hM
  have hsame := list_set_same hM
  obtain ⟨special, req, sink, waits, slot, owned, before, after, q, hint⟩ := M
  cases slot <;> cases owned <;> cases b <;> cases a <;>
  simp [get_or_create_command_buffer, hM, World.alloc_command_buffer,
    World.store, World.emit, List.getElem?_set_self hlt] at hMg <;>
  subst hMg <;>
  simp [auxiliary_with_barriers, steal_handler, get_or_create_command_buffer, hM,
    World.alloc_command_buffer, World.store, World.emit, World.place,
    List.getElem?_set_self hlt, assert_holds,
    is_about_to_steal_before_handler_on_demand, is_about_to_steal_after_handler_on_demand,
    is_about_to_steal_before_handler_immediately,
    is_about_to_steal_after_handler_immediately, hook_argument.function,
    hook_argument.left_in_master, hook_argument.given_to_auxiliary,
    old_sync.set_callback, old_sync.callback, old_sync.default_constructed, hsame]

/-- Reading an address other than the one just stored. -/
theorem World.store_getElem?_ne (w : World) (a b : Nat) (s : old_sync) (h : a ≠ b) :
    (w.store a s).instances[b]? = w.instances[b]? := by
  simp [World.store, List.getElem?_set_ne h]

/-- Invoking a barrier callback never populates a callback slot. -/
theorem call_handler_callback_none (k : hook_kind) :
    ∀ (n : Nat) (w : World) (h : barrier_handler) (cb : Nat) (stage : pipeline_stage)
      (access : Option memory_access) (m : Nat) (s : old_sync),
      w.instances[m]? = some s → s.callback k = none →
      ∃ s2, (call_handler k n w h cb stage access).instances[m]? = some s2 ∧
        s2.callback k = none := by
  intro n
  induction n with
  | zero =>
    intro w h cb stage access m s hs hk
    cases h <;> exact ⟨s, by simpa [call_handler, World.emit] using hs, hk⟩
  | succ n ih =>
    intro w h cb stage access m s hs hk
    cases h with
    | closure id => exact ⟨s, by simpa [call_handler, World.emit] using hs, hk⟩
    | steal_on_demand master =>
      simp only [call_handler]
      cases hm : w.instances[master]? with
      | none => exact ⟨s, hs, hk⟩
      | some ms =>
        have hstore : ∃ s1, (w.store master (ms.set_callback k none)).instances[m]? =
            some s1 ∧ s1.callback k = none := by
          by_cases hmm : master = m
          · subst hmm
            exact ⟨_, World.store_getElem? w master _ ms hm,
              callback_set_callback_none ms k⟩
          · exact ⟨s, by rw [World.store_getElem?_ne w master m _ hmm]; exact hs, hk⟩
        obtain ⟨s1, hs1, hk1⟩ := hstore
        cases hkm : ms.callback k with
        | none => exact ⟨s1, by simpa [hkm] using hs1, hk1⟩
        | some handler =>
          simp only [hkm]
          exact ih _ handler cb stage access m s1 hs1 hk1

/-- Provisioning on an object whose slot holds a reference returns the reference and
changes nothing. -/
theorem get_or_create_command_buffer_of_reference (w : World) (a : Nat) (s : old_sync)
    (cb : Nat) (hs : w.instances[a]? = some s)
    (hslot : s.mCommandBufferRefOrLifetimeHandler = .reference cb) :
    get_or_create_command_buffer w a = (w, cb) := by
  simp [get_or_create_command_buffer, hs, hslot]

/-- A hook invocation on an object whose slot holds a reference `cb`: the trace is that
of one invocation of the callback on `cb`, and the other objects are what the invocation
leaves. -/
theorem establish_barrier_of_reference (k : hook_kind) (w : World) (a : Nat) (s : old_sync)
    (h : barrier_handler) (cb : Nat) (stage : pipeline_stage)
    (access : Option memory_access)
    (hs : w.instances[a]? = some s) (hk : s.callback k = some h)
    (hslot : s.mCommandBufferRefOrLifetimeHandler = .reference cb) :
    (establish_barrier k w a stage access).trace =
      (call_handler k (w.chain_bound k) w h cb stage access).trace ∧
    (∀ b, a ≠ b → (establish_barrier k w a stage access).instances[b]? =
      (call_handler k (w.chain_bound k) w h cb stage access).instances[b]?) := by
  obtain ⟨s2, _, heq⟩ := establish_barrier_populated k w a s h stage access hs hk
  rw [get_or_create_command_buffer_of_reference w a s cb hs hslot] at heq
  rw [heq]
  exact ⟨rfl, fun b hb => World.store_getElem?_ne _ a b _ hb⟩

/-- One step of a steal-on-demand chain at the depth bound of the world: the master's
slot is emptied, and the callback found there is invoked at the depth bound of the world
so reached. -/
theorem call_handler_steal_on_demand (k : hook_kind) (w : World) (m : Nat)
    (master : old_sync) (cb : Nat) (stage : pipeline_stage) (access : Option memory_access)
    (hm : w.instances[m]? = some master) :
    call_handler k (w.chain_bound k) w (.steal_on_demand m) cb stage access =
      match master.callback k with
      | none => w.store m (master.set_callback k none)
      | some h => call_handler k ((w.store m (master.set_callback k none)).chain_bound k)
          (w.store m (master.set_callback k none)) h cb stage access := by
  simp only [World.chain_bound, call_handler, hm]
  cases hk : master.callback k with
  | none => rfl
  | some h =>
    simp only []
    have hp := populated_store_cleared w k m master h hm hk
    rw [hp]

/-- The object at address `a` after provisioning: only the owned command buffer can
differ, and it holds the buffer returned unless the slot holds a reference. -/
theorem get_or_create_command_buffer_object (w : World) (a : Nat) (s : old_sync)
    (hs : w.instances[a]? = some s) :
    ∃ owned, (get_or_create_command_buffer w a).1.instances[a]? =
        some { s with mCommandBuffer := owned } ∧
      (s.mCommandBufferRefOrLifetimeHandler.holds_reference = false →
        owned = some (get_or_create_command_buffer w a).2) ∧
      (s.mCommandBufferRefOrLifetimeHandler.holds_reference = true →
        owned = s.mCommandBuffer) := by
  have hlt := lt_length_of_getElem? hs
  obtain ⟨special, req, sink, waits, slot, owned, before, after, q, hint⟩ := s
  cases slot <;> cases owned <;>
    simp [get_or_create_command_buffer, hs, World.alloc_command_buffer, World.store,
      World.emit, List.getElem?_set_self hlt, commandbuffer_slot.holds_reference]

/-- The world `auxiliary_with_barriers` returns, object by object. -/
theorem auxiliary_with_barriers_objects (ndebug : Bool) (request : commandbuffer_request)
    (w : World) (m : Nat) (b a : hook_argument) (M : old_sync)
    (hM : w.instances[m]? = some M) :
    ∃ owned,
      (M.mCommandBufferRefOrLifetimeHandler.holds_reference = false →
        owned = some (get_or_create_command_buffer w m).2) ∧
      (M.mCommandBufferRefOrLifetimeHandler.holds_reference = true →
        owned = M.mCommandBuffer) ∧
      (auxiliary_with_barriers ndebug request w m b a).2 = .returned w.instances.length ∧
      (auxiliary_with_barriers ndebug request w m b a).1.trace =
        (get_or_create_command_buffer w m).1.trace ∧
      (auxiliary_with_barriers ndebug request w m b a).1.instances[m]? =
        some { M with
          mCommandBuffer := owned
          mEstablishBarrierBeforeOperationCallback :=
            b.left_in_master M.mEstablishBarrierBeforeOperationCallback
          mEstablishBarrierAfterOperationCallback :=
            a.left_in_master M.mEstablishBarrierAfterOperationCallback } ∧
      (auxiliary_with_barriers ndebug request w m b a).1.instances[w.instances.length]? =
        some { old_sync.default_constructed request with
          mCommandBufferRefOrLifetimeHandler :=
            .reference (get_or_create_command_buffer w m).2
          mEstablishBarrierBeforeOperationCallback :=
            b.given_to_auxiliary m M.mEstablishBarrierBeforeOperationCallback
          mEstablishBarrierAfterOperationCallback :=
            a.given_to_auxiliary m M.mEstablishBarrierAfterOperationCallback } := by
  have hlt := lt_length_of_getElem? hM
  obtain ⟨owned, hg, h1, h2⟩ := get_or_create_command_buffer_object w m M hM
  have hlen := get_or_create_command_buffer_length w m
  have hlt2 : m < (get_or_create_command_buffer w m).1.instances.length := by
    rw [hlen]; exact hlt
  refine ⟨owned, h1, h2, ?_⟩
  rw [auxiliary_with_barriers_result ndebug request w m b a M _ hM hg]
  refine ⟨rfl, rfl, ?_, ?_⟩
  · simp only []
    rw [List.getElem?_append_left (by rw [List.length_set]; exact hlt2),
      List.getElem?_set_self hlt2]
  · simp only []
    rw [List.getElem?_append_right (by rw [List.length_set, hlen]),
      List.length_set, hlen]
    simp

/-- What `submit_and_sync` can do to the world: it appends entries to the trace, none of
them a pool allocation and every queue call among them on `sQueueToUse`; the objects are
left as they are, or the object at address `a` is replaced by one that owns no command
buffer and has the same override and slot. -/
theorem submit_and_sync_effect (ndebug : Bool) (w : World) (a : Nat) :
    (∃ evs, (submit_and_sync ndebug w a).1.trace = w.trace ++ evs ∧
      ∀ e ∈ evs, e.is_alloc = false ∧ e ≠ .log_warning ∧
        ∀ q, e.queue_used = some q → q = w.sQueueToUse) ∧
    (submit_and_sync ndebug w a).1.sQueueToUse = w.sQueueToUse ∧
    ((submit_and_sync ndebug w a).1.instances = w.instances ∨
      ∃ s s2, w.instances[a]? = some s ∧
        (submit_and_sync ndebug w a).1.instances = w.instances.set a s2 ∧
        s2.mCommandBuffer = none ∧ s2.mSpecialSync = s.mSpecialSync ∧
        s2.mCommandBufferRefOrLifetimeHandler = s.mCommandBufferRefOrLifetimeHandler) := by
  cases hs : w.instances[a]? with
  | none => simp [submit_and_sync, hs]
  | some s =>
    have hlt := lt_length_of_getElem? hs
    cases hty : s.get_sync_type with
    | via_semaphore =>
      cases hcb : s.mCommandBuffer <;> cases hsink : s.mSemaphoreLifetimeHandler <;>
        cases ndebug <;>
        simp [submit_and_sync, hs, hty, hcb, hsink, assert_holds, queue_to_use,
          submit_and_sync_epilogue, World.emit, World.store,
          World.submit_and_handle_with_semaphore, List.getElem?_set_self hlt,
          Event.is_alloc, Event.queue_used] <;>
        exact Or.inr ⟨_, rfl, by simp [*]⟩
    | via_barrier =>
      cases hcb : s.mCommandBuffer <;> cases hslot : s.mCommandBufferRefOrLifetimeHandler <;>
        cases ndebug <;>
        simp [submit_and_sync, hs, hty, hcb, hslot, assert_holds, queue_to_use,
          submit_and_sync_epilogue, World.emit, World.store,
          List.getElem?_set_self hlt, Event.is_alloc, Event.queue_used] <;>
        exact Or.inr ⟨_, rfl, by simp [*]⟩
    | via_wait_idle =>
      cases hcb : s.mCommandBuffer <;> cases ndebug <;>
        simp [submit_and_sync, hs, hty, hcb, assert_holds, queue_to_use,
          submit_and_sync_epilogue, World.emit, World.store,
          List.getElem?_set_self hlt, Event.is_alloc, Event.queue_used] <;>
        exact Or.inr ⟨_, rfl, by simp [*]⟩
    | via_wait_idle_deliberately =>
      cases hcb : s.mCommandBuffer <;> cases ndebug <;>
        simp [submit_and_sync, hs, hty, hcb, assert_holds, queue_to_use,
          submit_and_sync_epilogue, World.emit, World.store,
          List.getElem?_set_self hlt, Event.is_alloc, Event.queue_used] <;>
        exact Or.inr ⟨_, rfl, by simp [*]⟩
    | not_required =>
      cases ndebug <;> simp [submit_and_sync, hs, hty, assert_holds]
    | by_return =>
      cases hcb : s.mCommandBuffer with
      | none => simp [submit_and_sync, hs, hty, hcb]
      | some cb =>
        simp [submit_and_sync, hs, hty, hcb, World.emit, World.store, Event.is_alloc,
          Event.queue_used]
        exact Or.inr ⟨_, rfl, by simp [*]⟩
    | by_existing_command_buffer => simp [submit_and_sync, hs, hty]

/-- Storing an object that satisfies the invariant keeps the invariant of the heap. -/
theorem World.consistent_store (w : World) (a : Nat) (s : old_sync)
    (hw : w.consistent) (hs : s.consistent) :
    (w.store a s).consistent := by
  intro x hx
  rcases List.mem_or_eq_of_mem_set hx with h | h
  · exact hw x h
  · exact h ▸ hs

/-- Placing an object that satisfies the invariant keeps the invariant of the heap. -/
theorem World.consistent_place (w : World) (s : old_sync)
    (hw : w.consistent) (hs : s.consistent) :
    (w.place s).1.consistent := by
  intro x hx
  simp only [World.place, List.mem_append, List.mem_singleton] at hx
  rcases hx with h | h
  · exact hw x h
  · exact h ▸ hs

/-- An object read from a heap that satisfies the invariant satisfies it. -/
theorem World.consistent_get (w : World) (a : Nat) (s : old_sync)
    (hw : w.consistent) (hs : w.instances[a]? = some s) :
    s.consistent :=
  hw s (List.mem_iff_getElem?.2 ⟨a, hs⟩)

/-- Provisioning keeps the invariant: it allocates only when the slot holds no
reference. -/
theorem get_or_create_command_buffer_consistent (w : World) (a : Nat)
    (hw : w.consistent) :
    (get_or_create_command_buffer w a).1.consistent := by
  cases hs : w.instances[a]? with
  | none => simpa [get_or_create_command_buffer, hs] using hw
  | some s =>
    have hsi := World.consistent_get w a s hw hs
    cases hslot : s.mCommandBufferRefOrLifetimeHandler <;>
      cases hcb : s.mCommandBuffer <;>
      simp only [get_or_create_command_buffer, hs, hslot, hcb] <;>
      first
        | exact hw
        | (intro x hx
           rcases List.mem_or_eq_of_mem_set hx with h | h
           · exact hw x h
           · subst h
             exact ⟨fun href => by
               simp [hslot, commandbuffer_slot.holds_reference] at href, hsi.2⟩)

/-- Invoking a barrier callback keeps the invariant: it only empties callback slots. -/
theorem call_handler_consistent (k : hook_kind) :
    ∀ (n : Nat) (w : World) (h : barrier_handler) (cb : Nat) (stage : pipeline_stage)
      (access : Option memory_access), w.consistent →
      (call_handler k n w h cb stage access).consistent := by
  intro n
  induction n with
  | zero =>
    intro w h cb stage access hw
    cases h <;> exact hw
  | succ n ih =>
    intro w h cb stage access hw
    cases h with
    | closure id => exact hw
    | steal_on_demand master =>
      simp only [call_handler]
      cases hm : w.instances[master]? with
      | none => exact hw
      | some ms =>
        have hms := World.consistent_get w master ms hw hm
        have hst : (w.store master (ms.set_callback k none)).consistent :=
          World.consistent_store w master _ hw (by cases k <;> exact hms)
        cases hk : ms.callback k with
        | none => simpa only [hk] using hst
        | some handler => simpa only [hk] using ih _ handler cb stage access hst

/-- A hook invocation keeps the invariant. -/
theorem establish_barrier_consistent (k : hook_kind) (w : World) (a : Nat)
    (stage : pipeline_stage) (access : Option memory_access)
    (hw : w.consistent) :
    (establish_barrier k w a stage access).consistent := by
  cases hs : w.instances[a]? with
  | none => simpa [establish_barrier, hs] using hw
  | some s =>
    cases hk : s.callback k with
    | none => simpa [establish_barrier, hs, hk] using hw
    | some h =>
      obtain ⟨s2, hs2, heq⟩ := establish_barrier_populated k w a s h stage access hs hk
      rw [heq]
      have h2 := call_handler_consistent k
        ((get_or_create_command_buffer w a).1.chain_bound k) _ h
        (get_or_create_command_buffer w a).2 stage access
        (get_or_create_command_buffer_consistent w a hw)
      exact World.consistent_store _ a _ h2
        (by have := World.consistent_get _ a s2 h2 hs2; cases k <;> exact this)

/-- The finalizer keeps the invariant: where it changes an object, the object owns no
command buffer afterwards. -/
theorem submit_and_sync_consistent (ndebug : Bool) (w : World) (a : Nat)
    (hw : w.consistent) :
    (submit_and_sync ndebug w a).1.consistent := by
  rcases (submit_and_sync_effect ndebug w a).2.2 with h | ⟨s, s2, hs, h, hcb, hsp, -⟩
  · intro x hx
    rw [h] at hx
    exact hw x hx
  · intro x hx
    rw [h] at hx
    rcases List.mem_or_eq_of_mem_set hx with h1 | h1
    · exact hw x h1
    · subst h1
      have hc := World.consistent_get w a s hw hs
      exact ⟨fun _ => hcb, hsp ▸ hc.2.1, hsp ▸ hc.2.2⟩

/-- Changing members other than the slot and the owned command buffer of one object
keeps the invariant. -/
theorem World.consistent_modify (w : World) (a : Nat) (f : old_sync → old_sync)
    (hf : ∀ s, s.consistent → (f s).consistent)
    (hw : w.consistent) : (w.modify a f).consistent := by
  unfold World.modify
  cases hs : w.instances[a]? with
  | none => exact hw
  | some s => exact World.consistent_store w a _ hw (hf s (World.consistent_get w a s hw hs))

/-- The steal step of `auxiliary_with_barriers` keeps the invariant. -/
theorem steal_handler_consistent (k : hook_kind) (w : World) (m : Nat)
    (onDemand immediately : Bool) (arg : hook_argument)
    (hw : w.consistent) :
    (steal_handler k w m onDemand immediately arg).1.consistent := by
  unfold steal_handler
  split
  · exact hw
  · split
    · cases hm : w.instances[m]? with
      | none => exact hw
      | some master =>
        exact World.consistent_store w m _ hw
          (by have := World.consistent_get w m master hw hm; cases k <;> exact this)
    · exact hw

/-- Auxiliary composition keeps the invariant: the new object holds a reference and owns
nothing. -/
theorem auxiliary_with_barriers_consistent (ndebug : Bool)
    (request : commandbuffer_request) (w : World) (m : Nat) (b a : hook_argument)
    (hw : w.consistent) :
    (auxiliary_with_barriers ndebug request w m b a).1.consistent := by
  unfold auxiliary_with_barriers
  simp only []
  split
  · exact hw
  · split
    · exact hw
    · exact World.consistent_place _ _
        (get_or_create_command_buffer_consistent _ m
          (steal_handler_consistent .after _ m _ _ a
            (steal_handler_consistent .before w m _ _ b hw)))
        ⟨fun _ => rfl, by simp [old_sync.default_constructed]⟩

/-- The moved-from state satisfies the invariant. -/
theorem moved_from_consistent (s : old_sync) : s.moved_from.consistent :=
  ⟨fun _ => rfl, by simp [old_sync.moved_from]⟩

/-- Both moves keep the invariant. -/
theorem move_consistent (w : World) (self aOther : Nat)
    (hw : w.consistent) :
    (move_construct w aOther).1.consistent ∧
    (move_assign w self aOther).consistent := by
  cases hs : w.instances[aOther]? with
  | none => exact ⟨by simpa [move_construct, hs] using hw, by simpa [move_assign, hs] using hw⟩
  | some other =>
    have ho : other.moved_into.consistent := by
      rw [moved_into_eq]; exact World.consistent_get w aOther other hw hs
    refine ⟨?_, ?_⟩
    · simp only [move_construct, hs]
      exact World.consistent_store _ _ _ (World.consistent_place w _ hw ho)
        (moved_from_consistent other)
    · simp only [move_assign, hs]
      exact World.consistent_store _ _ _ (World.consistent_store w _ _ hw ho)
        (moved_from_consistent other)

/-- Every public operation keeps the invariant. -/
theorem operation_run_consistent (ndebug : Bool) (w : World) (op : operation)
    (hw : w.consistent) : (op.run ndebug w).consistent := by
  cases op with
  | construct s =>
    simp only [operation.run, World.construct]
    split
    · rename_i hf
      simp only [old_sync.factory_made, Bool.and_eq_true, Option.isNone_iff_eq_none,
        decide_eq_true_eq] at hf
      exact World.consistent_place w _ hw ⟨fun _ => hf.1.1, hf.1.2, hf.2⟩
    · exact hw
  | not_required request =>
    exact World.consistent_place w _ hw
      ⟨fun _ => rfl, by simp [old_sync.not_required, old_sync.default_constructed]⟩
  | wait_idle request aDontWarn =>
    exact World.consistent_place w _ hw
      ⟨fun _ => by cases aDontWarn <;> rfl,
       by cases aDontWarn <;> simp [old_sync.wait_idle, old_sync.default_constructed]⟩
  | auxiliary_with_barriers request m b a =>
    exact auxiliary_with_barriers_consistent ndebug request w m b a hw
  | move_construct aOther => exact (move_consistent w 0 aOther hw).1
  | move_assign self aOther => exact (move_consistent w self aOther hw).2
  | on_queue a q => exact World.consistent_modify w a _ (fun _ h => h) hw
  | create_reusable_commandbuffer a =>
    exact World.consistent_modify w a _ (fun _ h => h) hw
  | create_single_use_commandbuffer a =>
    exact World.consistent_modify w a _ (fun _ h => h) hw
  | set_queue_hint a q => exact World.consistent_modify w a _ (fun _ h => h) hw
  | get_or_create_command_buffer a =>
    exact get_or_create_command_buffer_consistent w a hw
  | establish_barrier_before_the_operation a stage access =>
    exact establish_barrier_consistent .before w a stage access hw
  | establish_barrier_after_the_operation a stage access =>
    exact establish_barrier_consistent .after w a stage access hw
  | submit_and_sync a => exact submit_and_sync_consistent ndebug w a hw

/-- Every sequence of public operations keeps the invariant. -/
theorem run_operations_consistent (ndebug : Bool) (ops : List operation) :
    ∀ w : World, w.consistent →
      (run_operations ndebug w ops).consistent := by
  induction ops with
  | nil => exact fun w hw => hw
  | cons op ops ih =>
    intro w hw
    exact ih _ (operation_run_consistent ndebug w op hw)

/-- The finalizer on an object that satisfies the invariant: if it returns under a
strategy other than `by_return` and `by_existing_command_buffer` the object owns no
command buffer afterwards; on an auxiliary it returns nothing and changes nothing; and an
assertion can fail only because the command buffer was missing on entry or the strategy
is `not_required`, never at the closing assertion. -/
theorem submit_and_sync_closing_assertion (ndebug : Bool) (w : World) (a : Nat)
    (s : old_sync) (hs : w.instances[a]? = some s) (hI : s.consistent) :
    (∀ v, (submit_and_sync ndebug w a).2 = .returned v →
      s.get_sync_type ≠ .by_return → s.get_sync_type ≠ .by_existing_command_buffer →
      ∃ s2, (submit_and_sync ndebug w a).1.instances[a]? = some s2 ∧
        s2.mCommandBuffer = none) ∧
    (s.mSemaphoreLifetimeHandler = none →
      s.mCommandBufferRefOrLifetimeHandler.holds_reference = true →
      submit_and_sync ndebug w a = (w, .returned none)) ∧
    ((submit_and_sync ndebug w a).2 = .failed .assertion_failed →
      s.mCommandBuffer = none ∨ s.get_sync_type = .not_required) := by
  have hlt := lt_length_of_getElem? hs
  obtain ⟨hI, hns, hnb⟩ := hI
  have hsem : s.get_sync_type = .via_semaphore → s.mSemaphoreLifetimeHandler ≠ none := by
    intro hty hn
    simp only [old_sync.get_sync_type, hn, Option.isSome_none, Bool.false_eq_true,
      if_false] at hty
    split at hty
    · cases hty
    · split at hty
      · rename_i t ht; exact hns (ht ▸ hty ▸ rfl)
      · cases hty
  have hbar : s.get_sync_type = .via_barrier →
      s.mCommandBufferRefOrLifetimeHandler ≠ .monostate := by
    intro hty hn
    simp only [old_sync.get_sync_type, hn] at hty
    split at hty
    · cases hty
    · simp only [ne_eq, not_true_eq_false, if_false] at hty
      split at hty
      · rename_i t ht; exact hnb (ht ▸ hty ▸ rfl)
      · cases hty
  have hother : s.get_sync_type ≠ .via_semaphore → s.get_sync_type ≠ .via_barrier →
      s.mCommandBufferRefOrLifetimeHandler.holds_reference = false := by
    intro h1 h2
    cases hsl : s.mCommandBufferRefOrLifetimeHandler with
    | monostate => rfl
    | lifetime_handler f => rfl
    | reference r =>
      exfalso
      cases hsk : s.mSemaphoreLifetimeHandler with
      | some sink => exact h1 (by simp [old_sync.get_sync_type, hsk])
      | none => exact h2 (by simp [old_sync.get_sync_type, hsk, hsl])
  cases hty : s.get_sync_type with
  | via_semaphore =>
    have hsink := hsem hty
    cases hcb : s.mCommandBuffer <;> cases hsk : s.mSemaphoreLifetimeHandler <;>
      cases ndebug <;>
      simp [submit_and_sync, hs, hty, hcb, hsk, assert_holds, queue_to_use,
        submit_and_sync_epilogue, World.emit, World.store,
        World.submit_and_handle_with_semaphore, List.getElem?_set_self hlt] <;>
      simp_all
  | via_barrier =>
    have hmono := hbar hty
    cases hcb : s.mCommandBuffer <;> cases hslot : s.mCommandBufferRefOrLifetimeHandler <;>
      cases ndebug <;>
      simp [hslot, hcb, commandbuffer_slot.holds_reference] at hI hmono <;>
      simp [submit_and_sync, hs, hty, hcb, hslot, assert_holds, queue_to_use,
        submit_and_sync_epilogue, World.emit, World.store,
        List.getElem?_set_self hlt, commandbuffer_slot.holds_reference]
  | via_wait_idle =>
    have hslot := hother (by rw [hty]; decide) (by rw [hty]; decide)
    cases hcb : s.mCommandBuffer <;> cases ndebug <;>
      simp [submit_and_sync, hs, hty, hcb, hslot, assert_holds, queue_to_use,
        submit_and_sync_epilogue, World.emit, World.store,
        List.getElem?_set_self hlt]
  | via_wait_idle_deliberately =>
    have hslot := hother (by rw [hty]; decide) (by rw [hty]; decide)
    cases hcb : s.mCommandBuffer <;> cases ndebug <;>
      simp [submit_and_sync, hs, hty, hcb, hslot, assert_holds, queue_to_use,
        submit_and_sync_epilogue, World.emit, World.store,
        List.getElem?_set_self hlt]
  | not_required =>
    have hslot := hother (by rw [hty]; decide) (by rw [hty]; decide)
    cases ndebug <;> simp [submit_and_sync, hs, hty, hslot, assert_holds]
  | by_return =>
    have hslot := hother (by rw [hty]; decide) (by rw [hty]; decide)
    cases hcb : s.mCommandBuffer <;>
      simp [submit_and_sync, hs, hty, hcb, hslot, World.emit, World.store]
  | by_existing_command_buffer =>
    have hslot := hother (by rw [hty]; decide) (by rw [hty]; decide)
    simp [submit_and_sync, hs, hty, hslot]

/-- Invoking a barrier callback records no pool allocation and leaves every owned
command buffer and every slot as it is. -/
theorem call_handler_frame (k : hook_kind) :
    ∀ (n : Nat) (w : World) (h : barrier_handler) (cb : Nat) (stage : pipeline_stage)
      (access : Option memory_access),
      alloc_count (call_handler k n w h cb stage access).trace = alloc_count w.trace ∧
      ∀ a : Nat, ((call_handler k n w h cb stage access).instances[a]?).map
          (fun s : old_sync => (s.mCommandBuffer, s.mCommandBufferRefOrLifetimeHandler)) =
        (w.instances[a]?).map
          (fun s : old_sync => (s.mCommandBuffer, s.mCommandBufferRefOrLifetimeHandler)) := by
  intro n
  induction n with
  | zero =>
    intro w h cb stage access
    cases h <;> simp [call_handler, World.emit, alloc_count, Event.is_alloc]
  | succ n ih =>
    intro w h cb stage access
    cases h with
    | closure id => simp [call_handler, World.emit, alloc_count, Event.is_alloc]
    | steal_on_demand master =>
      simp only [call_handler]
      cases hm : w.instances[master]? with
      | none => exact ⟨rfl, fun _ => rfl⟩
      | some ms =>
        have hst : alloc_count (w.store master (ms.set_callback k none)).trace =
            alloc_count w.trace ∧
            ∀ a : Nat, ((w.store master (ms.set_callback k none)).instances[a]?).map
                (fun s : old_sync => (s.mCommandBuffer, s.mCommandBufferRefOrLifetimeHandler)) =
              (w.instances[a]?).map
                (fun s : old_sync => (s.mCommandBuffer, s.mCommandBufferRefOrLifetimeHandler)) := by
          refine ⟨rfl, fun a => ?_⟩
          by_cases hma : master = a
          · subst hma
            rw [World.store_getElem? w master _ ms hm, hm]
            cases k <;> rfl
          · rw [World.store_getElem?_ne w master a _ hma]
        cases hk : ms.callback k with
        | none => simpa only [hk] using hst
        | some handler =>
          simp only [hk]
          obtain ⟨h1, h2⟩ := ih (w.store master (ms.set_callback k none)) handler cb stage
            access
          exact ⟨h1.trans hst.1, fun a => (h2 a).trans (hst.2 a)⟩

/-- Provisioning uses the room there is: the number of pool allocations plus the room
left does not grow. -/
theorem get_or_create_command_buffer_room (w : World) (a : Nat) :
    alloc_count (get_or_create_command_buffer w a).1.trace +
        (get_or_create_command_buffer w a).1.room a ≤
      alloc_count w.trace + w.room a := by
  cases hs : w.instances[a]? with
  | none => simp [get_or_create_command_buffer, hs]
  | some s =>
    have hlt := lt_length_of_getElem? hs
    cases hslot : s.mCommandBufferRefOrLifetimeHandler <;>
      cases hcb : s.mCommandBuffer <;>
      simp [get_or_create_command_buffer, hs, hslot, hcb, World.alloc_command_buffer,
        World.store, World.emit, World.room, World.owned, alloc_count, Event.is_alloc,
        List.getElem?_set_self hlt, List.countP_append]

/-- A hook invocation either changes nothing or makes the pool allocations of one
provisioning and leaves the owned command buffer that provisioning left. -/
theorem establish_barrier_frame (k : hook_kind) (w : World) (a : Nat)
    (stage : pipeline_stage) (access : Option memory_access) :
    establish_barrier k w a stage access = w ∨
    (alloc_count (establish_barrier k w a stage access).trace =
        alloc_count (get_or_create_command_buffer w a).1.trace ∧
      (establish_barrier k w a stage access).owned a =
        (get_or_create_command_buffer w a).1.owned a) := by
  cases hs : w.instances[a]? with
  | none => exact Or.inl (by simp [establish_barrier, hs])
  | some s =>
    cases hk : s.callback k with
    | none => exact Or.inl (by simp [establish_barrier, hs, hk])
    | some h =>
      right
      obtain ⟨s2, hs2, heq⟩ := establish_barrier_populated k w a s h stage access hs hk
      obtain ⟨h1, h2⟩ := call_handler_frame k
        ((get_or_create_command_buffer w a).1.chain_bound k)
        (get_or_create_command_buffer w a).1 h (get_or_create_command_buffer w a).2
        stage access
      rw [heq]
      refine ⟨h1, ?_⟩
      have h3 := h2 a
      rw [hs2] at h3
      simp only [World.owned, World.store_getElem? _ a _ s2 hs2, Option.some_bind]
      cases hg : (get_or_create_command_buffer w a).1.instances[a]? with
      | none => rw [hg] at h3; cases h3
      | some g =>
        rw [hg] at h3
        simp only [Option.map_some', Option.some.injEq, Prod.mk.injEq] at h3
        simp only [Option.some_bind]
        rw [← h3.1]
        cases k <;> rfl

/-- A member assignment that does not touch the owned command buffer changes neither
the trace nor the owned command buffer of any object. -/
theorem World.modify_frame (w : World) (a b : Nat) (f : old_sync → old_sync)
    (hf : ∀ s, (f s).mCommandBuffer = s.mCommandBuffer) :
    (w.modify a f).trace = w.trace ∧ (w.modify a f).owned b = w.owned b := by
  unfold World.modify
  cases hs : w.instances[a]? with
  | none => exact ⟨rfl, rfl⟩
  | some s =>
    refine ⟨rfl, ?_⟩
    by_cases hab : a = b
    · subst hab
      simp [World.owned, World.store_getElem? w a _ s hs, hs, hf]
    · simp [World.owned, World.store_getElem?_ne w a b _ hab]

/-- Invoking the steal-on-demand lambda of an auxiliary whose slot holds the reference
`cb`: the master's slot of that kind ends empty, and the trace is that of one invocation
of the callback the master held, made after the master's slot was emptied. -/
theorem establish_barrier_steal_on_demand (k : hook_kind) (w : World) (a m : Nat)
    (A M : old_sync) (cb : Nat) (stage : pipeline_stage) (access : Option memory_access)
    (hA : w.instances[a]? = some A) (hM : w.instances[m]? = some M) (ham : a ≠ m)
    (hk : A.callback k = some (.steal_on_demand m))
    (hslot : A.mCommandBufferRefOrLifetimeHandler = .reference cb) :
    (∃ M3, (establish_barrier k w a stage access).instances[m]? = some M3 ∧
      M3.callback k = none) ∧
    (∀ h, M.callback k = some h →
      (establish_barrier k w a stage access).trace =
        (call_handler k ((w.store m (M.set_callback k none)).chain_bound k)
          (w.store m (M.set_callback k none)) h cb stage access).trace) ∧
    (M.callback k = none → (establish_barrier k w a stage access).trace = w.trace) := by
  obtain ⟨htr, hin⟩ := establish_barrier_of_reference k w a A (.steal_on_demand m) cb
    stage access hA hk hslot
  have hstep := call_handler_steal_on_demand k w m M cb stage access hM
  have hcleared := World.store_getElem? w m (M.set_callback k none) M hM
  refine ⟨?_, ?_, ?_⟩
  · rw [hin m ham, hstep]
    cases hh : M.callback k with
    | none => exact ⟨_, hcleared, callback_set_callback_none M k⟩
    | some h =>
      exact call_handler_callback_none k _ _ h cb stage access m _ hcleared
        (callback_set_callback_none M k)
  · intro h hh
    rw [htr, hstep, hh]
  · intro hh
    rw [htr, hstep, hh]
    rfl

/-- Invoking a barrier callback of one kind leaves the callbacks of the other kind as
they are. -/
theorem call_handler_other_callback (k k2 : hook_kind) (hne : k ≠ k2) :
    ∀ (n : Nat) (w : World) (h : barrier_handler) (cb : Nat) (stage : pipeline_stage)
      (access : Option memory_access) (a : Nat),
      ((call_handler k n w h cb stage access).instances[a]?).map
          (fun s : old_sync => s.callback k2) =
        (w.instances[a]?).map (fun s : old_sync => s.callback k2) := by
  intro n
  induction n with
  | zero =>
    intro w h cb stage access a
    cases h <;> simp [call_handler, World.emit]
  | succ n ih =>
    intro w h cb stage access a
    cases h with
    | closure id => simp [call_handler, World.emit]
    | steal_on_demand master =>
      simp only [call_handler]
      cases hm : w.instances[master]? with
      | none => rfl
      | some ms =>
        have hst : ((w.store master (ms.set_callback k none)).instances[a]?).map
              (fun s : old_sync => s.callback k2) =
            (w.instances[a]?).map (fun s : old_sync => s.callback k2) := by
          by_cases hma : master = a
          · subst hma
            rw [World.store_getElem? w master _ ms hm, hm]
            cases k <;> cases k2 <;> first | rfl | exact absurd rfl hne
          · rw [World.store_getElem?_ne w master a _ hma]
        cases hk : ms.callback k with
        | none => simpa only [hk] using hst
        | some handler =>
          simp only [hk]
          exact (ih (w.store master (ms.set_callback k none)) handler cb stage access
            a).trans hst

/-- A hook invocation of one kind on a populated slot leaves that slot empty and the slot
of the other kind as it was. -/
theorem establish_barrier_slots (k k2 : hook_kind) (hne : k ≠ k2) (w : World) (a : Nat)
    (s : old_sync) (h : barrier_handler) (stage : pipeline_stage)
    (access : Option memory_access)
    (hs : w.instances[a]? = some s) (hk : s.callback k = some h) :
    ∃ s1, (establish_barrier k w a stage access).instances[a]? = some s1 ∧
      s1.callback k = none ∧ s1.callback k2 = s.callback k2 := by
  obtain ⟨s2, hs2, heq⟩ := establish_barrier_populated k w a s h stage access hs hk
  obtain ⟨owned, hg, -, -⟩ := get_or_create_command_buffer_object w a s hs
  have hoth := call_handler_other_callback k k2 hne
    ((get_or_create_command_buffer w a).1.chain_bound k)
    (get_or_create_command_buffer w a).1 h (get_or_create_command_buffer w a).2
    stage access a
  rw [hs2, hg] at hoth
  simp only [Option.map_some', Option.some.injEq] at hoth
  refine ⟨s2.set_callback k none, ?_, callback_set_callback_none s2 k, ?_⟩
  · rw [heq]
    exact World.store_getElem? _ a _ s2 hs2
  · have : (s2.set_callback k none).callback k2 = s2.callback k2 := by
      cases k <;> cases k2 <;> first | rfl | exact absurd rfl hne
    rw [this, hoth]
    cases k2 <;> rfl

/-- Invoking a barrier callback changes neither the process-wide queue nor the supply of
fresh handles. -/
theorem call_handler_statics (k : hook_kind) :
    ∀ (n : Nat) (w : World) (h : barrier_handler) (cb : Nat) (stage : pipeline_stage)
      (access : Option memory_access),
      (call_handler k n w h cb stage access).sQueueToUse = w.sQueueToUse ∧
      (call_handler k n w h cb stage access).next_handle = w.next_handle := by
  intro n
  induction n with
  | zero =>
    intro w h cb stage access
    cases h <;> exact ⟨rfl, rfl⟩
  | succ n ih =>
    intro w h cb stage access
    cases h with
    | closure id => exact ⟨rfl, rfl⟩
    | steal_on_demand master =>
      simp only [call_handler]
      cases hm : w.instances[master]? with
      | none => exact ⟨rfl, rfl⟩
      | some ms =>
        cases hk : ms.callback k with
        | none =>
          simp only [hk]
          exact ⟨rfl, rfl⟩
        | some handler =>
          simp only [hk]
          exact ih (w.store master (ms.set_callback k none)) handler cb stage access

/-- Two worlds that agree on the trace and on every object except the one at address `x`,
in which no callback of kind `k` steals from `x`: invoking the same callback (not one that
steals from `x`) in both gives worlds that again agree in this way, and leaves the object
at `x` in each as it was. -/
theorem call_handler_agree (k : hook_kind) (x : Nat) :
    ∀ (n : Nat) (w1 w2 : World) (h : barrier_handler) (cb : Nat) (stage : pipeline_stage)
      (access : Option memory_access),
      w1.trace = w2.trace →
      (∀ a, a ≠ x → w1.instances[a]? = w2.instances[a]?) →
      (∀ a s, a ≠ x → w1.instances[a]? = some s →
        s.callback k ≠ some (.steal_on_demand x)) →
      h ≠ .steal_on_demand x →
      (call_handler k n w1 h cb stage access).trace =
        (call_handler k n w2 h cb stage access).trace ∧
      (∀ a, a ≠ x → (call_handler k n w1 h cb stage access).instances[a]? =
        (call_handler k n w2 h cb stage access).instances[a]?) ∧
      (call_handler k n w1 h cb stage access).instances[x]? = w1.instances[x]? ∧
      (call_handler k n w2 h cb stage access).instances[x]? = w2.instances[x]? := by
  intro n
  induction n with
  | zero =>
    intro w1 w2 h cb stage access htr hin _ _
    cases h
    · exact ⟨by simp [call_handler, World.emit, htr], hin, rfl, rfl⟩
    · exact ⟨htr, hin, rfl, rfl⟩
  | succ n ih =>
    intro w1 w2 h cb stage access htr hin hno hh
    cases h with
    | closure id => exact ⟨by simp [call_handler, World.emit, htr], hin, rfl, rfl⟩
    | steal_on_demand master =>
      have hmx : master ≠ x := fun e => hh (e ▸ rfl)
      have hm12 := hin master hmx
      simp only [call_handler]
      cases hm : w1.instances[master]? with
      | none =>
        rw [← hm12, hm]
        exact ⟨htr, hin, rfl, rfl⟩
      | some ms =>
        rw [← hm12, hm]
        simp only []
        have hin2 : ∀ a, a ≠ x →
            (w1.store master (ms.set_callback k none)).instances[a]? =
              (w2.store master (ms.set_callback k none)).instances[a]? := by
          intro a hax
          by_cases hma : master = a
          · subst hma
            rw [World.store_getElem? w1 master _ ms hm,
              World.store_getElem? w2 master _ ms (hm12 ▸ hm)]
          · rw [World.store_getElem?_ne w1 master a _ hma,
              World.store_getElem?_ne w2 master a _ hma]
            exact hin a hax
        have hx1 : (w1.store master (ms.set_callback k none)).instances[x]? =
            w1.instances[x]? := World.store_getElem?_ne w1 master x _ hmx
        have hx2 : (w2.store master (ms.set_callback k none)).instances[x]? =
            w2.instances[x]? := World.store_getElem?_ne w2 master x _ hmx
        cases hk : ms.callback k with
        | none => exact ⟨htr, hin2, hx1, hx2⟩
        | some handler =>
          simp only []
          have hno2 : ∀ a s, a ≠ x →
              (w1.store master (ms.set_callback k none)).instances[a]? = some s →
              s.callback k ≠ some (.steal_on_demand x) := by
            intro a s hax has
            by_cases hma : master = a
            · subst hma
              rw [World.store_getElem? w1 master _ ms hm] at has
              cases has
              rw [callback_set_callback_none]
              exact fun e => Option.noConfusion e
            · rw [World.store_getElem?_ne w1 master a _ hma] at has
              exact hno a s hax has
          have hh2 : handler ≠ .steal_on_demand x := by
            intro e
            exact hno master ms hmx hm (e ▸ hk)
          obtain ⟨r1, r2, r3, r4⟩ := ih (w1.store master (ms.set_callback k none))
            (w2.store master (ms.set_callback k none)) handler cb stage access htr hin2
            hno2 hh2
          exact ⟨r1, r2, r3.trans hx1, r4.trans hx2⟩
/-- Two worlds with the same members are the same world. -/
theorem World.eq_of_members (w1 w2 : World) (hi : w1.instances = w2.instances)
    (hq : w1.sQueueToUse = w2.sQueueToUse) (hn : w1.next_handle = w2.next_handle)
    (ht : w1.trace = w2.trace) : w1 = w2 := by
  cases w1; cases w2
  simp only [World.mk.injEq]
  exact ⟨hi, hq, hn, ht⟩

/-- Clearing a callback slot that is empty changes nothing. -/
theorem set_callback_none_of_empty (s : old_sync) (k : hook_kind)
    (h : s.callback k = none) : s.set_callback k none = s := by
  cases s
  cases k <;> simp_all [old_sync.set_callback, old_sync.callback]

/-- Clearing a callback slot leaves the command-buffer slot as it is. -/
theorem set_callback_slot (s : old_sync) (k : hook_kind) (h : Option barrier_handler) :
    (s.set_callback k h).mCommandBufferRefOrLifetimeHandler =
      s.mCommandBufferRefOrLifetimeHandler := by
  cases k <;> rfl

/-- Invoking a caller-supplied closure records the call, whatever the depth bound is. -/
theorem call_handler_closure (k : hook_kind) (n : Nat) (w : World) (id cb : Nat)
    (stage : pipeline_stage) (access : Option memory_access) :
    call_handler k n w (.closure id) cb stage access =
      w.emit (.barrier_handler_called k id cb stage access) := by
  cases n <;> rfl

/-- The two stealing modes seen from the hook invocation: world `D` holds an auxiliary at
address `x` with the stealing lambda and a master at `m` with its callback, world `I` the
same auxiliary holding the master's callback and the master with its slot emptied; they
agree elsewhere. Invoking the auxiliary's hook gives the same world in both. -/
theorem establish_barrier_modes_agree (k : hook_kind) (D I : World) (x m cb : Nat)
    (AD AI MD : old_sync) (stage : pipeline_stage) (access : Option memory_access)
    (hmx : m ≠ x)
    (hDx : D.instances[x]? = some AD) (hIx : I.instances[x]? = some AI)
    (hDm : D.instances[m]? = some MD)
    (hIm : I.instances[m]? = some (MD.set_callback k none))
    (hAD : AD.callback k = some (.steal_on_demand m))
    (hAI : AI.callback k = MD.callback k)
    (hA : AD.set_callback k none = AI.set_callback k none)
    (hslot : AD.mCommandBufferRefOrLifetimeHandler = .reference cb)
    (hrest : ∀ a, a ≠ x → a ≠ m → D.instances[a]? = I.instances[a]?)
    (htr : D.trace = I.trace) (hnh : D.next_handle = I.next_handle)
    (hq : D.sQueueToUse = I.sQueueToUse)
    (hfresh : ∀ g, MD.callback k = some (.steal_on_demand g) →
      ∀ a s, a ≠ x → D.instances[a]? = some s →
        s.callback k ≠ some (.steal_on_demand x)) :
    establish_barrier k D x stage access = establish_barrier k I x stage access := by
  have hslotI : AI.mCommandBufferRefOrLifetimeHandler = .reference cb := by
    rw [← set_callback_slot AI k none, ← hA, set_callback_slot, hslot]
  have hgD := get_or_create_command_buffer_of_reference D x AD cb hDx hslot
  have hgI := get_or_create_command_buffer_of_reference I x AI cb hIx hslotI
  have hcx : (D.store m (MD.set_callback k none)).instances[x]? = some AD := by
    rw [World.store_getElem?_ne D m x _ hmx]; exact hDx
  have hagree : ∀ a, a ≠ x →
      (D.store m (MD.set_callback k none)).instances[a]? = I.instances[a]? := by
    intro a hax
    by_cases hma : m = a
    · subst hma
      rw [World.store_getElem? D m _ MD hDm, hIm]
    · rw [World.store_getElem?_ne D m a _ hma]
      exact hrest a hax (Ne.symm hma)
  obtain ⟨s2, hs2, heD⟩ := establish_barrier_populated k D x AD (.steal_on_demand m) stage
    access hDx hAD
  rw [hgD] at hs2 heD
  simp only [] at hs2 heD
  rw [call_handler_steal_on_demand k D m MD cb stage access hDm] at hs2 heD
  have hlx := lt_length_of_getElem? hIx
  cases hk : MD.callback k with
  | none =>
    rw [hk] at hs2 heD
    simp only [] at hs2 heD
    rw [hcx] at hs2
    cases hs2
    rw [heD, establish_barrier_empty k I x AI stage access hIx (hAI.trans hk)]
    refine World.eq_of_members _ _ ?_ hq hnh htr
    apply List.ext_getElem?
    intro a
    by_cases hax : a = x
    · subst hax
      rw [World.store_getElem? _ a _ AD hcx, hIx, hA,
        set_callback_none_of_empty AI k (hAI.trans hk)]
    · rw [World.store_getElem?_ne _ x a _ (Ne.symm hax)]
      exact hagree a hax
  | some h =>
    rw [hk] at hs2 heD
    simp only [] at hs2 heD
    obtain ⟨s3, hs3, heI⟩ := establish_barrier_populated k I x AI h stage access hIx
      (hAI.trans hk)
    rw [hgI] at hs3 heI
    simp only [] at hs3 heI
    have hfD := call_handler_fuel_adequate k
      ((D.store m (MD.set_callback k none)).chain_bound k)
      (D.store m (MD.set_callback k none)) h cb stage access (Nat.lt_succ_self _)
      (max ((D.store m (MD.set_callback k none)).chain_bound k) (I.chain_bound k))
      (Nat.le_max_left _ _)
    have hfI := call_handler_fuel_adequate k (I.chain_bound k) I h cb stage access
      (Nat.lt_succ_self _)
      (max ((D.store m (MD.set_callback k none)).chain_bound k) (I.chain_bound k))
      (Nat.le_max_right _ _)
    have hr : (call_handler k
          (max ((D.store m (MD.set_callback k none)).chain_bound k) (I.chain_bound k))
          (D.store m (MD.set_callback k none)) h cb stage access).trace =
        (call_handler k
          (max ((D.store m (MD.set_callback k none)).chain_bound k) (I.chain_bound k))
          I h cb stage access).trace ∧
        (∀ a, a ≠ x → (call_handler k
            (max ((D.store m (MD.set_callback k none)).chain_bound k) (I.chain_bound k))
            (D.store m (MD.set_callback k none)) h cb stage access).instances[a]? =
          (call_handler k
            (max ((D.store m (MD.set_callback k none)).chain_bound k) (I.chain_bound k))
            I h cb stage access).instances[a]?) ∧
        (call_handler k
            (max ((D.store m (MD.set_callback k none)).chain_bound k) (I.chain_bound k))
            (D.store m (MD.set_callback k none)) h cb stage access).instances[x]? =
          (D.store m (MD.set_callback k none)).instances[x]? ∧
        (call_handler k
            (max ((D.store m (MD.set_callback k none)).chain_bound k) (I.chain_bound k))
            I h cb stage access).instances[x]? = I.instances[x]? := by
      cases h with
      | closure id =>
        rw [call_handler_closure, call_handler_closure]
        exact ⟨by simp [World.emit, World.store, htr], hagree, rfl, rfl⟩
      | steal_on_demand g =>
        have hf := hfresh g hk
        have hh : barrier_handler.steal_on_demand g ≠ .steal_on_demand x :=
          fun e => hf m MD hmx hDm (e ▸ hk)
        have hno : ∀ a s, a ≠ x →
            (D.store m (MD.set_callback k none)).instances[a]? = some s →
            s.callback k ≠ some (.steal_on_demand x) := by
          intro a s hax has
          by_cases hma : m = a
          · subst hma
            rw [World.store_getElem? D m _ MD hDm] at has
            cases has
            rw [callback_set_callback_none]
            exact fun e => Option.noConfusion e
          · rw [World.store_getElem?_ne D m a _ hma] at has
            exact hf a s hax has
        exact call_handler_agree k x _ _ I _ cb stage access htr hagree hno hh
    obtain ⟨r1, r2, r3, r4⟩ := hr
    rw [hfD] at r1 r2 r3
    rw [hfI] at r1 r2 r4
    rw [r3, hcx] at hs2
    rw [r4, hIx] at hs3
    cases hs2
    cases hs3
    rw [heD, heI]
    have hsD := call_handler_statics k
      ((D.store m (MD.set_callback k none)).chain_bound k)
      (D.store m (MD.set_callback k none)) h cb stage access
    have hsI := call_handler_statics k (I.chain_bound k) I h cb stage access
    refine World.eq_of_members _ _ ?_ (hsD.1.trans (hq.trans hsI.1.symm))
      (hsD.2.trans (hnh.trans hsI.2.symm)) r1
    apply List.ext_getElem?
    intro a
    by_cases hax : a = x
    · subst hax
      rw [World.store_getElem? _ a _ AD (r3.trans hcx),
        World.store_getElem? _ a _ AI (r4.trans hIx), hA]
    · rw [World.store_getElem?_ne _ x a _ (Ne.symm hax),
        World.store_getElem?_ne _ x a _ (Ne.symm hax)]
      exact r2 a hax

/-- Provisioning at address `a` leaves every other object as it is. -/
theorem get_or_create_command_buffer_other (w : World) (a c : Nat) (hc : a ≠ c) :
    (get_or_create_command_buffer w a).1.instances[c]? = w.instances[c]? := by
  cases hs : w.instances[a]? with
  | none => simp [get_or_create_command_buffer, hs]
  | some s =>
    cases hslot : s.mCommandBufferRefOrLifetimeHandler <;>
      cases hcb : s.mCommandBuffer <;>
      simp [get_or_create_command_buffer, hs, hslot, hcb, World.alloc_command_buffer,
        World.store, World.emit, List.getElem?_set_ne hc]

/-- Provisioning changes neither the process-wide queue nor, when the slot holds a
reference or a buffer is owned, anything else. -/
theorem get_or_create_command_buffer_queue (w : World) (a : Nat) :
    (get_or_create_command_buffer w a).1.sQueueToUse = w.sQueueToUse := by
  cases hs : w.instances[a]? with
  | none => simp [get_or_create_command_buffer, hs]
  | some s =>
    cases hslot : s.mCommandBufferRefOrLifetimeHandler <;>
      cases hcb : s.mCommandBuffer <;>
      simp [get_or_create_command_buffer, hs, hslot, hcb, World.alloc_command_buffer,
        World.store, World.emit]

/-- What `auxiliary_with_barriers` leaves alone: the trace, the queue and the handle
supply are those of provisioning the master's command buffer, and every object other
than the master and the new auxiliary is as before. -/
theorem auxiliary_with_barriers_frame (ndebug : Bool) (request : commandbuffer_request)
    (w : World) (m : Nat) (b a : hook_argument) (M : old_sync)
    (hM : w.instances[m]? = some M) :
    (auxiliary_with_barriers ndebug request w m b a).1.trace =
      (get_or_create_command_buffer w m).1.trace ∧
    (auxiliary_with_barriers ndebug request w m b a).1.next_handle =
      (get_or_create_command_buffer w m).1.next_handle ∧
    (auxiliary_with_barriers ndebug request w m b a).1.sQueueToUse = w.sQueueToUse ∧
    ∀ c, c ≠ m → c ≠ w.instances.length →
      (auxiliary_with_barriers ndebug request w m b a).1.instances[c]? =
        w.instances[c]? := by
  have hlt := lt_length_of_getElem? hM
  obtain ⟨owned, hg, -, -⟩ := get_or_create_command_buffer_object w m M hM
  have hlen := get_or_create_command_buffer_length w m
  rw [auxiliary_with_barriers_result ndebug request w m b a M _ hM hg]
  refine ⟨rfl, rfl, get_or_create_command_buffer_queue w m, ?_⟩
  intro c hcm hcl
  simp only []
  by_cases hc : c < w.instances.length
  · rw [List.getElem?_append_left (by rw [List.length_set, hlen]; exact hc),
      List.getElem?_set_ne (Ne.symm hcm)]
    exact get_or_create_command_buffer_other w m c (Ne.symm hcm)
  · have hgt : w.instances.length < c := by omega
    rw [List.getElem?_eq_none (by simp [hlen]; omega),
      List.getElem?_eq_none (by omega)]

/-- The master and the auxiliary in the world `auxiliary_with_barriers` returns, in terms
of the master as provisioning left it. -/
theorem auxiliary_with_barriers_pair (ndebug : Bool) (request : commandbuffer_request)
    (w : World) (m : Nat) (b a : hook_argument) (M Mg : old_sync)
    (hM : w.instances[m]? = some M)
    (hMg : (get_or_create_command_buffer w m).1.instances[m]? = some Mg) :
    (auxiliary_with_barriers ndebug request w m b a).1.instances[m]? =
      some { Mg with
        mEstablishBarrierBeforeOperationCallback :=
          b.left_in_master M.mEstablishBarrierBeforeOperationCallback
        mEstablishBarrierAfterOperationCallback :=
          a.left_in_master M.mEstablishBarrierAfterOperationCallback } ∧
    (auxiliary_with_barriers ndebug request w m b a).1.instances[w.instances.length]? =
      some { old_sync.default_constructed request with
        mCommandBufferRefOrLifetimeHandler :=
          .reference (get_or_create_command_buffer w m).2
        mEstablishBarrierBeforeOperationCallback :=
          b.given_to_auxiliary m M.mEstablishBarrierBeforeOperationCallback
        mEstablishBarrierAfterOperationCallback :=
          a.given_to_auxiliary m M.mEstablishBarrierAfterOperationCallback } := by
  have hlt := lt_length_of_getElem? hM
  have hlen := get_or_create_command_buffer_length w m
  have hlt2 : m < (get_or_create_command_buffer w m).1.instances.length := by
    rw [hlen]; exact hlt
  rw [auxiliary_with_barriers_result ndebug request w m b a M _ hM hMg]
  refine ⟨?_, ?_⟩
  · simp only []
    rw [List.getElem?_append_left (by rw [List.length_set]; exact hlt2),
      List.getElem?_set_self hlt2]
  · simp only []
    rw [List.getElem?_append_right (by rw [List.length_set, hlen]),
      List.length_set, hlen]
    simp

/-- Composing in steal-on-demand mode and in steal-immediately mode for the before-hook,
then invoking the auxiliary's before-hook, gives the same world. If the master's hook is
itself a stealing lambda, no callback in the heap may refer to the address the auxiliary
is about to get. -/
theorem before_modes_agree (ndebug : Bool) (request : commandbuffer_request) (w : World)
    (m : Nat) (other : hook_argument) (M : old_sync) (stage : pipeline_stage)
    (access : Option memory_access) (hM : w.instances[m]? = some M)
    (hfresh : ∀ g, M.mEstablishBarrierBeforeOperationCallback =
        some (.steal_on_demand g) →
      ∀ (a : Nat) (s : old_sync), w.instances[a]? = some s →
        s.mEstablishBarrierBeforeOperationCallback ≠
          some (.steal_on_demand w.instances.length)) :
    establish_barrier .before
        (auxiliary_with_barriers ndebug request w m .steal_on_demand_sentinel other).1
        w.instances.length stage access =
      establish_barrier .before
        (auxiliary_with_barriers ndebug request w m .steal_immediately_sentinel other).1
        w.instances.length stage access := by
  have hlt := lt_length_of_getElem? hM
  obtain ⟨owned, hg, -, -⟩ := get_or_create_command_buffer_object w m M hM
  obtain ⟨hDm, hDx⟩ := auxiliary_with_barriers_pair ndebug request w m
    .steal_on_demand_sentinel other M _ hM hg
  obtain ⟨hIm, hIx⟩ := auxiliary_with_barriers_pair ndebug request w m
    .steal_immediately_sentinel other M _ hM hg
  obtain ⟨hDt, hDn, hDq, hDr⟩ := auxiliary_with_barriers_frame ndebug request w m
    .steal_on_demand_sentinel other M hM
  obtain ⟨hIt, hIn, hIq, hIr⟩ := auxiliary_with_barriers_frame ndebug request w m
    .steal_immediately_sentinel other M hM
  refine establish_barrier_modes_agree .before _ _ w.instances.length m
    (get_or_create_command_buffer w m).2 _ _ _ stage access (Nat.ne_of_lt hlt)
    hDx hIx hDm hIm rfl rfl rfl rfl ?_ (hDt.trans hIt.symm) (hDn.trans hIn.symm)
    (hDq.trans hIq.symm) ?_
  · intro c hcx hcm
    rw [hDr c hcm hcx, hIr c hcm hcx]
  · intro g hg2 c s hcx hcs
    have hf := hfresh g hg2
    by_cases hcm : c = m
    · subst hcm
      rw [hDm] at hcs
      cases hcs
      exact hf c M hM
    · rw [hDr c hcm hcx] at hcs
      exact hf c s hcs

/-- Composing in steal-on-demand mode and in steal-immediately mode for the after-hook,
then invoking the auxiliary's after-hook, gives the same world. If the master's hook is
itself a stealing lambda, no callback in the heap may refer to the address the auxiliary
is about to get. -/
theorem after_modes_agree (ndebug : Bool) (request : commandbuffer_request) (w : World)
    (m : Nat) (other : hook_argument) (M : old_sync) (stage : pipeline_stage)
    (access : Option memory_access) (hM : w.instances[m]? = some M)
    (hfresh : ∀ g, M.mEstablishBarrierAfterOperationCallback =
        some (.steal_on_demand g) →
      ∀ (a : Nat) (s : old_sync), w.instances[a]? = some s →
        s.mEstablishBarrierAfterOperationCallback ≠
          some (.steal_on_demand w.instances.length)) :
    establish_barrier .after
        (auxiliary_with_barriers ndebug request w m other .steal_on_demand_sentinel).1
        w.instances.length stage access =
      establish_barrier .after
        (auxiliary_with_barriers ndebug request w m other .steal_immediately_sentinel).1
        w.instances.length stage access := by
  have hlt := lt_length_of_getElem? hM
  obtain ⟨owned, hg, -, -⟩ := get_or_create_command_buffer_object w m M hM
  obtain ⟨hDm, hDx⟩ := auxiliary_with_barriers_pair ndebug request w m other
    .steal_on_demand_sentinel M _ hM hg
  obtain ⟨hIm, hIx⟩ := auxiliary_with_barriers_pair ndebug request w m other
    .steal_immediately_sentinel M _ hM hg
  obtain ⟨hDt, hDn, hDq, hDr⟩ := auxiliary_with_barriers_frame ndebug request w m other
    .steal_on_demand_sentinel M hM
  obtain ⟨hIt, hIn, hIq, hIr⟩ := auxiliary_with_barriers_frame ndebug request w m other
    .steal_immediately_sentinel M hM
  refine establish_barrier_modes_agree .after _ _ w.instances.length m
    (get_or_create_command_buffer w m).2 _ _ _ stage access (Nat.ne_of_lt hlt)
    hDx hIx hDm hIm rfl rfl rfl rfl ?_ (hDt.trans hIt.symm) (hDn.trans hIn.symm)
    (hDq.trans hIq.symm) ?_
  · intro c hcx hcm
    rw [hDr c hcm hcx, hIr c hcm hcx]
  · intro g hg2 c s hcx hcs
    have hf := hfresh g hg2
    by_cases hcm : c = m
    · subst hcm
      rw [hDm] at hcs
      cases hcs
      exact hf c M hM
    · rw [hDr c hcm hcx] at hcs
      exact hf c s hcs

/-- Overwriting an object changes the number of holders of a closure by what the old and
the new object hold. -/
theorem World.holders_store (w : World) (k : hook_kind) (id a : Nat) (s x : old_sync)
    (hs : w.instances[a]? = some s) :
    (w.store a x).holders k id + (if s.holds_closure k id then 1 else 0) =
      w.holders k id + (if x.holds_closure k id then 1 else 0) := by
  have hlt := lt_length_of_getElem? hs
  have hget : w.instances[a] = s := by
    rw [List.getElem?_eq_getElem hlt] at hs
    exact Option.some.inj hs
  have hle := List.boole_getElem_le_countP (old_sync.holds_closure k id) w.instances a hlt
  simp only [World.holders, World.store]
  rw [List.countP_set _ _ _ _ hlt]
  rw [hget] at hle ⊢
  omega

/-- Placing an object adds it to the holders of a closure if it holds the closure. -/
theorem World.holders_place (w : World) (k : hook_kind) (id : Nat) (x : old_sync) :
    (w.place x).1.holders k id =
      w.holders k id + (if x.holds_closure k id then 1 else 0) := by
  simp [World.holders, World.place, List.countP_append, List.countP_cons]

/-- An object with an empty slot does not hold the closure. -/
theorem holds_closure_of_empty (k : hook_kind) (id : Nat) (s : old_sync)
    (h : s.callback k = none) : s.holds_closure k id = false := by
  simp [old_sync.holds_closure, h]

/-- Clearing the slot of another kind does not change whether the closure is held. -/
theorem holds_closure_set_other (k j : hook_kind) (id : Nat) (s : old_sync)
    (h : Option barrier_handler) (hne : j ≠ k) :
    (s.set_callback j h).holds_closure k id = s.holds_closure k id := by
  cases j <;> cases k <;> first | rfl | exact absurd rfl hne

/-- Invoking a barrier callback: the calls of the closure `id` as a callback of kind `k`
plus its holders grow by at most one, and only if the callback invoked is that closure. -/
theorem call_handler_hook_calls (k j : hook_kind) (id : Nat) :
    ∀ (n : Nat) (w : World) (h : barrier_handler) (cb : Nat) (stage : pipeline_stage)
      (access : Option memory_access),
      hook_calls k id (call_handler j n w h cb stage access).trace +
          (call_handler j n w h cb stage access).holders k id ≤
        hook_calls k id w.trace + w.holders k id +
          (if j = k ∧ h = .closure id then 1 else 0) := by
  intro n
  induction n with
  | zero =>
    intro w h cb stage access
    cases h with
    | closure id2 =>
      rw [call_handler_closure]
      simp only [World.emit, hook_calls, World.holders, List.countP_append,
        List.countP_cons, List.countP_nil, Event.is_hook_call, Bool.and_eq_true,
        decide_eq_true_eq, barrier_handler.closure.injEq]
      split <;> omega
    | steal_on_demand master => simp [call_handler]
  | succ n ih =>
    intro w h cb stage access
    cases h with
    | closure id2 =>
      rw [call_handler_closure]
      simp only [World.emit, hook_calls, World.holders, List.countP_append,
        List.countP_cons, List.countP_nil, Event.is_hook_call, Bool.and_eq_true,
        decide_eq_true_eq, barrier_handler.closure.injEq]
      split <;> omega
    | steal_on_demand master =>
      simp only [call_handler]
      cases hm : w.instances[master]? with
      | none => simp
      | some ms =>
        have hst := World.holders_store w k id master ms (ms.set_callback j none) hm
        have htr : (w.store master (ms.set_callback j none)).trace = w.trace := rfl
        cases hk : ms.callback j with
        | none =>
          simp only [hk]
          have : (ms.set_callback j none).holds_closure k id = ms.holds_closure k id := by
            rw [set_callback_none_of_empty ms j hk]
          rw [this] at hst
          simp only [htr]
          omega
        | some handler =>
          simp only [hk]
          have h2 := ih (w.store master (ms.set_callback j none)) handler cb stage access
          rw [htr] at h2
          by_cases hjk : j = k
          · subst hjk
            rw [holds_closure_of_empty j id _ (callback_set_callback_none ms j)] at hst
            have hw : (if ms.holds_closure j id = true then 1 else 0) =
                (if j = j ∧ handler = barrier_handler.closure id then 1 else 0) := by
              simp [old_sync.holds_closure, hk]
            simp only [Bool.false_eq_true, if_false] at hst
            have hz : (if j = j ∧ barrier_handler.steal_on_demand master =
                barrier_handler.closure id then 1 else 0) = 0 := by simp
            omega
          · rw [holds_closure_set_other k j id ms none hjk] at hst
            have hz1 : (if j = k ∧ handler = barrier_handler.closure id then 1 else 0) =
                0 := by simp [hjk]
            have hz2 : (if j = k ∧ barrier_handler.steal_on_demand master =
                barrier_handler.closure id then 1 else 0) = 0 := by simp [hjk]
            omega

/-- Overwriting an object by one that holds the closure exactly if the old one did keeps
the number of holders. -/
theorem World.holders_store_same (w : World) (k : hook_kind) (id a : Nat) (s x : old_sync)
    (hs : w.instances[a]? = some s)
    (hx : x.holds_closure k id = s.holds_closure k id) :
    (w.store a x).holders k id = w.holders k id := by
  have := World.holders_store w k id a s x hs
  rw [hx] at this
  omega

/-- Provisioning neither calls a barrier closure nor moves one. -/
theorem get_or_create_command_buffer_hooks (w : World) (a : Nat) (k : hook_kind)
    (id : Nat) :
    hook_calls k id (get_or_create_command_buffer w a).1.trace = hook_calls k id w.trace ∧
    (get_or_create_command_buffer w a).1.holders k id = w.holders k id := by
  cases hs : w.instances[a]? with
  | none => simp [get_or_create_command_buffer, hs]
  | some s =>
    have hst := World.holders_store_same w k id a s
      { s with mCommandBuffer := some w.next_handle } hs (by cases k <;> rfl)
    simp only [World.holders, World.store] at hst
    obtain ⟨special, req, sink, waits, slot, owned, before, after, q, hint⟩ := s
    cases slot <;> cases owned <;>
      simp [get_or_create_command_buffer, hs, World.alloc_command_buffer,
        World.store, World.emit, hook_calls, List.countP_append, Event.is_hook_call,
        World.holders] <;>
      simpa using hst

/-- A hook invocation of any kind does not raise the calls of the closure `id` as a
callback of kind `k` plus its holders. -/
theorem establish_barrier_hook_calls (k j : hook_kind) (id : Nat) (w : World) (a : Nat)
    (stage : pipeline_stage) (access : Option memory_access) :
    hook_calls k id (establish_barrier j w a stage access).trace +
        (establish_barrier j w a stage access).holders k id ≤
      hook_calls k id w.trace + w.holders k id := by
  cases hs : w.instances[a]? with
  | none => simp [establish_barrier, hs]
  | some s =>
    cases hk : s.callback j with
    | none => simp [establish_barrier, hs, hk]
    | some h =>
      obtain ⟨s2, hs2, heq⟩ := establish_barrier_populated j w a s h stage access hs hk
      obtain ⟨hg1, hg2⟩ := get_or_create_command_buffer_hooks w a k id
      have hch := call_handler_hook_calls k j id
        ((get_or_create_command_buffer w a).1.chain_bound j)
        (get_or_create_command_buffer w a).1 h (get_or_create_command_buffer w a).2
        stage access
      have hst := World.holders_store _ k id a s2 (s2.set_callback j none) hs2
      have htr : ((call_handler j ((get_or_create_command_buffer w a).1.chain_bound j)
          (get_or_create_command_buffer w a).1 h (get_or_create_command_buffer w a).2
          stage access).store a (s2.set_callback j none)).trace =
          (call_handler j ((get_or_create_command_buffer w a).1.chain_bound j)
          (get_or_create_command_buffer w a).1 h (get_or_create_command_buffer w a).2
          stage access).trace := rfl
      rw [heq, htr]
      rw [hg1, hg2] at hch
      by_cases hw : j = k ∧ h = .closure id
      · obtain ⟨hjk, hh⟩ := hw
        subst hjk hh
        rw [call_handler_closure] at hs2 hst hch ⊢
        obtain ⟨owned, hg, -, -⟩ := get_or_create_command_buffer_object w a s hs
        have hs2' : (get_or_create_command_buffer w a).1.instances[a]? = some s2 := hs2
        rw [hg] at hs2'
        cases hs2'
        have hp : old_sync.holds_closure j id { s with mCommandBuffer := owned } = true := by
          have : ({ s with mCommandBuffer := owned } : old_sync).callback j =
              s.callback j := by cases j <;> rfl
          simp [old_sync.holds_closure, this, hk]
        rw [hp, holds_closure_of_empty j id _ (callback_set_callback_none _ j)] at hst
        simp only [if_true, Bool.false_eq_true, if_false, Nat.add_zero] at hst
        simp only [true_and, if_true] at hch
        have he : ((get_or_create_command_buffer w a).1.emit
            (.barrier_handler_called j id (get_or_create_command_buffer w a).2 stage
              access)).holders j id = (get_or_create_command_buffer w a).1.holders j id :=
          rfl
        have hc : hook_calls j id ((get_or_create_command_buffer w a).1.emit
            (.barrier_handler_called j id (get_or_create_command_buffer w a).2 stage
              access)).trace = hook_calls j id w.trace + 1 := by
          rw [← hg1]
          simp [World.emit, hook_calls, List.countP_append, Event.is_hook_call]
        rw [he, hg2] at hst
        rw [hc]
        omega
      · rw [if_neg hw] at hch
        have hle : (if (s2.set_callback j none).holds_closure k id = true then 1 else 0) ≤
            (if s2.holds_closure k id = true then 1 else 0) := by
          by_cases hjk : j = k
          · subst hjk
            rw [holds_closure_of_empty j id _ (callback_set_callback_none s2 j)]
            simp
          · rw [holds_closure_set_other k j id s2 none hjk]
        omega

/-- Overwriting any address by an object that does not hold the closure cannot raise the
number of holders. -/
theorem World.holders_store_le (w : World) (k : hook_kind) (id a : Nat) (x : old_sync)
    (hx : x.holds_closure k id = false) :
    (w.store a x).holders k id ≤ w.holders k id := by
  cases hs : w.instances[a]? with
  | none =>
    have hlen : w.instances.length ≤ a := by
      by_contra hc
      rw [List.getElem?_eq_getElem (by omega)] at hs
      cases hs
    simp [World.holders, World.store, List.set_eq_of_length_le hlen]
  | some s =>
    have := World.holders_store w k id a s x hs
    rw [hx] at this
    simp only [Bool.false_eq_true, if_false, Nat.add_zero] at this
    omega

/-- A moved-from object holds no closure. -/
theorem moved_from_holds_closure (k : hook_kind) (id : Nat) (s : old_sync) :
    s.moved_from.holds_closure k id = false := by
  cases k <;> rfl

/-- The move constructor keeps the trace and the number of holders of a closure. -/
theorem move_construct_hooks (w : World) (aOther : Nat) (k : hook_kind) (id : Nat) :
    (move_construct w aOther).1.trace = w.trace ∧
    (move_construct w aOther).1.holders k id = w.holders k id := by
  cases hs : w.instances[aOther]? with
  | none => simp [move_construct, hs]
  | some other =>
    have hlt := lt_length_of_getElem? hs
    have hp := World.holders_place w k id other
    have hget : (w.place other).1.instances[aOther]? = some other := by
      simp only [World.place]
      rw [List.getElem?_append_left hlt]
      exact hs
    have hst := World.holders_store (w.place other).1 k id aOther other other.moved_from hget
    rw [moved_from_holds_closure] at hst
    simp only [move_construct, hs, moved_into_eq]
    refine ⟨rfl, ?_⟩
    simp only [Bool.false_eq_true, if_false, Nat.add_zero] at hst
    omega

/-- The move assignment keeps the trace and does not raise the number of holders of a
closure. -/
theorem move_assign_hooks (w : World) (self aOther : Nat) (k : hook_kind) (id : Nat) :
    (move_assign w self aOther).trace = w.trace ∧
    (move_assign w self aOther).holders k id ≤ w.holders k id := by
  cases hs : w.instances[aOther]? with
  | none => simp [move_assign, hs]
  | some other =>
    simp only [move_assign, hs, moved_into_eq]
    refine ⟨rfl, ?_⟩
    by_cases hsa : self = aOther
    · subst hsa
      have h1 : w.store self other = w := World.store_same w self other hs
      rw [h1]
      exact World.holders_store_le w k id self _ (moved_from_holds_closure k id other)
    · have hget : (w.store self other).instances[aOther]? = some other := by
        rw [World.store_getElem?_ne w self aOther other hsa]
        exact hs
      have hst := World.holders_store (w.store self other) k id aOther other
        other.moved_from hget
      rw [moved_from_holds_closure] at hst
      simp only [Bool.false_eq_true, if_false, Nat.add_zero] at hst
      cases hself : w.instances[self]? with
      | none =>
        have hlen : w.instances.length ≤ self := by
          by_contra hc
          rw [List.getElem?_eq_getElem (by omega)] at hself
          cases hself
        have h1 : (w.store self other).holders k id = w.holders k id := by
          simp [World.holders, World.store, List.set_eq_of_length_le hlen]
        omega
      | some s =>
        have h1 := World.holders_store w k id self s other hself
        omega

/-- A member assignment that leaves the callbacks alone keeps the trace and the number
of holders of a closure. -/
theorem World.modify_hooks (w : World) (a : Nat) (f : old_sync → old_sync)
    (k : hook_kind) (id : Nat) (hf : ∀ s, (f s).callback k = s.callback k) :
    (w.modify a f).trace = w.trace ∧ (w.modify a f).holders k id = w.holders k id := by
  unfold World.modify
  cases hs : w.instances[a]? with
  | none => exact ⟨rfl, rfl⟩
  | some s =>
    exact ⟨rfl, World.holders_store_same w k id a s (f s) hs
      (by simp [old_sync.holds_closure, hf])⟩

/-- The step "possibly steal something" when there is no object at the master's
address. -/
theorem steal_handler_absent (k : hook_kind) (w : World) (m : Nat) (od im : Bool)
    (arg : hook_argument) (hM : w.instances[m]? = none) :
    steal_handler k w m od im arg =
      (w, if od then some (.steal_on_demand m) else if im then none else arg.function) := by
  unfold steal_handler
  cases od <;> cases im <;> simp [hM]

/-- The composition `auxiliary_with_barriers` calls no barrier closure, and it does not
raise the number of holders of the closure `id` unless its argument for the kind `k` is
that closure. -/
theorem auxiliary_with_barriers_hooks (ndebug : Bool) (request : commandbuffer_request)
    (w : World) (m : Nat) (b a : hook_argument) (k : hook_kind) (id : Nat)
    (harg : hook_argument.of_kind k b a ≠ .explicit (some (.closure id))) :
    hook_calls k id (auxiliary_with_barriers ndebug request w m b a).1.trace =
      hook_calls k id w.trace ∧
    (auxiliary_with_barriers ndebug request w m b a).1.holders k id = w.holders k id := by
  cases hM : w.instances[m]? with
  | none =>
    unfold auxiliary_with_barriers
    simp only [steal_handler_absent _ _ _ _ _ _ hM, get_or_create_command_buffer, hM]
    split
    · exact ⟨rfl, rfl⟩
    · split
      · exact ⟨rfl, rfl⟩
      · refine ⟨rfl, ?_⟩
        rw [World.holders_place]
        have : ∀ x y : Nat, y = 0 → x + y = x := by intro x y h; omega
        apply this
        cases k <;> cases b <;> cases a <;>
          simp [hook_argument.of_kind] at harg <;>
          simp [old_sync.holds_closure, old_sync.callback,
            is_about_to_steal_before_handler_on_demand,
            is_about_to_steal_after_handler_on_demand,
            is_about_to_steal_before_handler_immediately,
            is_about_to_steal_after_handler_immediately, hook_argument.function, harg]
  | some M =>
    obtain ⟨owned, hg, -, -⟩ := get_or_create_command_buffer_object w m M hM
    obtain ⟨hc, hh⟩ := get_or_create_command_buffer_hooks w m k id
    have hst := World.holders_store (get_or_create_command_buffer w m).1 k id m
      { M with mCommandBuffer := owned }
      { M with
        mCommandBuffer := owned
        mEstablishBarrierBeforeOperationCallback :=
          b.left_in_master M.mEstablishBarrierBeforeOperationCallback
        mEstablishBarrierAfterOperationCallback :=
          a.left_in_master M.mEstablishBarrierAfterOperationCallback } hg
    rw [auxiliary_with_barriers_result ndebug request w m b a M _ hM hg]
    refine ⟨hc, ?_⟩
    rw [hh] at hst
    simp only [World.holders, World.store, List.countP_append, List.countP_cons,
      List.countP_nil] at hst ⊢
    generalize List.countP (old_sync.holds_closure k id) (List.set _ _ _) = n1 at hst ⊢
    generalize List.countP (old_sync.holds_closure k id) w.instances = n2 at hst ⊢
    obtain ⟨special, req, sink, waits, slot, own, before, after, q, hint⟩ := M
    cases k <;> cases b <;> cases a <;>
      simp only [hook_argument.of_kind, hook_argument.left_in_master,
        hook_argument.given_to_auxiliary, old_sync.holds_closure, old_sync.callback,
        old_sync.default_constructed, ne_eq, not_true_eq_false, not_false_eq_true,
        hook_argument.explicit.injEq, reduceCtorEq, decide_eq_true_eq] at harg hst ⊢ <;>
      (try simp only [if_neg harg]) <;>
      (try split at hst) <;> simp_all

/-- The finalizer calls no barrier closure. -/
theorem submit_and_sync_hook_calls (ndebug : Bool) (w : World) (a : Nat) (k : hook_kind)
    (id : Nat) :
    hook_calls k id (submit_and_sync ndebug w a).1.trace = hook_calls k id w.trace := by
  cases hs : w.instances[a]? with
  | none => simp [submit_and_sync, hs, hook_calls, Event.is_hook_call]
  | some s =>
    have hlt := lt_length_of_getElem? hs
    cases hty : s.get_sync_type with
    | via_semaphore =>
      cases hcb : s.mCommandBuffer <;> cases hsink : s.mSemaphoreLifetimeHandler <;>
        cases ndebug <;>
        simp [submit_and_sync, hs, hty, hcb, hsink, assert_holds, queue_to_use,
          submit_and_sync_epilogue, World.emit, World.store,
          World.submit_and_handle_with_semaphore, List.getElem?_set_self hlt, hook_calls,
          Event.is_hook_call]
    | via_barrier =>
      cases hcb : s.mCommandBuffer <;> cases hslot : s.mCommandBufferRefOrLifetimeHandler <;>
        cases ndebug <;>
        simp [submit_and_sync, hs, hty, hcb, hslot, assert_holds, queue_to_use,
          submit_and_sync_epilogue, World.emit, World.store,
          List.getElem?_set_self hlt, hook_calls, Event.is_hook_call]
    | via_wait_idle =>
      cases hcb : s.mCommandBuffer <;> cases ndebug <;>
        simp [submit_and_sync, hs, hty, hcb, assert_holds, queue_to_use,
          submit_and_sync_epilogue, World.emit, World.store,
          List.getElem?_set_self hlt, hook_calls, Event.is_hook_call]
    | via_wait_idle_deliberately =>
      cases hcb : s.mCommandBuffer <;> cases ndebug <;>
        simp [submit_and_sync, hs, hty, hcb, assert_holds, queue_to_use,
          submit_and_sync_epilogue, World.emit, World.store,
          List.getElem?_set_self hlt, hook_calls, Event.is_hook_call]
    | not_required =>
      cases ndebug <;> simp [submit_and_sync, hs, hty, assert_holds, hook_calls, Event.is_hook_call]
    | by_return =>
      cases hcb : s.mCommandBuffer with
      | none => simp [submit_and_sync, hs, hty, hcb, hook_calls, Event.is_hook_call]
      | some cb =>
        simp [submit_and_sync, hs, hty, hcb, World.emit, World.store, hook_calls,
          Event.is_hook_call]
    | by_existing_command_buffer => simp [submit_and_sync, hs, hty, hook_calls, Event.is_hook_call]

/-- The finalizer leaves the objects as they are, or replaces the object at address `a`
by one with the same callbacks. -/
theorem submit_and_sync_callbacks (ndebug : Bool) (w : World) (a : Nat) :
    (submit_and_sync ndebug w a).1.instances = w.instances ∨
      ∃ s s2, w.instances[a]? = some s ∧
        (submit_and_sync ndebug w a).1.instances = w.instances.set a s2 ∧
        ∀ k, s2.callback k = s.callback k := by
  cases hs : w.instances[a]? with
  | none => simp [submit_and_sync, hs]
  | some s =>
    have hlt := lt_length_of_getElem? hs
    cases hty : s.get_sync_type with
    | via_semaphore =>
      cases hcb : s.mCommandBuffer <;> cases hsink : s.mSemaphoreLifetimeHandler <;>
        cases ndebug <;>
        simp [submit_and_sync, hs, hty, hcb, hsink, assert_holds, queue_to_use,
          submit_and_sync_epilogue, World.emit, World.store,
          World.submit_and_handle_with_semaphore, List.getElem?_set_self hlt] <;>
        exact Or.inr ⟨_, rfl, by intro k; cases k <;> rfl⟩
    | via_barrier =>
      cases hcb : s.mCommandBuffer <;> cases hslot : s.mCommandBufferRefOrLifetimeHandler <;>
        cases ndebug <;>
        simp [submit_and_sync, hs, hty, hcb, hslot, assert_holds, queue_to_use,
          submit_and_sync_epilogue, World.emit, World.store,
          List.getElem?_set_self hlt] <;>
        exact Or.inr ⟨_, rfl, by intro k; cases k <;> rfl⟩
    | via_wait_idle =>
      cases hcb : s.mCommandBuffer <;> cases ndebug <;>
        simp [submit_and_sync, hs, hty, hcb, assert_holds, queue_to_use,
          submit_and_sync_epilogue, World.emit, World.store,
          List.getElem?_set_self hlt] <;>
        exact Or.inr ⟨_, rfl, by intro k; cases k <;> rfl⟩
    | via_wait_idle_deliberately =>
      cases hcb : s.mCommandBuffer <;> cases ndebug <;>
        simp [submit_and_sync, hs, hty, hcb, assert_holds, queue_to_use,
          submit_and_sync_epilogue, World.emit, World.store,
          List.getElem?_set_self hlt] <;>
        exact Or.inr ⟨_, rfl, by intro k; cases k <;> rfl⟩
    | not_required =>
      cases ndebug <;> simp [submit_and_sync, hs, hty, assert_holds]
    | by_return =>
      cases hcb : s.mCommandBuffer with
      | none => simp [submit_and_sync, hs, hty, hcb]
      | some cb =>
        simp [submit_and_sync, hs, hty, hcb, World.emit, World.store]
        exact Or.inr ⟨_, rfl, by intro k; cases k <;> rfl⟩
    | by_existing_command_buffer => simp [submit_and_sync, hs, hty]

/-- The finalizer calls no barrier closure and keeps the number of holders. -/
theorem submit_and_sync_hooks (ndebug : Bool) (w : World) (a : Nat) (k : hook_kind)
    (id : Nat) :
    hook_calls k id (submit_and_sync ndebug w a).1.trace = hook_calls k id w.trace ∧
    (submit_and_sync ndebug w a).1.holders k id = w.holders k id := by
  have hinst := submit_and_sync_callbacks ndebug w a
  constructor
  · exact submit_and_sync_hook_calls ndebug w a k id
  · rcases hinst with h | ⟨s, s2, hs, h, hcb⟩
    · simp only [World.holders, h]
    · have := World.holders_store_same w k id a s s2 hs
        (by simp [old_sync.holds_closure, hcb])
      simp only [World.holders, World.store] at this
      simp only [World.holders, h]
      exact this

/-- One public operation that registers no new copy of the closure `id` in a slot of
kind `k`: the calls of the closure as a callback of that kind plus the number of its
holders do not grow. -/
theorem operation_run_hooks (ndebug : Bool) (w : World) (k : hook_kind) (id : Nat)
    (op : operation) (hop : op.passes_hook k id = true) :
    hook_calls k id (op.run ndebug w).trace + (op.run ndebug w).holders k id ≤
      hook_calls k id w.trace + w.holders k id := by
  have hmod : ∀ (a : Nat) (f : old_sync → old_sync),
      (∀ s, (f s).callback k = s.callback k) →
      hook_calls k id (w.modify a f).trace + (w.modify a f).holders k id ≤
        hook_calls k id w.trace + w.holders k id := by
    intro a f hf
    obtain ⟨h1, h2⟩ := World.modify_hooks w a f k id hf
    rw [h1, h2]
  have hplace : ∀ x : old_sync, x.holds_closure k id = false →
      hook_calls k id (w.place x).1.trace + (w.place x).1.holders k id ≤
        hook_calls k id w.trace + w.holders k id := by
    intro x hx
    rw [World.holders_place, hx]
    simp [World.place]
  cases op with
  | construct s =>
    simp only [operation.passes_hook, Bool.not_eq_true'] at hop
    simp only [operation.run, World.construct]
    split
    · exact hplace s hop
    · exact Nat.le_refl _
  | not_required request =>
    exact hplace _ (by cases k <;> rfl)
  | wait_idle request aDontWarn =>
    exact hplace _ (by cases k <;> cases aDontWarn <;> rfl)
  | auxiliary_with_barriers request m b a =>
    simp only [operation.passes_hook, decide_eq_true_eq] at hop
    obtain ⟨h1, h2⟩ := auxiliary_with_barriers_hooks ndebug request w m b a k id hop
    simp only [operation.run, h1, h2]
    exact Nat.le_refl _
  | move_construct aOther =>
    obtain ⟨h1, h2⟩ := move_construct_hooks w aOther k id
    simp only [operation.run, h1, h2]
    exact Nat.le_refl _
  | move_assign self aOther =>
    obtain ⟨h1, h2⟩ := move_assign_hooks w self aOther k id
    simp only [operation.run, h1]
    omega
  | on_queue a q => exact hmod a _ (fun s => by cases k <;> rfl)
  | create_reusable_commandbuffer a => exact hmod a _ (fun s => by cases k <;> rfl)
  | create_single_use_commandbuffer a => exact hmod a _ (fun s => by cases k <;> rfl)
  | set_queue_hint a q => exact hmod a _ (fun s => by cases k <;> rfl)
  | get_or_create_command_buffer a =>
    obtain ⟨h1, h2⟩ := get_or_create_command_buffer_hooks w a k id
    simp only [operation.run, h1, h2]
    exact Nat.le_refl _
  | establish_barrier_before_the_operation a stage access =>
    exact establish_barrier_hook_calls k .before id w a stage access
  | establish_barrier_after_the_operation a stage access =>
    exact establish_barrier_hook_calls k .after id w a stage access
  | submit_and_sync a =>
    obtain ⟨h1, h2⟩ := submit_and_sync_hooks ndebug w a k id
    simp only [operation.run, h1, h2]
    exact Nat.le_refl _

/-- A sequence of public operations none of which registers a new copy of the closure
`id` in a slot of kind `k`: the calls of the closure as a callback of that kind plus the
number of its holders do not grow. -/
theorem run_operations_hooks (ndebug : Bool) (k : hook_kind) (id : Nat)
    (ops : List operation) :
    ∀ w : World, (∀ op ∈ ops, op.passes_hook k id = true) →
      hook_calls k id (run_operations ndebug w ops).trace +
          (run_operations ndebug w ops).holders k id ≤
        hook_calls k id w.trace + w.holders k id := by
  induction ops with
  | nil => intro w _; exact Nat.le_refl _
  | cons op ops ih =>
    intro w h
    have h1 := operation_run_hooks ndebug w k id op (h op (List.mem_cons_self _ _))
    have h2 := ih (op.run ndebug w) (fun o ho => h o (List.mem_cons_of_mem _ ho))
    simp only [run_operations, List.foldl_cons] at h2 ⊢
    omega

/-- The moves call no collaborator: the trace is left as it is. -/
theorem move_trace (w : World) (self aOther : Nat) :
    (move_construct w aOther).1.trace = w.trace ∧
    (move_assign w self aOther).trace = w.trace := by
  cases hs : w.instances[aOther]? <;>
    simp [move_construct, move_assign, hs, World.place, World.store]

/-- The room for a pool allocation is at most one. -/
theorem World.room_le_one (w : World) (a : Nat) : w.room a ≤ 1 := by
  unfold World.room; split <;> omega

/-- Auxiliary composition with the object at address `a` as master: the number of pool
allocations plus the room left at `a` does not grow. -/
theorem auxiliary_with_barriers_room (ndebug : Bool) (request : commandbuffer_request)
    (w : World) (a : Nat) (before after : hook_argument) :
    alloc_count (auxiliary_with_barriers ndebug request w a before after).1.trace +
        (auxiliary_with_barriers ndebug request w a before after).1.room a ≤
      alloc_count w.trace + w.room a := by
  cases hM : w.instances[a]? with
  | none =>
    have hroom : w.room a = 1 := by simp [World.room, World.owned, hM]
    have hle := World.room_le_one
      (auxiliary_with_barriers ndebug request w a before after).1 a
    have htr : (auxiliary_with_barriers ndebug request w a before after).1.trace =
        w.trace := by
      unfold auxiliary_with_barriers
      simp only [steal_handler_absent _ _ _ _ _ _ hM, get_or_create_command_buffer, hM]
      split
      · rfl
      · split <;> rfl
    rw [htr, hroom]
    omega
  | some M =>
    obtain ⟨htr, -, -, -⟩ := auxiliary_with_barriers_frame ndebug request w a before after
      M hM
    obtain ⟨owned, hg, -, -⟩ := get_or_create_command_buffer_object w a M hM
    obtain ⟨hpair, -⟩ := auxiliary_with_barriers_pair ndebug request w a before after M _
      hM hg
    have hroom : (auxiliary_with_barriers ndebug request w a before after).1.room a =
        (get_or_create_command_buffer w a).1.room a := by
      simp [World.room, World.owned, hpair, hg]
    rw [htr, hroom]
    exact get_or_create_command_buffer_room w a

/-- One operation applied to the object at address `a`: the number of pool allocations
plus the room left grows by at most one, and only if the operation is `submit_and_sync`
or a move. -/
theorem operation_run_room (ndebug : Bool) (w : World) (a : Nat) (op : operation)
    (hop : op.applies_to a = true) :
    alloc_count (op.run ndebug w).trace + (op.run ndebug w).room a ≤
      alloc_count w.trace + w.room a +
        (if op.is_submit_and_sync then 1 else 0) + (if op.is_move then 1 else 0) := by
  have hest : ∀ k stage access,
      alloc_count (establish_barrier k w a stage access).trace +
          (establish_barrier k w a stage access).room a ≤
        alloc_count w.trace + w.room a := by
    intro k stage access
    rcases establish_barrier_frame k w a stage access with h | ⟨h1, h2⟩
    · rw [h]
    · have := get_or_create_command_buffer_room w a
      simp only [World.room, h1, h2] at this ⊢
      exact this
  have hmod : ∀ f : old_sync → old_sync, (∀ s, (f s).mCommandBuffer = s.mCommandBuffer) →
      alloc_count (w.modify a f).trace + (w.modify a f).room a ≤
        alloc_count w.trace + w.room a := by
    intro f hf
    obtain ⟨h1, h2⟩ := World.modify_frame w a a f hf
    simp only [World.room, h1, h2]
    exact Nat.le_refl _
  cases op <;> simp only [operation.applies_to, decide_eq_true_eq, Bool.false_eq_true,
    Bool.or_eq_true] at hop
  case auxiliary_with_barriers request m before after =>
    subst hop
    simpa [operation.is_submit_and_sync, operation.is_move, operation.run] using
      auxiliary_with_barriers_room ndebug request w m before after
  case move_construct aOther =>
    have hle := World.room_le_one (move_construct w aOther).1 a
    simp only [operation.run, operation.is_submit_and_sync, operation.is_move,
      (move_trace w 0 aOther).1, if_true, Bool.false_eq_true, if_false]
    omega
  case move_assign self aOther =>
    have hle := World.room_le_one (move_assign w self aOther) a
    simp only [operation.run, operation.is_submit_and_sync, operation.is_move,
      (move_trace w self aOther).2, if_true, Bool.false_eq_true, if_false]
    omega
  case on_queue b q =>
    subst hop
    simp only [operation.run, avk.on_queue, operation.is_submit_and_sync,
      operation.is_move, Bool.false_eq_true, if_false, Nat.add_zero]
    exact hmod _ (fun _ => rfl)
  case create_reusable_commandbuffer b =>
    subst hop
    simp only [operation.run, avk.create_reusable_commandbuffer,
      operation.is_submit_and_sync, operation.is_move, Bool.false_eq_true, if_false,
      Nat.add_zero]
    exact hmod _ (fun _ => rfl)
  case create_single_use_commandbuffer b =>
    subst hop
    simp only [operation.run, avk.create_single_use_commandbuffer,
      operation.is_submit_and_sync, operation.is_move, Bool.false_eq_true, if_false,
      Nat.add_zero]
    exact hmod _ (fun _ => rfl)
  case set_queue_hint b q =>
    subst hop
    simp only [operation.run, avk.set_queue_hint, operation.is_submit_and_sync,
      operation.is_move, Bool.false_eq_true, if_false, Nat.add_zero]
    exact hmod _ (fun _ => rfl)
  case get_or_create_command_buffer b =>
    subst hop
    simpa [operation.is_submit_and_sync, operation.is_move, operation.run] using
      get_or_create_command_buffer_room w b
  case establish_barrier_before_the_operation b stage access =>
    subst hop
    simpa [operation.is_submit_and_sync, operation.is_move, operation.run,
      establish_barrier_before_the_operation] using hest .before stage access
  case establish_barrier_after_the_operation b stage access =>
    subst hop
    simpa [operation.is_submit_and_sync, operation.is_move, operation.run,
      establish_barrier_after_the_operation] using hest .after stage access
  case submit_and_sync b =>
    subst hop
    obtain ⟨⟨evs, htr, hev⟩, -, -⟩ := submit_and_sync_effect ndebug w b
    have hcount : alloc_count (submit_and_sync ndebug w b).1.trace = alloc_count w.trace := by
      rw [htr, alloc_count, List.countP_append, alloc_count]
      have : List.countP Event.is_alloc evs = 0 := by
        rw [List.countP_eq_zero]
        intro e he
        simp [(hev e he).1]
      omega
    have hroom := World.room_le_one (submit_and_sync ndebug w b).1 b
    simp only [operation.run, operation.is_submit_and_sync, operation.is_move, if_true,
      Bool.false_eq_true, if_false, hcount]
    omega

/-- A sequence of operations applied to the object at address `a`: the number of pool
allocations plus the room left grows by at most the number of `submit_and_sync` calls
and moves. -/
theorem run_operations_room (ndebug : Bool) (a : Nat) (ops : List operation) :
    ∀ w : World, (∀ op ∈ ops, op.applies_to a = true) →
      alloc_count (run_operations ndebug w ops).trace +
          (run_operations ndebug w ops).room a ≤
        alloc_count w.trace + w.room a + ops.countP operation.is_submit_and_sync +
          ops.countP operation.is_move := by
  induction ops with
  | nil => intro w _; simp [run_operations]
  | cons op ops ih =>
    intro w hops
    have h1 := operation_run_room ndebug w a op (hops op (List.mem_cons_self _ _))
    have h2 := ih (op.run ndebug w) (fun o ho => hops o (List.mem_cons_of_mem _ ho))
    simp only [run_operations, List.foldl_cons, List.countP_cons] at h2 ⊢
    omega

/-- An operation applied to an object whose slot holds an external reference makes no
pool allocation. -/
theorem operation_run_reference (ndebug : Bool) (w : World) (a : Nat) (op : operation)
    (s : old_sync) (cb : Nat) (hop : op.applies_to a = true)
    (hs : w.instances[a]? = some s)
    (hslot : s.mCommandBufferRefOrLifetimeHandler = .reference cb) :
    alloc_count (op.run ndebug w).trace = alloc_count w.trace := by
  have hgoc := get_or_create_command_buffer_of_reference w a s cb hs hslot
  have hest : ∀ k stage access,
      alloc_count (establish_barrier k w a stage access).trace = alloc_count w.trace := by
    intro k stage access
    rcases establish_barrier_frame k w a stage access with h | ⟨h1, -⟩
    · rw [h]
    · rw [h1, hgoc]
  cases op <;> simp only [operation.applies_to, decide_eq_true_eq, Bool.false_eq_true,
    Bool.or_eq_true] at hop
  case auxiliary_with_barriers request m before after =>
    subst hop
    obtain ⟨htr, -, -, -⟩ := auxiliary_with_barriers_frame ndebug request w m before after
      s hs
    simp only [operation.run, htr, hgoc]
  case move_construct aOther =>
    simp only [operation.run, (move_trace w 0 aOther).1]
  case move_assign self aOther =>
    simp only [operation.run, (move_trace w self aOther).2]
  case on_queue b q => subst hop; simp [operation.run, avk.on_queue, World.modify, hs, World.store]
  case create_reusable_commandbuffer b =>
    subst hop
    simp [operation.run, avk.create_reusable_commandbuffer, World.modify, hs, World.store]
  case create_single_use_commandbuffer b =>
    subst hop
    simp [operation.run, avk.create_single_use_commandbuffer, World.modify, hs, World.store]
  case set_queue_hint b q =>
    subst hop; simp [operation.run, avk.set_queue_hint, World.modify, hs, World.store]
  case get_or_create_command_buffer b => subst hop; simp [operation.run, hgoc]
  case establish_barrier_before_the_operation b stage access =>
    subst hop; exact hest .before stage access
  case establish_barrier_after_the_operation b stage access =>
    subst hop; exact hest .after stage access
  case submit_and_sync b =>
    subst hop
    obtain ⟨⟨evs, htr, hev⟩, -, -⟩ := submit_and_sync_effect ndebug w b
    simp only [operation.run]
    rw [htr, alloc_count, List.countP_append, alloc_count]
    have : List.countP Event.is_alloc evs = 0 := by
      rw [List.countP_eq_zero]
      intro e he
      simp [(hev e he).1]
    omega

/-! ## Strategy classification -/

/-- C1: `get_sync_type` follows the priority order: a present semaphore sink gives
`via_semaphore` (whatever the slot and the override are); otherwise a command-buffer slot
holding a reference or a lifetime closure gives `via_barrier`; otherwise the override if
one is set; otherwise `via_wait_idle`. -/
theorem get_sync_type_priority (s : old_sync) :
    (∀ sink, s.mSemaphoreLifetimeHandler = some sink →
        s.get_sync_type = .via_semaphore) ∧
    (s.mSemaphoreLifetimeHandler = none →
      (∀ cb, s.mCommandBufferRefOrLifetimeHandler = .reference cb →
        s.get_sync_type = .via_barrier) ∧
      (∀ f, s.mCommandBufferRefOrLifetimeHandler = .lifetime_handler f →
        s.get_sync_type = .via_barrier) ∧
      (s.mCommandBufferRefOrLifetimeHandler = .monostate →
        (∀ t, s.mSpecialSync = some t → s.get_sync_type = t) ∧
        (s.mSpecialSync = none → s.get_sync_type = .via_wait_idle))) := by
  refine ⟨?_, ?_⟩
  · intro sink h
    simp [old_sync.get_sync_type, h]
  · intro h
    refine ⟨?_, ?_, ?_⟩
    · intro cb hc
      simp [old_sync.get_sync_type, h, hc]
    · intro f hc
      simp [old_sync.get_sync_type, h, hc]
    · intro hc
      refine ⟨?_, ?_⟩
      · intro t ht
        simp [old_sync.get_sync_type, h, hc, ht]
      · intro ht
        simp [old_sync.get_sync_type, h, hc, ht]

/-- Witness of C1 on concrete objects, one for each rung of the priority order. -/
theorem get_sync_type_priority_witness :
    example_sink_and_reference.get_sync_type = .via_semaphore ∧
    example_auxiliary.get_sync_type = .via_barrier ∧
    example_lifetime_handler.get_sync_type = .via_barrier ∧
    example_by_return.get_sync_type = .by_return ∧
    (old_sync.default_constructed .reusable).get_sync_type = .via_wait_idle :=
  ⟨(get_sync_type_priority example_sink_and_reference).1 7 rfl,
   ((get_sync_type_priority example_auxiliary).2 rfl).1 3 rfl,
   ((get_sync_type_priority example_lifetime_handler).2 rfl).2.1 9 rfl,
   (((get_sync_type_priority example_by_return).2 rfl).2.2 rfl).1 .by_return rfl,
   (((get_sync_type_priority (old_sync.default_constructed .reusable)).2 rfl).2.2
      rfl).2 rfl⟩

/-- C2: `get_sync_type` is a function of the presence of the semaphore sink, of the
alternative the command-buffer slot holds and of the override: two objects that agree on
these are classified alike, whatever their other members are. (The member is `const`:
the embedding returns the classification only, so a repeated call sees the same object
and gives the same answer.) -/
theorem get_sync_type_depends_only_on (s1 s2 : old_sync)
    (hsink : s1.mSemaphoreLifetimeHandler.isSome = s2.mSemaphoreLifetimeHandler.isSome)
    (hmono : s1.mCommandBufferRefOrLifetimeHandler.holds_monostate =
      s2.mCommandBufferRefOrLifetimeHandler.holds_monostate)
    (href : s1.mCommandBufferRefOrLifetimeHandler.holds_reference =
      s2.mCommandBufferRefOrLifetimeHandler.holds_reference)
    (_hlife : s1.mCommandBufferRefOrLifetimeHandler.holds_lifetime_handler =
      s2.mCommandBufferRefOrLifetimeHandler.holds_lifetime_handler)
    (hover : s1.mSpecialSync = s2.mSpecialSync) :
    s1.get_sync_type = s2.get_sync_type := by
  unfold old_sync.get_sync_type
  rw [hsink, hover]
  cases h1 : s1.mCommandBufferRefOrLifetimeHandler <;>
    cases h2 : s2.mCommandBufferRefOrLifetimeHandler <;>
    simp_all [commandbuffer_slot.holds_monostate, commandbuffer_slot.holds_reference,
      commandbuffer_slot.holds_lifetime_handler]

/-- Witness of C2: two objects that differ in the owned command buffer, the hooks, the
wait-semaphores, the request and the queue members, and in the payload of the slot. -/
theorem get_sync_type_depends_only_on_witness :
    example_auxiliary.get_sync_type =
      ({ example_auxiliary with
          mCommandbufferRequest := .reusable
          mWaitBeforeSemaphores := [1, 2]
          mCommandBufferRefOrLifetimeHandler := .reference 8
          mCommandBuffer := some 4
          mEstablishBarrierBeforeOperationCallback := some (.closure 1)
          mEstablishBarrierAfterOperationCallback := some (.steal_on_demand 0)
          mQueueToUse := some 6
          mQueueRecommendation := some 2 } : old_sync).get_sync_type :=
  get_sync_type_depends_only_on _ _ rfl rfl rfl rfl rfl

/-! ## The finalizer `submit_and_sync` -/

/-- C3: with a semaphore sink registered and an owned command buffer provisioned,
`submit_and_sync` records on the owned buffer a global memory barrier all_commands to
all_commands with any_access to any_access, ends recording, submits the buffer once
together with all wait-semaphores, obtaining a semaphore, and calls the sink once with
that semaphore, in this order; afterwards the owned command buffer and the wait-semaphore
list are empty, every other member is as before, and nothing is returned. -/
theorem submit_and_sync_via_semaphore (ndebug : Bool) (w : World) (a : Nat) (s : old_sync)
    (sink cb : Nat) (hs : w.instances[a]? = some s)
    (hsink : s.mSemaphoreLifetimeHandler = some sink)
    (hcb : s.mCommandBuffer = some cb) :
    s.get_sync_type = .via_semaphore ∧
    (submit_and_sync ndebug w a).1.trace = w.trace ++
      [.establish_global_memory_barrier cb .all_commands .all_commands
          (some .any_access) (some .any_access),
       .end_recording cb,
       .submit_and_handle_with_semaphore w.sQueueToUse cb s.mWaitBeforeSemaphores
          w.next_handle,
       .semaphore_handler_called sink w.next_handle] ∧
    (submit_and_sync ndebug w a).2 = .returned none ∧
    (submit_and_sync ndebug w a).1.instances =
      w.instances.set a { s with mCommandBuffer := none, mWaitBeforeSemaphores := [] } := by
  have hty : s.get_sync_type = .via_semaphore := by
    simp [old_sync.get_sync_type, hsink]
  have hlt := lt_length_of_getElem? hs
  refine ⟨hty, ?_⟩
  simp [submit_and_sync, hs, hty, hsink, hcb, assert_holds, queue_to_use,
    submit_and_sync_epilogue, World.emit, World.store,
    World.submit_and_handle_with_semaphore, List.getElem?_set_self hlt]

/-- Witness of C3 on `example_semaphore_world`. -/
theorem submit_and_sync_via_semaphore_witness :
    example_sink_and_reference.mSemaphoreLifetimeHandler = some 7 ∧
    (submit_and_sync false example_semaphore_world 0).1.trace =
      [.establish_global_memory_barrier 11 .all_commands .all_commands
          (some .any_access) (some .any_access),
       .end_recording 11,
       .submit_and_handle_with_semaphore 5 11 [1, 2] 100,
       .semaphore_handler_called 7 100] ∧
    (submit_and_sync false example_semaphore_world 0).2 = .returned none :=
  ⟨rfl,
   (submit_and_sync_via_semaphore false example_semaphore_world 0 _ 7 11 rfl rfl rfl).2.1,
   (submit_and_sync_via_semaphore false example_semaphore_world 0 _ 7 11 rfl rfl
      rfl).2.2.1⟩

/-- C4: `wait_idle(true)` is classified `via_wait_idle_deliberately` and `wait_idle(false)`
`via_wait_idle`. For an object classified either way with an owned command buffer
provisioned, `submit_and_sync` ends recording, submits the owned buffer once with no
semaphore and waits until the queue is idle, in this order; afterwards the owned command
buffer is empty, nothing is returned, and no warning has been logged. -/
theorem wait_idle_submit_and_sync (ndebug : Bool) (request : commandbuffer_request)
    (w : World) (a : Nat) (s : old_sync) (cb : Nat)
    (hs : w.instances[a]? = some s)
    (hty : s.get_sync_type = .via_wait_idle_deliberately ∨
      s.get_sync_type = .via_wait_idle)
    (hcb : s.mCommandBuffer = some cb) :
    (old_sync.wait_idle request true).get_sync_type = .via_wait_idle_deliberately ∧
    (old_sync.wait_idle request false).get_sync_type = .via_wait_idle ∧
    (submit_and_sync ndebug w a).1.trace = w.trace ++
      [.end_recording cb, .submit w.sQueueToUse cb none, .wait_idle w.sQueueToUse] ∧
    (submit_and_sync ndebug w a).2 = .returned none ∧
    (submit_and_sync ndebug w a).1.instances =
      w.instances.set a { s with mCommandBuffer := none } ∧
    (submit_and_sync ndebug w a).1.trace.count .log_warning =
      w.trace.count .log_warning := by
  have hlt := lt_length_of_getElem? hs
  refine ⟨by simp [old_sync.wait_idle, old_sync.default_constructed,
    old_sync.get_sync_type], by simp [old_sync.wait_idle, old_sync.default_constructed,
    old_sync.get_sync_type], ?_⟩
  rcases hty with hty | hty <;>
    simp [submit_and_sync, hs, hty, hcb, assert_holds, queue_to_use,
      submit_and_sync_epilogue, World.emit, World.store, List.getElem?_set_self hlt]

/-- Witness of C4 on `example_wait_idle_world`. -/
theorem wait_idle_submit_and_sync_witness :
    (submit_and_sync false example_wait_idle_world 0).1.trace =
      [.end_recording 11, .submit 5 11 none, .wait_idle 5] ∧
    (submit_and_sync false example_wait_idle_world 0).2 = .returned none :=
  ⟨(wait_idle_submit_and_sync false .reusable example_wait_idle_world 0 _ 11 rfl
      (Or.inl rfl) rfl).2.2.1,
   (wait_idle_submit_and_sync false .reusable example_wait_idle_world 0 _ 11 rfl
      (Or.inl rfl) rfl).2.2.2.1⟩

/-- C5: `not_required()` is classified `not_required`, and `submit_and_sync` on an object
classified `not_required` stops with a fatal error (the failed `assert(false)`, or the
`avk::runtime_error` when assertions are compiled out): it returns no value and makes no
call at all, so it neither ends recording nor submits. -/
theorem not_required_submit_and_sync_fails (ndebug : Bool)
    (request : commandbuffer_request) (w : World) (a : Nat) (s : old_sync)
    (hs : w.instances[a]? = some s) (hty : s.get_sync_type = .not_required) :
    (old_sync.not_required request).get_sync_type = .not_required ∧
    (submit_and_sync ndebug w a).1 = w ∧
    (submit_and_sync ndebug w a).2 = .failed
      (if ndebug then .runtime_error_no_sync_required else .assertion_failed) ∧
    (∀ v, (submit_and_sync ndebug w a).2 ≠ .returned v) := by
  refine ⟨by simp [old_sync.not_required, old_sync.default_constructed,
    old_sync.get_sync_type], ?_⟩
  cases ndebug <;> simp [submit_and_sync, hs, hty, assert_holds]

/-- Witness of C5 on the object `not_required()` builds. -/
theorem not_required_submit_and_sync_fails_witness :
    submit_and_sync true (example_world (old_sync.not_required .single_use)) 0 =
      (example_world (old_sync.not_required .single_use),
       .failed .runtime_error_no_sync_required) :=
  Prod.ext
    (not_required_submit_and_sync_fails true .single_use
      (example_world (old_sync.not_required .single_use)) 0 _ rfl rfl).2.1
    (not_required_submit_and_sync_fails true .single_use
      (example_world (old_sync.not_required .single_use)) 0 _ rfl rfl).2.2.1

/-- C6: on an object classified `by_return`, `submit_and_sync` fails exactly when no
owned command buffer is held; when one is held it ends recording, submits nothing,
returns that command buffer and leaves the owned command buffer empty. -/
theorem by_return_submit_and_sync (ndebug : Bool) (w : World) (a : Nat) (s : old_sync)
    (hs : w.instances[a]? = some s) (hty : s.get_sync_type = .by_return) :
    ((∃ e, (submit_and_sync ndebug w a).2 = .failed e) ↔ s.mCommandBuffer = none) ∧
    (∀ cb, s.mCommandBuffer = some cb →
      (submit_and_sync ndebug w a).1.trace = w.trace ++ [.end_recording cb] ∧
      (submit_and_sync ndebug w a).2 = .returned (some cb) ∧
      (submit_and_sync ndebug w a).1.instances =
        w.instances.set a { s with mCommandBuffer := none }) := by
  cases hcb : s.mCommandBuffer with
  | none => simp [submit_and_sync, hs, hty, hcb]
  | some cb => simp [submit_and_sync, hs, hty, hcb, World.emit, World.store]

/-- Witness of C6 on `example_by_return_world`. -/
theorem by_return_submit_and_sync_witness :
    (submit_and_sync false example_by_return_world 0).1.trace = [.end_recording 11] ∧
    (submit_and_sync false example_by_return_world 0).2 = .returned (some 11) :=
  ⟨((by_return_submit_and_sync false example_by_return_world 0 _ rfl rfl).2 11 rfl).1,
   ((by_return_submit_and_sync false example_by_return_world 0 _ rfl rfl).2 11 rfl).2.1⟩

/-- C7: an object with no semaphore sink whose command-buffer slot holds an external
reference is classified `via_barrier`, and `submit_and_sync` on it, its owned command
buffer being empty (or assertions being compiled out), returns nothing and leaves the
whole world unchanged: no call is recorded and no member of any object changes. -/
theorem auxiliary_submit_and_sync_noop (ndebug : Bool) (w : World) (a : Nat)
    (s : old_sync) (cb : Nat) (hs : w.instances[a]? = some s)
    (hsink : s.mSemaphoreLifetimeHandler = none)
    (hslot : s.mCommandBufferRefOrLifetimeHandler = .reference cb)
    (hown : s.mCommandBuffer = none ∨ ndebug = true) :
    s.get_sync_type = .via_barrier ∧
    submit_and_sync ndebug w a = (w, .returned none) := by
  have hty : s.get_sync_type = .via_barrier := by
    simp [old_sync.get_sync_type, hsink, hslot]
  refine ⟨hty, ?_⟩
  rcases hown with hown | hown <;>
    simp [submit_and_sync, hs, hty, hslot, hown, assert_holds, submit_and_sync_epilogue]

/-- Witness of C7 on `example_auxiliary`. -/
theorem auxiliary_submit_and_sync_noop_witness :
    example_auxiliary.get_sync_type = .via_barrier ∧
    submit_and_sync false (example_world example_auxiliary) 0 =
      (example_world example_auxiliary, .returned none) :=
  auxiliary_submit_and_sync_noop false (example_world example_auxiliary) 0 _ 3 rfl rfl
    rfl (Or.inl rfl)

/-! ## The barrier hooks -/

/-- C8: with a before-hook (respectively after-hook) registered, two calls in a row of
`establish_barrier_before_the_operation` (respectively `..._after_the_operation`), with
any stage and access arguments, invoke the hook once: after the first call the slot is
empty, the second call returns the world unchanged (nothing invoked, nothing recorded, no
member changed), and the trace after both calls is that of one invocation of the hook on
the provisioned command buffer with the arguments of the first call; for a
caller-supplied closure this is one recorded call. -/
theorem establish_barrier_hooks_fire_once (w : World) (a : Nat) (s : old_sync)
    (stage stage2 : pipeline_stage) (access access2 : Option memory_access)
    (hs : w.instances[a]? = some s) :
    (∀ h, s.mEstablishBarrierBeforeOperationCallback = some h →
      (∃ s1, (establish_barrier_before_the_operation w a stage access).instances[a]? =
          some s1 ∧ s1.mEstablishBarrierBeforeOperationCallback = none) ∧
      establish_barrier_before_the_operation
          (establish_barrier_before_the_operation w a stage access) a stage2 access2 =
        establish_barrier_before_the_operation w a stage access ∧
      (establish_barrier_before_the_operation
          (establish_barrier_before_the_operation w a stage access) a stage2
          access2).trace =
        (call_handler .before ((get_or_create_command_buffer w a).1.chain_bound .before)
          (get_or_create_command_buffer w a).1 h (get_or_create_command_buffer w a).2
          stage access).trace ∧
      (∀ id, h = .closure id →
        (establish_barrier_before_the_operation
            (establish_barrier_before_the_operation w a stage access) a stage2
            access2).trace =
          (get_or_create_command_buffer w a).1.trace ++
            [.barrier_handler_called .before id (get_or_create_command_buffer w a).2
              stage access])) ∧
    (∀ h, s.mEstablishBarrierAfterOperationCallback = some h →
      (∃ s1, (establish_barrier_after_the_operation w a stage access).instances[a]? =
          some s1 ∧ s1.mEstablishBarrierAfterOperationCallback = none) ∧
      establish_barrier_after_the_operation
          (establish_barrier_after_the_operation w a stage access) a stage2 access2 =
        establish_barrier_after_the_operation w a stage access ∧
      (establish_barrier_after_the_operation
          (establish_barrier_after_the_operation w a stage access) a stage2
          access2).trace =
        (call_handler .after ((get_or_create_command_buffer w a).1.chain_bound .after)
          (get_or_create_command_buffer w a).1 h (get_or_create_command_buffer w a).2
          stage access).trace ∧
      (∀ id, h = .closure id →
        (establish_barrier_after_the_operation
            (establish_barrier_after_the_operation w a stage access) a stage2
            access2).trace =
          (get_or_create_command_buffer w a).1.trace ++
            [.barrier_handler_called .after id (get_or_create_command_buffer w a).2
              stage access])) := by
  refine ⟨?_, ?_⟩
  · intro h hk
    have key := establish_barrier_once .before w a s h stage stage2 access access2 hs hk
    refine ⟨key.1, key.2.1, key.2.2, ?_⟩
    intro id hid
    subst hid
    have := key.2.2
    simp only [call_handler, World.emit] at this
    exact this
  · intro h hk
    have key := establish_barrier_once .after w a s h stage stage2 access access2 hs hk
    refine ⟨key.1, key.2.1, key.2.2, ?_⟩
    intro id hid
    subst hid
    have := key.2.2
    simp only [call_handler, World.emit] at this
    exact this

/-- Witness of C8 on `example_hooks_world`: the before-hook of the object at address 0 is
a closure, its after-hook steals the master's closure 6 on demand. -/
theorem establish_barrier_hooks_fire_once_witness :
    example_hooked.mEstablishBarrierBeforeOperationCallback = some (.closure 4) ∧
    (establish_barrier_before_the_operation
        (establish_barrier_before_the_operation example_hooks_world 0 .transfer none) 0
        .all_commands (some .any_access)).trace =
      [.barrier_handler_called .before 4 3 .transfer none] ∧
    example_hooked.mEstablishBarrierAfterOperationCallback =
      some (.steal_on_demand 1) ∧
    establish_barrier_after_the_operation
        (establish_barrier_after_the_operation example_hooks_world 0 .transfer none) 0
        .all_commands (some .any_access) =
      establish_barrier_after_the_operation example_hooks_world 0 .transfer none :=
  ⟨rfl,
   ((establish_barrier_hooks_fire_once example_hooks_world 0 example_hooked .transfer
      .all_commands none (some .any_access) rfl).1 (.closure 4) rfl).2.2.2 4 rfl,
   rfl,
   ((establish_barrier_hooks_fire_once example_hooks_world 0 example_hooked .transfer
      .all_commands none (some .any_access) rfl).2 (.steal_on_demand 1) rfl).2.1⟩

/-! ## Command buffer provisioning -/

/-- C9: when the command-buffer slot holds no external reference, two calls in a row of
`get_or_create_command_buffer` return the same handle and the second changes nothing; if
no buffer was owned, the first call makes one pool allocation (with the flags the request
selects) followed by one `begin_recording` on the fresh buffer and stores it; if one was
owned, neither call allocates, records or changes anything. -/
theorem get_or_create_command_buffer_twice (w : World) (a : Nat) (s : old_sync)
    (hs : w.instances[a]? = some s)
    (hnoref : ∀ cb, s.mCommandBufferRefOrLifetimeHandler ≠ .reference cb) :
    (get_or_create_command_buffer (get_or_create_command_buffer w a).1 a).2 =
      (get_or_create_command_buffer w a).2 ∧
    (get_or_create_command_buffer (get_or_create_command_buffer w a).1 a).1 =
      (get_or_create_command_buffer w a).1 ∧
    (s.mCommandBuffer = none →
      (get_or_create_command_buffer w a).2 = w.next_handle ∧
      (get_or_create_command_buffer w a).1.trace = w.trace ++
        [.alloc_command_buffer
            (match s.mCommandbufferRequest with
              | .reusable => .none_set
              | .single_use => .one_time_submit) w.next_handle,
         .begin_recording w.next_handle] ∧
      (get_or_create_command_buffer w a).1.instances =
        w.instances.set a { s with mCommandBuffer := some w.next_handle }) ∧
    (∀ cb, s.mCommandBuffer = some cb →
      get_or_create_command_buffer w a = (w, cb)) := by
  have hlt := lt_length_of_getElem? hs
  cases hslot : s.mCommandBufferRefOrLifetimeHandler with
  | reference cb => exact absurd hslot (hnoref cb)
  | monostate =>
    cases hcb : s.mCommandBuffer with
    | some cb => simp [get_or_create_command_buffer, hs, hslot, hcb]
    | none =>
      cases hreq : s.mCommandbufferRequest <;>
        simp [get_or_create_command_buffer, hs, hslot, hcb, hreq, World.emit, World.store,
          World.alloc_command_buffer, List.getElem?_set_self hlt]
  | lifetime_handler f =>
    cases hcb : s.mCommandBuffer with
    | some cb => simp [get_or_create_command_buffer, hs, hslot, hcb]
    | none =>
      cases hreq : s.mCommandbufferRequest <;>
        simp [get_or_create_command_buffer, hs, hslot, hcb, hreq, World.emit, World.store,
          World.alloc_command_buffer, List.getElem?_set_self hlt]

/-- Witness of C9 on an object that owns no command buffer yet. -/
theorem get_or_create_command_buffer_twice_witness :
    (get_or_create_command_buffer
        (get_or_create_command_buffer (example_world example_by_return) 0).1 0).2 = 100 ∧
    (get_or_create_command_buffer
        (get_or_create_command_buffer (example_world example_by_return) 0).1 0).1.trace =
      [.alloc_command_buffer .none_set 100, .begin_recording 100] := by
  have key := get_or_create_command_buffer_twice (example_world example_by_return) 0
    example_by_return rfl
    (by intro cb; simp [example_by_return, old_sync.default_constructed])
  exact ⟨key.1.trans (key.2.2.1 rfl).1, (congrArg World.trace key.2.1).trans
    (key.2.2.1 rfl).2.1⟩

/-- C10: when the command-buffer slot holds an external reference,
`get_or_create_command_buffer` returns the referenced buffer and leaves the whole world
unchanged: no pool allocation, no `begin_recording`, and every member of the object
(the owned command buffer included) is as before. -/
theorem get_or_create_command_buffer_reference (w : World) (a : Nat) (s : old_sync)
    (cb : Nat) (hs : w.instances[a]? = some s)
    (hslot : s.mCommandBufferRefOrLifetimeHandler = .reference cb) :
    get_or_create_command_buffer w a = (w, cb) := by
  simp [get_or_create_command_buffer, hs, hslot]

/-- Witness of C10 on `example_auxiliary`, whose slot refers to command buffer 3. -/
theorem get_or_create_command_buffer_reference_witness :
    get_or_create_command_buffer (example_world example_auxiliary) 0 =
      (example_world example_auxiliary, 3) :=
  get_or_create_command_buffer_reference (example_world example_auxiliary) 0 _ 3 rfl rfl

/-! ## Moves -/

/-- C11: after the move constructor and after the move assignment, the destination holds
every member of the source as it was before the move (strategy override, request, sink,
wait-semaphores, slot, owned command buffer, both hooks, both queue members), and the
source is classified `not_required`, has both hook slots empty, owns no command buffer,
has no sink, an empty slot and an empty wait-semaphore list. For the move assignment the
destination is an object other than the source. -/
theorem move_transfers_and_resets (w : World) (self aOther : Nat) (other : old_sync)
    (hs : w.instances[aOther]? = some other) :
    ((move_construct w aOther).1.instances[(move_construct w aOther).2]? = some other ∧
      (move_construct w aOther).1.instances[aOther]? = some other.moved_from) ∧
    ((self ≠ aOther → self < w.instances.length →
        (move_assign w self aOther).instances[self]? = some other) ∧
      (move_assign w self aOther).instances[aOther]? = some other.moved_from) ∧
    (other.moved_from.get_sync_type = .not_required ∧
      other.moved_from.mEstablishBarrierBeforeOperationCallback = none ∧
      other.moved_from.mEstablishBarrierAfterOperationCallback = none ∧
      other.moved_from.mCommandBuffer = none ∧
      other.moved_from.mSemaphoreLifetimeHandler = none ∧
      other.moved_from.mCommandBufferRefOrLifetimeHandler = .monostate ∧
      other.moved_from.mWaitBeforeSemaphores = []) := by
  have hlt := lt_length_of_getElem? hs
  refine ⟨⟨?_, ?_⟩, ⟨?_, ?_⟩, ?_⟩
  · simp [move_construct, hs, World.place, World.store, moved_into_eq,
      List.getElem?_set_ne (Nat.ne_of_lt hlt)]
  · have h1 : aOther < (w.instances ++ [other.moved_into]).length := by
      rw [List.length_append]; omega
    simp [move_construct, hs, World.place, World.store, List.getElem?_set_self h1]
  · intro hne hlt2
    simp [move_assign, hs, World.store, moved_into_eq,
      List.getElem?_set_ne (Ne.symm hne), List.getElem?_set_self hlt2]
  · have h1 : aOther < (w.instances.set self other.moved_into).length := by
      rw [List.length_set]; exact hlt
    simp [move_assign, hs, World.store, List.getElem?_set_self h1]
  · simp [old_sync.moved_from, old_sync.get_sync_type]

/-- Witness of C11 on `example_hooks_world`: the object at address 0 is moved into a new
object, and into the object at address 1. -/
theorem move_transfers_and_resets_witness :
    (move_construct example_hooks_world 0).1.instances[2]? = some example_hooked ∧
    (move_assign example_hooks_world 1 0).instances[1]? = some example_hooked ∧
    (move_assign example_hooks_world 1 0).instances[0]? =
      some example_hooked.moved_from ∧
    example_hooked.moved_from.get_sync_type = .not_required :=
  ⟨(move_transfers_and_resets example_hooks_world 1 0 example_hooked rfl).1.1,
   (move_transfers_and_resets example_hooks_world 1 0 example_hooked rfl).2.1.1
     (by decide) (by decide),
   (move_transfers_and_resets example_hooks_world 1 0 example_hooked rfl).2.1.2,
   (move_transfers_and_resets example_hooks_world 1 0 example_hooked rfl).2.2.1⟩

/-! ## Auxiliary composition -/

/-- C12: in steal-immediately mode for the before-hook (respectively the after-hook),
whatever the argument for the other hook is, right after `auxiliary_with_barriers` the
master's slot is empty and the auxiliary's slot holds what the master's slot held (nothing
if the master had no hook). Invoking the auxiliary's hook then makes one invocation of
that closure with the shared command buffer and the given stage and access (one recorded
call for a caller-supplied closure), and does nothing if the master had no hook. -/
theorem auxiliary_with_barriers_steal_immediately (ndebug : Bool)
    (request : commandbuffer_request) (w wb wa : World) (m : Nat) (other : hook_argument)
    (M : old_sync) (stage : pipeline_stage) (access : Option memory_access)
    (hM : w.instances[m]? = some M)
    (hwb : wb = (auxiliary_with_barriers ndebug request w m
      .steal_immediately_sentinel other).1)
    (hwa : wa = (auxiliary_with_barriers ndebug request w m other
      .steal_immediately_sentinel).1) :
    (∃ A M2, wb.instances[w.instances.length]? = some A ∧ wb.instances[m]? = some M2 ∧
      M2.mEstablishBarrierBeforeOperationCallback = none ∧
      A.mEstablishBarrierBeforeOperationCallback =
        M.mEstablishBarrierBeforeOperationCallback ∧
      (∀ h, M.mEstablishBarrierBeforeOperationCallback = some h →
        (establish_barrier_before_the_operation wb w.instances.length stage access).trace =
          (call_handler .before (wb.chain_bound .before) wb h
            (get_or_create_command_buffer w m).2 stage access).trace ∧
        (∀ id, h = .closure id →
          (establish_barrier_before_the_operation wb w.instances.length stage
              access).trace =
            wb.trace ++ [.barrier_handler_called .before id
              (get_or_create_command_buffer w m).2 stage access])) ∧
      (M.mEstablishBarrierBeforeOperationCallback = none →
        establish_barrier_before_the_operation wb w.instances.length stage access = wb)) ∧
    (∃ A M2, wa.instances[w.instances.length]? = some A ∧ wa.instances[m]? = some M2 ∧
      M2.mEstablishBarrierAfterOperationCallback = none ∧
      A.mEstablishBarrierAfterOperationCallback =
        M.mEstablishBarrierAfterOperationCallback ∧
      (∀ h, M.mEstablishBarrierAfterOperationCallback = some h →
        (establish_barrier_after_the_operation wa w.instances.length stage access).trace =
          (call_handler .after (wa.chain_bound .after) wa h
            (get_or_create_command_buffer w m).2 stage access).trace ∧
        (∀ id, h = .closure id →
          (establish_barrier_after_the_operation wa w.instances.length stage
              access).trace =
            wa.trace ++ [.barrier_handler_called .after id
              (get_or_create_command_buffer w m).2 stage access])) ∧
      (M.mEstablishBarrierAfterOperationCallback = none →
        establish_barrier_after_the_operation wa w.instances.length stage access = wa)) := by
  refine ⟨?_, ?_⟩
  · obtain ⟨owned, -, -, -, -, hm, ha⟩ := auxiliary_with_barriers_objects ndebug request w m
      .steal_immediately_sentinel other M hM
    rw [← hwb] at hm ha
    refine ⟨_, _, ha, hm, rfl, rfl, ?_, ?_⟩
    · intro h hh
      have key := (establish_barrier_of_reference .before wb w.instances.length _ h
        (get_or_create_command_buffer w m).2 stage access ha
        (by simp [old_sync.callback, hook_argument.given_to_auxiliary, hh]) rfl).1
      refine ⟨key, ?_⟩
      intro id hid
      subst hid
      rw [establish_barrier_before_the_operation, key]
      simp [call_handler, World.emit]
    · intro hn
      exact establish_barrier_empty .before wb w.instances.length _ stage access ha
        (by simp [old_sync.callback, hook_argument.given_to_auxiliary, hn])
  · obtain ⟨owned, -, -, -, -, hm, ha⟩ := auxiliary_with_barriers_objects ndebug request w m
      other .steal_immediately_sentinel M hM
    rw [← hwa] at hm ha
    refine ⟨_, _, ha, hm, rfl, rfl, ?_, ?_⟩
    · intro h hh
      have key := (establish_barrier_of_reference .after wa w.instances.length _ h
        (get_or_create_command_buffer w m).2 stage access ha
        (by simp [old_sync.callback, hook_argument.given_to_auxiliary, hh]) rfl).1
      refine ⟨key, ?_⟩
      intro id hid
      subst hid
      rw [establish_barrier_after_the_operation, key]
      simp [call_handler, World.emit]
    · intro hn
      exact establish_barrier_empty .after wa w.instances.length _ stage access ha
        (by simp [old_sync.callback, hook_argument.given_to_auxiliary, hn])

/-- Witness of C12 on `example_hooks_world`: the after-hook (closure 6) of the master at
address 1 is stolen immediately by the auxiliary built at address 2. -/
theorem auxiliary_with_barriers_steal_immediately_witness :
    (establish_barrier_after_the_operation
        (auxiliary_with_barriers false .single_use example_hooks_world 1 (.explicit none)
          .steal_immediately_sentinel).1 2 .transfer none).trace =
      [.barrier_handler_called .after 6 3 .transfer none] := by
  obtain ⟨_, _, _, _, _, _, hcall, _⟩ :=
    (auxiliary_with_barriers_steal_immediately false .single_use example_hooks_world _ _ 1
      (.explicit none) _ .transfer none rfl rfl rfl).2
  exact (hcall (.closure 6) rfl).2 6 rfl

/-- C13: in steal-on-demand mode for the before-hook (respectively the after-hook),
`auxiliary_with_barriers` leaves the master's slot as it was and gives the auxiliary the
stealing lambda. Invoking the auxiliary's hook empties the master's slot and makes one
invocation of the closure the master held, with the shared command buffer and the given
stage and access (one recorded call for a caller-supplied closure); if the master held
none, nothing is recorded. -/
theorem auxiliary_with_barriers_steal_on_demand (ndebug : Bool)
    (request : commandbuffer_request) (w wb wa : World) (m : Nat) (other : hook_argument)
    (M : old_sync) (stage : pipeline_stage) (access : Option memory_access)
    (hM : w.instances[m]? = some M)
    (hwb : wb = (auxiliary_with_barriers ndebug request w m
      .steal_on_demand_sentinel other).1)
    (hwa : wa = (auxiliary_with_barriers ndebug request w m other
      .steal_on_demand_sentinel).1) :
    (∃ A M2, wb.instances[w.instances.length]? = some A ∧ wb.instances[m]? = some M2 ∧
      M2.mEstablishBarrierBeforeOperationCallback =
        M.mEstablishBarrierBeforeOperationCallback ∧
      A.mEstablishBarrierBeforeOperationCallback = some (.steal_on_demand m) ∧
      (∃ M3, (establish_barrier_before_the_operation wb w.instances.length stage
          access).instances[m]? = some M3 ∧
        M3.mEstablishBarrierBeforeOperationCallback = none) ∧
      (∀ h, M.mEstablishBarrierBeforeOperationCallback = some h →
        (establish_barrier_before_the_operation wb w.instances.length stage access).trace =
          (call_handler .before
            ((wb.store m (M2.set_callback .before none)).chain_bound .before)
            (wb.store m (M2.set_callback .before none)) h
            (get_or_create_command_buffer w m).2 stage access).trace ∧
        (∀ id, h = .closure id →
          (establish_barrier_before_the_operation wb w.instances.length stage
              access).trace =
            wb.trace ++ [.barrier_handler_called .before id
              (get_or_create_command_buffer w m).2 stage access])) ∧
      (M.mEstablishBarrierBeforeOperationCallback = none →
        (establish_barrier_before_the_operation wb w.instances.length stage access).trace =
          wb.trace)) ∧
    (∃ A M2, wa.instances[w.instances.length]? = some A ∧ wa.instances[m]? = some M2 ∧
      M2.mEstablishBarrierAfterOperationCallback =
        M.mEstablishBarrierAfterOperationCallback ∧
      A.mEstablishBarrierAfterOperationCallback = some (.steal_on_demand m) ∧
      (∃ M3, (establish_barrier_after_the_operation wa w.instances.length stage
          access).instances[m]? = some M3 ∧
        M3.mEstablishBarrierAfterOperationCallback = none) ∧
      (∀ h, M.mEstablishBarrierAfterOperationCallback = some h →
        (establish_barrier_after_the_operation wa w.instances.length stage access).trace =
          (call_handler .after
            ((wa.store m (M2.set_callback .after none)).chain_bound .after)
            (wa.store m (M2.set_callback .after none)) h
            (get_or_create_command_buffer w m).2 stage access).trace ∧
        (∀ id, h = .closure id →
          (establish_barrier_after_the_operation wa w.instances.length stage
              access).trace =
            wa.trace ++ [.barrier_handler_called .after id
              (get_or_create_command_buffer w m).2 stage access])) ∧
      (M.mEstablishBarrierAfterOperationCallback = none →
        (establish_barrier_after_the_operation wa w.instances.length stage access).trace =
          wa.trace)) := by
  have hne : w.instances.length ≠ m := Nat.ne_of_gt (lt_length_of_getElem? hM)
  refine ⟨?_, ?_⟩
  · obtain ⟨owned, -, -, -, -, hm, ha⟩ := auxiliary_with_barriers_objects ndebug request w m
      .steal_on_demand_sentinel other M hM
    rw [← hwb] at hm ha
    obtain ⟨h1, h2, h3⟩ := establish_barrier_steal_on_demand .before wb w.instances.length m
      _ _ (get_or_create_command_buffer w m).2 stage access ha hm hne rfl rfl
    refine ⟨_, _, ha, hm, rfl, rfl, h1, ?_, h3⟩
    intro h hh
    have key := h2 h hh
    refine ⟨key, ?_⟩
    intro id hid
    subst hid
    rw [establish_barrier_before_the_operation, key]
    simp [call_handler, World.emit, World.store]
  · obtain ⟨owned, -, -, -, -, hm, ha⟩ := auxiliary_with_barriers_objects ndebug request w m
      other .steal_on_demand_sentinel M hM
    rw [← hwa] at hm ha
    obtain ⟨h1, h2, h3⟩ := establish_barrier_steal_on_demand .after wa w.instances.length m
      _ _ (get_or_create_command_buffer w m).2 stage access ha hm hne rfl rfl
    refine ⟨_, _, ha, hm, rfl, rfl, h1, ?_, h3⟩
    intro h hh
    have key := h2 h hh
    refine ⟨key, ?_⟩
    intro id hid
    subst hid
    rw [establish_barrier_after_the_operation, key]
    simp [call_handler, World.emit, World.store]

/-- Witness of C13 on `example_hooks_world`: the after-hook (closure 6) of the master at
address 1 is stolen on demand by the auxiliary built at address 2. -/
theorem auxiliary_with_barriers_steal_on_demand_witness :
    (establish_barrier_after_the_operation
        (auxiliary_with_barriers false .single_use example_hooks_world 1 (.explicit none)
          .steal_on_demand_sentinel).1 2 .transfer none).trace =
      [.barrier_handler_called .after 6 3 .transfer none] := by
  obtain ⟨_, _, _, _, _, _, _, hcall, _⟩ :=
    (auxiliary_with_barriers_steal_on_demand false .single_use example_hooks_world _ _ 1
      (.explicit none) _ .transfer none rfl rfl rfl).2
  exact (hcall (.closure 6) rfl).2 6 rfl

/-- C14: for every master and every pair of hook arguments, `auxiliary_with_barriers`
returns a new object whose slot refers to the command buffer that the master's
`get_or_create_command_buffer` returns, which owns no command buffer, has no sink, no
queue override and no queue hint, and is classified `via_barrier`. Provisioning through
the auxiliary, and again through the master, yields that buffer without any further call;
the only calls composition records are those of provisioning the master's buffer, and
the master owns the buffer unless its own slot holds a reference. -/
theorem auxiliary_with_barriers_shares_command_buffer (ndebug : Bool)
    (request : commandbuffer_request) (w w2 : World) (m : Nat) (b a : hook_argument)
    (M : old_sync) (hM : w.instances[m]? = some M)
    (hw2 : w2 = (auxiliary_with_barriers ndebug request w m b a).1) :
    (auxiliary_with_barriers ndebug request w m b a).2 = .returned w.instances.length ∧
    w2.trace = (get_or_create_command_buffer w m).1.trace ∧
    ∃ A M2, w2.instances[w.instances.length]? = some A ∧ w2.instances[m]? = some M2 ∧
      A.mCommandBufferRefOrLifetimeHandler =
        .reference (get_or_create_command_buffer w m).2 ∧
      A.mCommandBuffer = none ∧
      A.mSemaphoreLifetimeHandler = none ∧
      A.mQueueToUse = none ∧
      A.mQueueRecommendation = none ∧
      A.get_sync_type = .via_barrier ∧
      get_or_create_command_buffer w2 w.instances.length =
        (w2, (get_or_create_command_buffer w m).2) ∧
      get_or_create_command_buffer w2 m = (w2, (get_or_create_command_buffer w m).2) ∧
      (M.mCommandBufferRefOrLifetimeHandler.holds_reference = false →
        M2.mCommandBuffer = some (get_or_create_command_buffer w m).2) ∧
      (M.mCommandBufferRefOrLifetimeHandler.holds_reference = true →
        M2.mCommandBuffer = M.mCommandBuffer) := by
  obtain ⟨owned, h1, h2, hret, htr, hm, ha⟩ :=
    auxiliary_with_barriers_objects ndebug request w m b a M hM
  subst hw2
  refine ⟨hret, htr, _, _, ha, hm, rfl, rfl, rfl, rfl, rfl, ?_, ?_, ?_, h1, h2⟩
  · simp [old_sync.get_sync_type, old_sync.default_constructed]
  · exact get_or_create_command_buffer_of_reference _ _ _ _ ha rfl
  · cases hslot : M.mCommandBufferRefOrLifetimeHandler with
    | reference r =>
      have hr : (get_or_create_command_buffer w m).2 = r := by
        simp [get_or_create_command_buffer, hM, hslot]
      rw [hr]
      exact get_or_create_command_buffer_of_reference _ _ _ _ hm hslot
    | monostate =>
      have := h1 (by simp [hslot, commandbuffer_slot.holds_reference])
      simp [get_or_create_command_buffer, hm, hslot, this]
    | lifetime_handler f =>
      have := h1 (by simp [hslot, commandbuffer_slot.holds_reference])
      simp [get_or_create_command_buffer, hm, hslot, this]

/-- Witness of C14 on a master that owns no command buffer yet. -/
theorem auxiliary_with_barriers_shares_command_buffer_witness :
    (auxiliary_with_barriers false .single_use
        (example_world (old_sync.wait_idle .reusable true)) 0 .steal_on_demand_sentinel
        .steal_immediately_sentinel).2 = .returned 1 ∧
    (auxiliary_with_barriers false .single_use
        (example_world (old_sync.wait_idle .reusable true)) 0 .steal_on_demand_sentinel
        .steal_immediately_sentinel).1.trace =
      [.alloc_command_buffer .none_set 100, .begin_recording 100] :=
  ⟨(auxiliary_with_barriers_shares_command_buffer false .single_use
      (example_world (old_sync.wait_idle .reusable true)) _ 0 .steal_on_demand_sentinel
      .steal_immediately_sentinel _ rfl rfl).1,
   (auxiliary_with_barriers_shares_command_buffer false .single_use
      (example_world (old_sync.wait_idle .reusable true)) _ 0 .steal_on_demand_sentinel
      .steal_immediately_sentinel _ rfl rfl).2.1⟩

/-! ## Sequences of public operations -/

/-- C15: in every world reached from the empty heap by public operations (factories,
configuration calls, provisioning, hook invocations, auxiliary composition, moves,
finalizations), a call of `submit_and_sync` that returns under a strategy other than
`by_return` and `by_existing_command_buffer` leaves the object without an owned command
buffer; on an auxiliary (no sink, slot holding a reference) it returns nothing and
changes nothing even with assertions compiled in; and an assertion fails only because
the command buffer is missing on entry or the strategy is `not_required`, so never at the
closing assertion. -/
theorem reachable_submit_and_sync_owns_nothing (ndebug : Bool) (queue next_handle : Nat)
    (ops : List operation) (w : World) (a : Nat) (s : old_sync)
    (hw : w = run_operations ndebug (World.initial queue next_handle) ops)
    (hs : w.instances[a]? = some s) :
    (∀ v, (submit_and_sync ndebug w a).2 = .returned v →
      s.get_sync_type ≠ .by_return → s.get_sync_type ≠ .by_existing_command_buffer →
      ∃ s2, (submit_and_sync ndebug w a).1.instances[a]? = some s2 ∧
        s2.mCommandBuffer = none) ∧
    (s.mSemaphoreLifetimeHandler = none →
      s.mCommandBufferRefOrLifetimeHandler.holds_reference = true →
      submit_and_sync ndebug w a = (w, .returned none)) ∧
    ((submit_and_sync ndebug w a).2 = .failed .assertion_failed →
      s.mCommandBuffer = none ∨ s.get_sync_type = .not_required) := by
  have hinit : (World.initial queue next_handle).consistent := by
    intro x hx
    simp [World.initial] at hx
  have hc : w.consistent := hw ▸ run_operations_consistent ndebug ops _ hinit
  exact submit_and_sync_closing_assertion ndebug w a s hs (World.consistent_get w a s hc hs)

/-- Witness of C15: the auxiliary built by `example_composition` is finalized with
assertions compiled in. -/
theorem reachable_submit_and_sync_owns_nothing_witness :
    submit_and_sync false
        (run_operations false (World.initial 5 100) example_composition) 1 =
      (run_operations false (World.initial 5 100) example_composition,
       .returned none) :=
  (reachable_submit_and_sync_owns_nothing false 5 100 example_composition _ 1 _ rfl
    rfl).2.1 rfl rfl

/-- C16, as stated, fails: on the object `wait_idle(false)` builds, provisioning,
finalizing and provisioning again are three member calls on one object that make two
pool allocations. -/
theorem pool_allocation_at_most_once_counterexample :
    (∀ op ∈ example_provision_twice, op.applies_to 0 = true) ∧
    alloc_count (run_operations false
      (example_world (old_sync.wait_idle .single_use false))
      example_provision_twice).trace = 2 ∧
    ¬ alloc_count (run_operations false
        (example_world (old_sync.wait_idle .single_use false))
        example_provision_twice).trace ≤
      alloc_count (example_world (old_sync.wait_idle .single_use false)).trace + 1 := by
  decide

/-- C16, amended: over every sequence of operations applied to one object (configuration
calls, provisioning calls, hook invocations and finalizations on it, moves with it as
source or destination, auxiliary compositions with it as master), the number of pool
allocations is at most one, or none if the object owns a command buffer at the start,
plus the number of `submit_and_sync` calls and of moves in the sequence: each of these
can empty the owned command buffer, after which a provisioning call, a hook invocation
or a composition allocates again. An operation applied to an object whose slot holds an
external reference makes no pool allocation. -/
theorem pool_allocation_once_per_finalization_or_move (ndebug : Bool) (w : World)
    (a : Nat) (ops : List operation) (hops : ∀ op ∈ ops, op.applies_to a = true) :
    alloc_count (run_operations ndebug w ops).trace +
        (run_operations ndebug w ops).room a ≤
      alloc_count w.trace + w.room a + ops.countP operation.is_submit_and_sync +
        ops.countP operation.is_move ∧
    alloc_count (run_operations ndebug w ops).trace ≤
      alloc_count w.trace + 1 + ops.countP operation.is_submit_and_sync +
        ops.countP operation.is_move ∧
    (∀ (op : operation) (s : old_sync) (cb : Nat), op.applies_to a = true →
      w.instances[a]? = some s →
      s.mCommandBufferRefOrLifetimeHandler = .reference cb →
      alloc_count (op.run ndebug w).trace = alloc_count w.trace) := by
  have h := run_operations_room ndebug a ops w hops
  have hr := World.room_le_one w a
  exact ⟨h, by omega, fun op s cb hop hs hslot =>
    operation_run_reference ndebug w a op s cb hop hs hslot⟩

/-- Witness of C16 amended: on the sequence of the counterexample, two allocations with
one finalization; on `example_provision_move_provision`, two allocations with one move
and no finalization, the composition at the end allocating nothing. -/
theorem pool_allocation_once_per_finalization_or_move_witness :
    alloc_count (run_operations false
      (example_world (old_sync.wait_idle .single_use false))
      example_provision_twice).trace ≤ 0 + 1 + 1 + 0 ∧
    alloc_count (run_operations false example_pair_world
      example_provision_move_provision).trace = 2 ∧
    alloc_count (run_operations false example_pair_world
      example_provision_move_provision).trace ≤ 0 + 1 + 0 + 1 :=
  ⟨(pool_allocation_once_per_finalization_or_move false
      (example_world (old_sync.wait_idle .single_use false)) 0 example_provision_twice
      (by decide)).2.1,
   by decide,
   (pool_allocation_once_per_finalization_or_move false example_pair_world 0
      example_provision_move_provision (by decide)).2.1⟩

/-! ## Queue selection, destruction and logging -/

/-- C17, as stated, fails: after `on_queue(9)` the object records the override 9, yet
`queue_to_use` returns the process-wide queue 5 and `submit_and_sync` submits to queue 5
and waits on queue 5. -/
theorem queue_override_wins_counterexample :
    (on_queue example_implicit_wait_idle_world 0 9).instances[0]? =
      some { old_sync.wait_idle .single_use false with
        mCommandBuffer := some 11, mQueueToUse := some 9 } ∧
    queue_to_use (on_queue example_implicit_wait_idle_world 0 9)
      { old_sync.wait_idle .single_use false with
        mCommandBuffer := some 11, mQueueToUse := some 9 } = 5 ∧
    (submit_and_sync false (on_queue example_implicit_wait_idle_world 0 9) 0).1.trace =
      [.end_recording 11, .submit 5 11 none, .wait_idle 5] := by
  decide

/-- C17, amended: `on_queue(q)` and `set_queue_hint(hint)` record their argument in the
object, but `queue_to_use` returns the process-wide queue `sQueueToUse` whatever the
override and the hint are, and every queue call `submit_and_sync` records (submission,
submission with semaphore, wait) is on `sQueueToUse`. -/
theorem queue_to_use_is_static_queue (ndebug : Bool) (w : World) (a q hint : Nat)
    (s : old_sync) (hs : w.instances[a]? = some s) :
    (set_queue_hint (on_queue w a q) a hint).instances[a]? =
      some { s with mQueueToUse := some q, mQueueRecommendation := some hint } ∧
    (∀ s2, queue_to_use (set_queue_hint (on_queue w a q) a hint) s2 = w.sQueueToUse) ∧
    ∃ evs, (submit_and_sync ndebug (set_queue_hint (on_queue w a q) a hint) a).1.trace =
        w.trace ++ evs ∧
      ∀ e ∈ evs, ∀ used, e.queue_used = some used → used = w.sQueueToUse := by
  have hlt := lt_length_of_getElem? hs
  have hw1 : set_queue_hint (on_queue w a q) a hint =
      w.store a { s with mQueueToUse := some q, mQueueRecommendation := some hint } := by
    simp [set_queue_hint, on_queue, World.modify, hs, World.store,
      List.getElem?_set_self hlt]
  obtain ⟨⟨evs, htr, hev⟩, -, -⟩ := submit_and_sync_effect ndebug
    (set_queue_hint (on_queue w a q) a hint) a
  refine ⟨?_, ?_, evs, ?_, ?_⟩
  · rw [hw1]
    exact World.store_getElem? w a _ s hs
  · intro s2
    rw [hw1]
    rfl
  · rw [htr, hw1]
    rfl
  · intro e he used hused
    have := (hev e he).2.2 used hused
    rw [hw1] at this
    exact this

/-- Witness of C17 amended on the world of the counterexample. -/
theorem queue_to_use_is_static_queue_witness :
    (set_queue_hint (on_queue example_implicit_wait_idle_world 0 9) 0 7).instances[0]? =
      some { old_sync.wait_idle .single_use false with
        mCommandBuffer := some 11, mQueueToUse := some 9, mQueueRecommendation := some 7 } ∧
    queue_to_use (set_queue_hint (on_queue example_implicit_wait_idle_world 0 9) 0 7)
      { old_sync.wait_idle .single_use false with
        mCommandBuffer := some 11, mQueueToUse := some 9,
        mQueueRecommendation := some 7 } = 5 :=
  ⟨(queue_to_use_is_static_queue false example_implicit_wait_idle_world 0 9 7 _ rfl).1,
   (queue_to_use_is_static_queue false example_implicit_wait_idle_world 0 9 7 _ rfl).2.1
     _⟩

/-- C19, as stated, fails: finalizing under the implicit `via_wait_idle` fallback (no
sink, empty slot, no override) records the end of recording, the submission and the wait,
and no warning. -/
theorem implicit_wait_idle_warning_counterexample :
    (old_sync.wait_idle .single_use false).mSpecialSync = none ∧
    ({ old_sync.wait_idle .single_use false with mCommandBuffer := some 11 } :
      old_sync).get_sync_type = .via_wait_idle ∧
    (submit_and_sync false example_implicit_wait_idle_world 0).1.trace =
      [.end_recording 11, .submit 5 11 none, .wait_idle 5] ∧
    Event.log_warning ∉ (submit_and_sync false example_implicit_wait_idle_world 0).1.trace := by
  decide

/-- C19, amended: finalizing under the implicit `via_wait_idle` fallback logs neither a
warning nor an error, exactly like `via_wait_idle_deliberately`. For an object of either
classification that owns the command buffer `cb`, `submit_and_sync` ends the recording of
`cb`, submits it on `sQueueToUse` without a semaphore, waits until that queue is idle,
and releases the owned command buffer, in this order and with nothing else recorded; it
returns nothing and leaves every other member and object as it is. If the object owns no
command buffer the call changes nothing and stops, at the failed assertion or, with
assertions compiled out, at the access to the empty optional. -/
theorem wait_idle_variants_act_alike (ndebug : Bool) (w : World) (a : Nat) (s : old_sync)
    (hs : w.instances[a]? = some s)
    (hty : s.get_sync_type = .via_wait_idle ∨
      s.get_sync_type = .via_wait_idle_deliberately) :
    (∀ cb, s.mCommandBuffer = some cb →
      (submit_and_sync ndebug w a).1.trace = w.trace ++
        [.end_recording cb, .submit w.sQueueToUse cb none, .wait_idle w.sQueueToUse] ∧
      (submit_and_sync ndebug w a).2 = .returned none ∧
      (submit_and_sync ndebug w a).1.instances =
        w.instances.set a { s with mCommandBuffer := none } ∧
      (submit_and_sync ndebug w a).1.trace.count .log_warning =
        w.trace.count .log_warning ∧
      (∀ m, (submit_and_sync ndebug w a).1.trace.count (.log_error m) =
        w.trace.count (.log_error m))) ∧
    (s.mCommandBuffer = none →
      submit_and_sync ndebug w a =
        (w, .failed (if ndebug then .bad_optional_access else .assertion_failed))) := by
  have hlt := lt_length_of_getElem? hs
  constructor
  · intro cb hcb
    rcases hty with hty | hty <;> cases ndebug <;>
      simp [submit_and_sync, hs, hty, hcb, assert_holds, queue_to_use,
        submit_and_sync_epilogue, World.emit, World.store, List.getElem?_set_self hlt,
        List.count_append, List.count_cons, List.count_nil]
  · intro hcb
    rcases hty with hty | hty <;> cases ndebug <;>
      simp [submit_and_sync, hs, hty, hcb, assert_holds]

/-- Witness of C19 amended: the implicit and the deliberate variant with command buffer
11 record the same three calls and both return nothing. -/
theorem wait_idle_variants_act_alike_witness :
    (submit_and_sync false example_implicit_wait_idle_world 0).1.trace =
      [] ++ [.end_recording 11, .submit 5 11 none, .wait_idle 5] ∧
    (submit_and_sync false example_wait_idle_world 0).1.trace =
      [] ++ [.end_recording 11, .submit 5 11 none, .wait_idle 5] ∧
    (submit_and_sync false example_implicit_wait_idle_world 0).2 = .returned none ∧
    (submit_and_sync false example_wait_idle_world 0).2 = .returned none :=
  ⟨((wait_idle_variants_act_alike false example_implicit_wait_idle_world 0 _ rfl
      (Or.inl rfl)).1 11 rfl).1,
   ((wait_idle_variants_act_alike false example_wait_idle_world 0 _ rfl
      (Or.inr rfl)).1 11 rfl).1,
   ((wait_idle_variants_act_alike false example_implicit_wait_idle_world 0 _ rfl
      (Or.inl rfl)).1 11 rfl).2.1,
   ((wait_idle_variants_act_alike false example_wait_idle_world 0 _ rfl
      (Or.inr rfl)).1 11 rfl).2.1⟩

/-- C20: `establish_barrier_before_the_operation` (and symmetrically
`establish_barrier_after_the_operation`) with a hook registered invokes it once with the
command buffer `get_or_create_command_buffer` returns and with the given stage and access
unchanged (one recorded call for a caller-supplied closure, after the allocation and
`begin_recording` that provisioning makes when no buffer is owned and the slot holds no
reference); afterwards the slot is empty and the other hook slot is as before. With no
hook registered the call returns the world unchanged, so it allocates nothing. -/
theorem establish_barrier_calls_hook_with_command_buffer (w : World) (a : Nat)
    (s : old_sync) (stage : pipeline_stage) (access : Option memory_access)
    (hs : w.instances[a]? = some s) :
    ((∀ h, s.mEstablishBarrierBeforeOperationCallback = some h →
        (establish_barrier_before_the_operation w a stage access).trace =
          (call_handler .before ((get_or_create_command_buffer w a).1.chain_bound .before)
            (get_or_create_command_buffer w a).1 h (get_or_create_command_buffer w a).2
            stage access).trace ∧
        (∀ id, h = .closure id →
          (establish_barrier_before_the_operation w a stage access).trace =
            (get_or_create_command_buffer w a).1.trace ++
              [.barrier_handler_called .before id (get_or_create_command_buffer w a).2
                stage access]) ∧
        ∃ s1, (establish_barrier_before_the_operation w a stage access).instances[a]? =
            some s1 ∧
          s1.mEstablishBarrierBeforeOperationCallback = none ∧
          s1.mEstablishBarrierAfterOperationCallback =
            s.mEstablishBarrierAfterOperationCallback) ∧
      (s.mEstablishBarrierBeforeOperationCallback = none →
        establish_barrier_before_the_operation w a stage access = w)) ∧
    ((∀ h, s.mEstablishBarrierAfterOperationCallback = some h →
        (establish_barrier_after_the_operation w a stage access).trace =
          (call_handler .after ((get_or_create_command_buffer w a).1.chain_bound .after)
            (get_or_create_command_buffer w a).1 h (get_or_create_command_buffer w a).2
            stage access).trace ∧
        (∀ id, h = .closure id →
          (establish_barrier_after_the_operation w a stage access).trace =
            (get_or_create_command_buffer w a).1.trace ++
              [.barrier_handler_called .after id (get_or_create_command_buffer w a).2
                stage access]) ∧
        ∃ s1, (establish_barrier_after_the_operation w a stage access).instances[a]? =
            some s1 ∧
          s1.mEstablishBarrierAfterOperationCallback = none ∧
          s1.mEstablishBarrierBeforeOperationCallback =
            s.mEstablishBarrierBeforeOperationCallback) ∧
      (s.mEstablishBarrierAfterOperationCallback = none →
        establish_barrier_after_the_operation w a stage access = w)) ∧
    (s.mCommandBufferRefOrLifetimeHandler.holds_reference = false →
      s.mCommandBuffer = none →
      (get_or_create_command_buffer w a).2 = w.next_handle ∧
      (get_or_create_command_buffer w a).1.trace = w.trace ++
        [.alloc_command_buffer
            (match s.mCommandbufferRequest with
              | .reusable => .none_set
              | .single_use => .one_time_submit) w.next_handle,
         .begin_recording w.next_handle]) ∧
    (s.mCommandBufferRefOrLifetimeHandler.holds_reference = true ∨
        s.mCommandBuffer ≠ none →
      (get_or_create_command_buffer w a).1 = w) := by
  have hlt := lt_length_of_getElem? hs
  have hkind : ∀ (k k2 : hook_kind) (_ : k ≠ k2),
      (∀ h, s.callback k = some h →
        (establish_barrier k w a stage access).trace =
          (call_handler k ((get_or_create_command_buffer w a).1.chain_bound k)
            (get_or_create_command_buffer w a).1 h (get_or_create_command_buffer w a).2
            stage access).trace ∧
        (∀ id, h = .closure id →
          (establish_barrier k w a stage access).trace =
            (get_or_create_command_buffer w a).1.trace ++
              [.barrier_handler_called k id (get_or_create_command_buffer w a).2
                stage access]) ∧
        ∃ s1, (establish_barrier k w a stage access).instances[a]? = some s1 ∧
          s1.callback k = none ∧ s1.callback k2 = s.callback k2) ∧
      (s.callback k = none → establish_barrier k w a stage access = w) := by
    intro k k2 hne
    refine ⟨?_, fun hk => establish_barrier_empty k w a s stage access hs hk⟩
    intro h hk
    obtain ⟨s2, -, heq⟩ := establish_barrier_populated k w a s h stage access hs hk
    have htr : (establish_barrier k w a stage access).trace =
        (call_handler k ((get_or_create_command_buffer w a).1.chain_bound k)
          (get_or_create_command_buffer w a).1 h (get_or_create_command_buffer w a).2
          stage access).trace := by
      rw [heq]; rfl
    refine ⟨htr, ?_, establish_barrier_slots k k2 hne w a s h stage access hs hk⟩
    intro id hid
    subst hid
    rw [htr]
    simp [call_handler, World.emit]
  refine ⟨hkind .before .after (by decide), hkind .after .before (by decide), ?_, ?_⟩
  · intro href hcb
    cases hslot : s.mCommandBufferRefOrLifetimeHandler <;>
      cases hreq : s.mCommandbufferRequest <;>
      simp [get_or_create_command_buffer, hs, hslot, hcb, hreq, World.emit, World.store,
        World.alloc_command_buffer, commandbuffer_slot.holds_reference] at href ⊢
  · intro hor
    cases hslot : s.mCommandBufferRefOrLifetimeHandler <;>
      cases hcb : s.mCommandBuffer <;>
      simp [get_or_create_command_buffer, hs, hslot, hcb,
        commandbuffer_slot.holds_reference] at hor ⊢

/-- Witness of C20 on `example_hooks_world`: the before-hook (closure 4) of the object at
address 0 is called with the referenced command buffer 3, and the after-hook stays. -/
theorem establish_barrier_calls_hook_with_command_buffer_witness :
    (establish_barrier_before_the_operation example_hooks_world 0 .transfer
        (some .any_read_access)).trace =
      [.barrier_handler_called .before 4 3 .transfer (some .any_read_access)] :=
  ((establish_barrier_calls_hook_with_command_buffer example_hooks_world 0 example_hooked
    .transfer (some .any_read_access) rfl).1.1 (.closure 4) rfl).2.1 4 rfl

/-! ## Finalizing with a lifetime closure, and finalizing twice -/

/-- C21: with no semaphore sink, a lifetime closure in the command-buffer slot and an
owned command buffer provisioned, `submit_and_sync` ends recording, submits the owned
buffer once with no semaphore and calls the closure once with the owned buffer, in this
order; afterwards the owned command buffer is empty, every other member is as before and
nothing is returned. -/
theorem submit_and_sync_lifetime_handler (ndebug : Bool) (w : World) (a : Nat)
    (s : old_sync) (f cb : Nat) (hs : w.instances[a]? = some s)
    (hsink : s.mSemaphoreLifetimeHandler = none)
    (hslot : s.mCommandBufferRefOrLifetimeHandler = .lifetime_handler f)
    (hcb : s.mCommandBuffer = some cb) :
    s.get_sync_type = .via_barrier ∧
    (submit_and_sync ndebug w a).1.trace = w.trace ++
      [.end_recording cb, .submit w.sQueueToUse cb none, .lifetime_handler_called f cb] ∧
    (submit_and_sync ndebug w a).2 = .returned none ∧
    (submit_and_sync ndebug w a).1.instances =
      w.instances.set a { s with mCommandBuffer := none } := by
  have hty : s.get_sync_type = .via_barrier := by
    simp [old_sync.get_sync_type, hsink, hslot]
  have hlt := lt_length_of_getElem? hs
  refine ⟨hty, ?_⟩
  cases ndebug <;>
    simp [submit_and_sync, hs, hty, hslot, hcb, assert_holds, queue_to_use,
      submit_and_sync_epilogue, World.emit, World.store, List.getElem?_set_self hlt]

/-- Witness of C21 on an object with lifetime closure 9 that owns command buffer 11. -/
theorem submit_and_sync_lifetime_handler_witness :
    (submit_and_sync false
        (example_world { example_lifetime_handler with mCommandBuffer := some 11 })
        0).1.trace =
      [.end_recording 11, .submit 5 11 none, .lifetime_handler_called 9 11] ∧
    (submit_and_sync false
        (example_world { example_lifetime_handler with mCommandBuffer := some 11 })
        0).2 = .returned none :=
  ⟨(submit_and_sync_lifetime_handler false
      (example_world { example_lifetime_handler with mCommandBuffer := some 11 }) 0 _ 9
      11 rfl rfl rfl rfl).2.1,
   (submit_and_sync_lifetime_handler false
      (example_world { example_lifetime_handler with mCommandBuffer := some 11 }) 0 _ 9
      11 rfl rfl rfl rfl).2.2.1⟩

/-- C22: after a `submit_and_sync` call that returned, an immediately following second
call on the same object leaves the world exactly as the first call left it, so it makes
no queue submission, no wait and no sink or lifetime-closure call. It returns nothing for
an auxiliary and for `by_existing_command_buffer`; for `via_semaphore`, `via_barrier`
with a lifetime closure, `via_wait_idle`, `via_wait_idle_deliberately` and `by_return`
it stops because the owned command buffer is missing: at the failed assertion (or, with
assertions compiled out, at the access to the empty optional), and for `by_return` at the
raised `avk::runtime_error`. -/
theorem submit_and_sync_second_call (ndebug : Bool) (w w1 : World) (a : Nat)
    (s : old_sync) (v : Option Nat) (hs : w.instances[a]? = some s)
    (hw1 : w1 = (submit_and_sync ndebug w a).1)
    (hfirst : (submit_and_sync ndebug w a).2 = .returned v) :
    (submit_and_sync ndebug w1 a).1 = w1 ∧
    ((s.get_sync_type = .by_existing_command_buffer ∨
        (s.mSemaphoreLifetimeHandler = none ∧
          s.mCommandBufferRefOrLifetimeHandler.holds_reference = true)) →
      (submit_and_sync ndebug w1 a).2 = .returned none) ∧
    ((s.get_sync_type = .via_semaphore ∨
        (s.get_sync_type = .via_barrier ∧
          s.mCommandBufferRefOrLifetimeHandler.holds_lifetime_handler = true) ∨
        s.get_sync_type = .via_wait_idle ∨
        s.get_sync_type = .via_wait_idle_deliberately) →
      (submit_and_sync ndebug w1 a).2 =
        .failed (if ndebug then .bad_optional_access else .assertion_failed)) ∧
    (s.get_sync_type = .by_return →
      (submit_and_sync ndebug w1 a).2 = .failed .runtime_error_no_command_buffer) := by
  have hlt := lt_length_of_getElem? hs
  subst hw1
  obtain ⟨special, req, sink, waits, slot, owned, before, after, q, hint⟩ := s
  cases sink with
  | some f =>
    cases owned <;> cases ndebug <;>
      simp [submit_and_sync, hs, old_sync.get_sync_type, assert_holds, queue_to_use,
        submit_and_sync_epilogue, World.emit, World.store,
        World.submit_and_handle_with_semaphore, List.getElem?_set_self hlt,
        commandbuffer_slot.holds_lifetime_handler] at hfirst ⊢
  | none =>
    cases slot with
    | reference r =>
      cases owned <;> cases ndebug <;>
        simp [submit_and_sync, hs, old_sync.get_sync_type, assert_holds,
          submit_and_sync_epilogue, commandbuffer_slot.holds_reference,
          commandbuffer_slot.holds_lifetime_handler] at hfirst ⊢
    | lifetime_handler f =>
      cases owned <;> cases ndebug <;>
        simp [submit_and_sync, hs, old_sync.get_sync_type, assert_holds, queue_to_use,
          submit_and_sync_epilogue, World.emit, World.store,
          List.getElem?_set_self hlt, commandbuffer_slot.holds_reference,
          commandbuffer_slot.holds_lifetime_handler] at hfirst ⊢
    | monostate =>
      cases special with
      | none =>
        cases owned <;> cases ndebug <;>
          simp [submit_and_sync, hs, old_sync.get_sync_type, assert_holds, queue_to_use,
            submit_and_sync_epilogue, World.emit, World.store,
            List.getElem?_set_self hlt, commandbuffer_slot.holds_reference,
            commandbuffer_slot.holds_lifetime_handler] at hfirst ⊢
      | some t =>
        cases t <;> cases owned <;> cases ndebug <;>
          simp [submit_and_sync, hs, old_sync.get_sync_type, assert_holds, queue_to_use,
            submit_and_sync_epilogue, World.emit, World.store,
            World.submit_and_handle_with_semaphore,
            List.getElem?_set_self hlt, commandbuffer_slot.holds_reference,
            commandbuffer_slot.holds_lifetime_handler] at hfirst ⊢

/-- Witness of C22 on `example_wait_idle_world`: the second call stops at the failed
assertion and records nothing. -/
theorem submit_and_sync_second_call_witness :
    submit_and_sync false (submit_and_sync false example_wait_idle_world 0).1 0 =
      ((submit_and_sync false example_wait_idle_world 0).1,
       .failed .assertion_failed) :=
  Prod.ext
    (submit_and_sync_second_call false example_wait_idle_world _ 0 _ none rfl rfl rfl).1
    ((submit_and_sync_second_call false example_wait_idle_world _ 0 _ none rfl rfl
      rfl).2.2.1 (Or.inr (Or.inr (Or.inr rfl))))

/-! ## The two stealing modes compared -/

/-- C24: for every master, composing an auxiliary in steal-on-demand mode or in
steal-immediately mode for a hook and then invoking the auxiliary's hook once gives the
same world: the same trace and the same objects. Composition records the same calls in
both modes; the invocation records one call of the master's closure with the shared
command buffer and the given stage and access (nothing if the master had no hook), makes
no pool allocation, and leaves both the master's and the auxiliary's slot empty. If the
master's hook is itself a stealing lambda, the heap is required to hold no callback that
refers to the address the auxiliary is about to get. -/
theorem steal_modes_equivalent (ndebug : Bool) (request : commandbuffer_request)
    (w db ib da ia : World) (m : Nat) (other : hook_argument) (M : old_sync)
    (stage : pipeline_stage) (access : Option memory_access)
    (hM : w.instances[m]? = some M)
    (hfresh : ∀ k g, M.callback k = some (.steal_on_demand g) →
      ∀ (a : Nat) (s : old_sync), w.instances[a]? = some s →
        s.callback k ≠ some (.steal_on_demand w.instances.length))
    (hdb : db = (auxiliary_with_barriers ndebug request w m
      .steal_on_demand_sentinel other).1)
    (hib : ib = (auxiliary_with_barriers ndebug request w m
      .steal_immediately_sentinel other).1)
    (hda : da = (auxiliary_with_barriers ndebug request w m other
      .steal_on_demand_sentinel).1)
    (hia : ia = (auxiliary_with_barriers ndebug request w m other
      .steal_immediately_sentinel).1) :
    (establish_barrier_before_the_operation db w.instances.length stage access =
        establish_barrier_before_the_operation ib w.instances.length stage access ∧
      db.trace = ib.trace ∧
      (∀ id, M.mEstablishBarrierBeforeOperationCallback = some (.closure id) →
        (establish_barrier_before_the_operation db w.instances.length stage access).trace =
          db.trace ++ [.barrier_handler_called .before id
            (get_or_create_command_buffer w m).2 stage access]) ∧
      (M.mEstablishBarrierBeforeOperationCallback = none →
        (establish_barrier_before_the_operation db w.instances.length stage access).trace =
          db.trace) ∧
      alloc_count
          (establish_barrier_before_the_operation db w.instances.length stage
            access).trace = alloc_count db.trace ∧
      ∃ M3 A3,
        (establish_barrier_before_the_operation db w.instances.length stage
          access).instances[m]? = some M3 ∧
        M3.mEstablishBarrierBeforeOperationCallback = none ∧
        (establish_barrier_before_the_operation db w.instances.length stage
          access).instances[w.instances.length]? = some A3 ∧
        A3.mEstablishBarrierBeforeOperationCallback = none) ∧
    (establish_barrier_after_the_operation da w.instances.length stage access =
        establish_barrier_after_the_operation ia w.instances.length stage access ∧
      da.trace = ia.trace ∧
      (∀ id, M.mEstablishBarrierAfterOperationCallback = some (.closure id) →
        (establish_barrier_after_the_operation da w.instances.length stage access).trace =
          da.trace ++ [.barrier_handler_called .after id
            (get_or_create_command_buffer w m).2 stage access]) ∧
      (M.mEstablishBarrierAfterOperationCallback = none →
        (establish_barrier_after_the_operation da w.instances.length stage access).trace =
          da.trace) ∧
      alloc_count
          (establish_barrier_after_the_operation da w.instances.length stage
            access).trace = alloc_count da.trace ∧
      ∃ M3 A3,
        (establish_barrier_after_the_operation da w.instances.length stage
          access).instances[m]? = some M3 ∧
        M3.mEstablishBarrierAfterOperationCallback = none ∧
        (establish_barrier_after_the_operation da w.instances.length stage
          access).instances[w.instances.length]? = some A3 ∧
        A3.mEstablishBarrierAfterOperationCallback = none) := by
  have hne : w.instances.length ≠ m := Nat.ne_of_gt (lt_length_of_getElem? hM)
  obtain ⟨owned, hg, -, -⟩ := get_or_create_command_buffer_object w m M hM
  subst hdb hib hda hia
  refine ⟨?_, ?_⟩
  · obtain ⟨hm, ha⟩ := auxiliary_with_barriers_pair ndebug request w m
      .steal_on_demand_sentinel other M _ hM hg
    obtain ⟨h1, h2, h3⟩ := establish_barrier_steal_on_demand .before _ w.instances.length m
      _ _ (get_or_create_command_buffer w m).2 stage access ha hm hne rfl rfl
    have htd := (auxiliary_with_barriers_frame ndebug request w m
      .steal_on_demand_sentinel other M hM).1
    have hti := (auxiliary_with_barriers_frame ndebug request w m
      .steal_immediately_sentinel other M hM).1
    refine ⟨before_modes_agree ndebug request w m other M stage access hM
      (hfresh .before), htd.trans hti.symm, ?_, h3, ?_, ?_⟩
    · intro id hid
      rw [establish_barrier_before_the_operation, h2 (.closure id) hid, call_handler_closure]
      rfl
    · rcases establish_barrier_frame .before _ w.instances.length stage access with
        h | ⟨h, -⟩
      · rw [establish_barrier_before_the_operation, h]
      · rw [establish_barrier_before_the_operation, h,
          get_or_create_command_buffer_of_reference _ _ _ _ ha rfl]
    · obtain ⟨M3, hM3, hk3⟩ := h1
      obtain ⟨⟨A3, hA3, hka⟩, -, -⟩ := establish_barrier_once .before _ w.instances.length
        _ (.steal_on_demand m) stage stage access access ha rfl
      exact ⟨M3, A3, hM3, hk3, hA3, hka⟩
  · obtain ⟨hm, ha⟩ := auxiliary_with_barriers_pair ndebug request w m other
      .steal_on_demand_sentinel M _ hM hg
    obtain ⟨h1, h2, h3⟩ := establish_barrier_steal_on_demand .after _ w.instances.length m
      _ _ (get_or_create_command_buffer w m).2 stage access ha hm hne rfl rfl
    have htd := (auxiliary_with_barriers_frame ndebug request w m other
      .steal_on_demand_sentinel M hM).1
    have hti := (auxiliary_with_barriers_frame ndebug request w m other
      .steal_immediately_sentinel M hM).1
    refine ⟨after_modes_agree ndebug request w m other M stage access hM
      (hfresh .after), htd.trans hti.symm, ?_, h3, ?_, ?_⟩
    · intro id hid
      rw [establish_barrier_after_the_operation, h2 (.closure id) hid, call_handler_closure]
      rfl
    · rcases establish_barrier_frame .after _ w.instances.length stage access with
        h | ⟨h, -⟩
      · rw [establish_barrier_after_the_operation, h]
      · rw [establish_barrier_after_the_operation, h,
          get_or_create_command_buffer_of_reference _ _ _ _ ha rfl]
    · obtain ⟨M3, hM3, hk3⟩ := h1
      obtain ⟨⟨A3, hA3, hka⟩, -, -⟩ := establish_barrier_once .after _ w.instances.length
        _ (.steal_on_demand m) stage stage access access ha rfl
      exact ⟨M3, A3, hM3, hk3, hA3, hka⟩

/-- Witness of C24 on `example_hooks_world`: the after-hook (closure 6) of the master at
address 1, stolen on demand or immediately by the auxiliary built at address 2. -/
theorem steal_modes_equivalent_witness :
    establish_barrier_after_the_operation
        (auxiliary_with_barriers false .single_use example_hooks_world 1 (.explicit none)
          .steal_on_demand_sentinel).1 2 .transfer none =
      establish_barrier_after_the_operation
        (auxiliary_with_barriers false .single_use example_hooks_world 1 (.explicit none)
          .steal_immediately_sentinel).1 2 .transfer none :=
  (steal_modes_equivalent false .single_use example_hooks_world _ _ _ _ 1
    (.explicit none) _ .transfer none rfl
    (by
      intro k g h
      cases k <;>
        simp [old_sync.callback, old_sync.default_constructed, example_hooks_world] at h)
    rfl rfl rfl rfl).2.1

/-! ## A barrier hook across compositions, moves and invocations -/

/-- C23: let the closure `id` be held in at most one hook slot of kind `k` (before or
after), as it is once it is registered with a master. Compose an auxiliary from the
object at address `m` in steal-on-demand or steal-immediately mode for that kind, then run
any finite sequence of public operations none of which registers a new copy of the
closure: any interleaving of hook invocations on the master and on the auxiliary, of
moves, and of invocations on their sources and destinations is such a sequence. Then the
closure is called as a callback of kind `k` at most once in total, and once it has been
called no object holds it any more; the same is true of such a sequence run without the
composition. Moreover, in any world, a hook invocation on an auxiliary that still holds
the steal-on-demand lambda for a master whose slot is empty (the master has fired or lost
its hook) calls nothing: the trace is left as it is. A hook invocation is a total
function of the world and has no failing outcome. -/
theorem barrier_hook_invoked_at_most_once (ndebug : Bool) (request : commandbuffer_request)
    (w : World) (m : Nat) (k : hook_kind) (id : Nat) (b a : hook_argument)
    (ops : List operation)
    (honly : w.holders k id ≤ 1)
    (hmode : hook_argument.of_kind k b a = .steal_on_demand_sentinel ∨
      hook_argument.of_kind k b a = .steal_immediately_sentinel)
    (hops : ∀ op ∈ ops, op.passes_hook k id = true) :
    hook_calls k id (run_operations ndebug
          (auxiliary_with_barriers ndebug request w m b a).1 ops).trace +
        (run_operations ndebug
          (auxiliary_with_barriers ndebug request w m b a).1 ops).holders k id ≤
      hook_calls k id w.trace + 1 ∧
    hook_calls k id (run_operations ndebug w ops).trace +
        (run_operations ndebug w ops).holders k id ≤ hook_calls k id w.trace + 1 ∧
    (∀ (v : World) (x master cb : Nat) (X Mv : old_sync) (stage : pipeline_stage)
      (access : Option memory_access),
      v.instances[x]? = some X → X.callback k = some (.steal_on_demand master) →
      X.mCommandBufferRefOrLifetimeHandler = .reference cb →
      v.instances[master]? = some Mv → Mv.callback k = none →
      (establish_barrier k v x stage access).trace = v.trace) := by
  have harg : hook_argument.of_kind k b a ≠ .explicit (some (.closure id)) := by
    rcases hmode with h | h <;> rw [h] <;> exact fun hc => by cases hc
  obtain ⟨h1, h2⟩ := auxiliary_with_barriers_hooks ndebug request w m b a k id harg
  have h3 := run_operations_hooks ndebug k id ops
    (auxiliary_with_barriers ndebug request w m b a).1 hops
  have h4 := run_operations_hooks ndebug k id ops w hops
  refine ⟨by omega, by omega, ?_⟩
  intro v x master cb X Mv stage access hX hXk hXs hMv hMvk
  have hne : x ≠ master := by
    intro hxm
    subst hxm
    rw [hX] at hMv
    cases hMv
    rw [hXk] at hMvk
    cases hMvk
  exact (establish_barrier_steal_on_demand k v x master X Mv cb stage access hX hMv hne
    hXk hXs).2.2 hMvk

/-- C23 at a concrete input: on `example_hooks_world` an auxiliary steals the after-hook
(closure 6) of the master at address 1 on demand and `example_interleaving` runs; and
after the master's own invocation, the auxiliary at address 0 calls nothing. -/
theorem barrier_hook_invoked_at_most_once_witness :
    example_hooks_world.holders .after 6 ≤ 1 ∧
    hook_calls .after 6 (run_operations false
          (auxiliary_with_barriers false .single_use example_hooks_world 1
            (.explicit none) .steal_on_demand_sentinel).1 example_interleaving).trace +
        (run_operations false
          (auxiliary_with_barriers false .single_use example_hooks_world 1
            (.explicit none) .steal_on_demand_sentinel).1
          example_interleaving).holders .after 6 ≤
      hook_calls .after 6 example_hooks_world.trace + 1 ∧
    (establish_barrier .after
        (establish_barrier_after_the_operation example_hooks_world 1 .transfer none) 0
        .all_commands none).trace =
      (establish_barrier_after_the_operation example_hooks_world 1 .transfer none).trace :=
  ⟨by decide,
   (barrier_hook_invoked_at_most_once false .single_use example_hooks_world 1 .after 6
      (.explicit none) .steal_on_demand_sentinel example_interleaving (by decide)
      (Or.inl rfl) (by decide)).1,
   (barrier_hook_invoked_at_most_once false .single_use example_hooks_world 1 .after 6
      (.explicit none) .steal_on_demand_sentinel example_interleaving (by decide)
      (Or.inl rfl) (by decide)).2.2
      (establish_barrier_after_the_operation example_hooks_world 1 .transfer none) 0 1 3
      example_hooked
      { old_sync.default_constructed .single_use with mCommandBuffer := some 3 }
      .all_commands none (by decide) rfl rfl (by decide) rfl⟩

end avk
